import Mathlib

/-!
# ConduitDataCollection: mesh / field mapping to Blueprint documents

A shallow embedding of `fem/conduitdatacollection.cpp`.

* Conduit nodes are a tree whose leaves are typed array views (data pointer,
  element count, byte offset, byte stride).  Paths are given already split at
  the separator, so the path "topologies/main" is `["topologies", "main"]`.
* A pointer is a memory block (its identity and its cells) plus a byte offset.
* Failures (`MFEM_ABORT`, a failed `MFEM_ASSERT`, an exception raised by the
  conduit library, an out-of-bounds access) are values of `Error`.
-/

namespace mfem

/-! ## Failures -/

/-- The ways a call can fail. -/
inductive Error where
  /-- MFEM_ABORT with its message. -/
  | abort (msg : String)
  /-- A failed MFEM_ASSERT (debug builds only) with its message. -/
  | assertion (msg : String)
  /-- An exception raised by the conduit library. -/
  | conduit (msg : String)
  /-- An access outside the bounds of an array or a null dereference. -/
  | outOfBounds (msg : String)
  deriving DecidableEq, Repr

/-- Equality of outcomes is decidable. -/
instance instDecidableEqExcept {ε α : Type} [DecidableEq ε] [DecidableEq α] :
    DecidableEq (Except ε α)
  | .ok a, .ok b => if h : a = b then isTrue (by rw [h]) else isFalse (by intro c; cases c; exact h rfl)
  | .error a, .error b =>
    if h : a = b then isTrue (by rw [h]) else isFalse (by intro c; cases c; exact h rfl)
  | .ok _, .error _ => isFalse (by intro c; cases c)
  | .error _, .ok _ => isFalse (by intro c; cases c)

/-! ## Element types and geometries -/

/-- The enumeration Element::Type, as listed in the comment of
ElementTypeToShapeName. -/
inductive ElementType where
  | POINT | SEGMENT | TRIANGLE | QUADRILATERAL | TETRAHEDRON | HEXAHEDRON
  deriving DecidableEq, Repr

/-- The geometries of Geometry::Type that the collection uses. -/
inductive GeometryType where
  | POINT | SEGMENT | TRIANGLE | SQUARE | TETRAHEDRON | CUBE
  deriving DecidableEq, Repr

/-- Modelled from the spec: the table Geometry::NumVerts (declared outside the
shown sources), the "vertices_per_shape" of each geometry. -/
def NumVerts : GeometryType → Nat
  | .POINT => 1
  | .SEGMENT => 2
  | .TRIANGLE => 3
  | .SQUARE => 4
  | .TETRAHEDRON => 4
  | .CUBE => 8

/-- Modelled from the spec: the geometry of an element of a given type
(Element::GetGeometryType of the element classes, declared outside the shown
sources): point, line, triangle, quadrilateral, tetrahedron, hexahedron. -/
def GetGeometryType : ElementType → GeometryType
  | .POINT => .POINT
  | .SEGMENT => .SEGMENT
  | .TRIANGLE => .TRIANGLE
  | .QUADRILATERAL => .SQUARE
  | .TETRAHEDRON => .TETRAHEDRON
  | .HEXAHEDRON => .CUBE

/-- ConduitDataCollection::ElementTypeToShapeName.  The switch covers every
enumerator, so the trailing `return "unknown"` is not reached. -/
def ElementTypeToShapeName : ElementType → String
  | .POINT => "point"
  | .SEGMENT => "line"
  | .TRIANGLE => "tri"
  | .QUADRILATERAL => "quad"
  | .TETRAHEDRON => "tet"
  | .HEXAHEDRON => "hex"

/-- ConduitDataCollection::ShapeNameToGeomType. -/
def ShapeNameToGeomType (shape_name : String) : Except Error GeometryType :=
  if shape_name = "point" then .ok .POINT
  else if shape_name = "line" then .ok .SEGMENT
  else if shape_name = "tri" then .ok .TRIANGLE
  else if shape_name = "quad" then .ok .SQUARE
  else if shape_name = "tet" then .ok .TETRAHEDRON
  else if shape_name = "hex" then .ok .CUBE
  else .error (.abort ("Unsupported Element Shape: " ++ shape_name))

/-! ## Memory

A memory block is a sequence of cells, each holding one scalar of a given
width in bytes.  A pointer is a block together with a byte offset into it. -/

/-- A double-precision value, written as the dyadic rational `m * 2 ^ e`. -/
structure Double where
  m : Int
  e : Int
  deriving DecidableEq, Repr

/-- The content of one array element. -/
inductive Scalar where
  | int (v : Int)
  | real (v : Double)
  deriving DecidableEq, Repr

/-- The identity of a memory block: memory that exists outside the call
(vertex storage, field data, the buffers of a document handed in by the
caller), or memory allocated during the call and named after the variable or
document path that owns it. -/
inductive Region where
  | ext (id : Nat)
  | node (name : String)
  deriving DecidableEq, Repr

/-- One cell of memory: a scalar stored in `bytes` bytes. -/
structure Cell where
  bytes : Nat
  val : Scalar
  deriving DecidableEq, Repr

/-- A memory block. -/
structure Buffer where
  region : Region
  cells : List Cell
  deriving DecidableEq, Repr

/-- A block of `vals`, each stored in `width` bytes. -/
def Buffer.uniform (region : Region) (width : Nat) (vals : List Scalar) : Buffer :=
  ⟨region, vals.map (Cell.mk width)⟩

/-- A pointer: a block and a byte offset from its start. -/
structure Ptr where
  buf : Buffer
  off : Nat
  deriving DecidableEq, Repr

/-- The cell that starts exactly at byte `b` of a sequence of cells. -/
def cellAt : List Cell → Nat → Option Cell
  | [], _ => none
  | c :: cs, b =>
    if b = 0 then some c
    else if b < c.bytes then none
    else cellAt cs (b - c.bytes)

/-- Pointer arithmetic in bytes. -/
def Ptr.add (p : Ptr) (bytes : Nat) : Ptr := ⟨p.buf, p.off + bytes⟩

/-- The address a pointer holds, for pointer comparisons. -/
def Ptr.addr (p : Ptr) : Region × Nat := (p.buf.region, p.off)

/-- Read a scalar of `width` bytes at `byte` bytes past the pointer; `none`
when no cell of that width starts there. -/
def Ptr.read (p : Ptr) (byte width : Nat) : Option Scalar :=
  match cellAt p.buf.cells (p.off + byte) with
  | some c => if c.bytes = width then some c.val else none
  | none => none

/-- Read `n` scalars of `width` bytes, the first at `byte` bytes past the
pointer and each next one `stride` bytes further. -/
def Ptr.load (p : Ptr) (width stride : Nat) : Nat → Nat → Option (List Scalar)
  | 0, _ => some []
  | n + 1, byte =>
    match p.read byte width with
    | none => none
    | some x => (Ptr.load p width stride n (byte + stride)).map (x :: ·)

/-- Element `k` of an array of doubles that starts at the pointer. -/
def Ptr.double_at (p : Ptr) (k : Nat) : Option Scalar := p.read (8 * k) 8

/-- Element `k` of an array of native ints that starts at the pointer. -/
def Ptr.int_at (p : Ptr) (k : Nat) : Option Scalar := p.read (4 * k) 4

/-! ## Conduit nodes -/

/-- The type ids of conduit leaves that occur here. -/
inductive DTypeId where
  | EMPTY | OBJECT | INT32 | INT64 | FLOAT64 | CHAR8_STR
  deriving DecidableEq, Repr

/-- DataType::default_bytes. -/
def DTypeId.default_bytes : DTypeId → Nat
  | .EMPTY => 0
  | .OBJECT => 0
  | .INT32 => 4
  | .INT64 => 8
  | .FLOAT64 => 8
  | .CHAR8_STR => 1

/-- A conduit DataType: type id, element count, byte offset, byte stride and
element size. -/
structure DataType where
  id : DTypeId
  num_ele : Nat
  offset : Nat
  stride : Nat
  ele_bytes : Nat
  deriving DecidableEq, Repr

/-- DataType::c_int(n): `n` native ints, compact. -/
def DataType.c_int (n : Nat) : DataType := ⟨.INT32, n, 0, 4, 4⟩

/-- DataType::float64(n, offset, stride). -/
def DataType.float64 (n offset stride : Nat) : DataType := ⟨.FLOAT64, n, offset, stride, 8⟩

/-- DataType::total_bytes: the extent `stride * num_ele`. -/
def DataType.total_bytes (dt : DataType) : Nat := dt.stride * dt.num_ele

/-- DataType::total_bytes_compact. -/
def DataType.total_bytes_compact (dt : DataType) : Nat := dt.id.default_bytes * dt.num_ele

/-- DataType::is_compact. -/
def DataType.is_compact (dt : DataType) : Bool :=
  dt.id ≠ .EMPTY && dt.id ≠ .OBJECT && dt.total_bytes == dt.total_bytes_compact

/-- DataType::is_int: the native C int. -/
def DataType.is_int (dt : DataType) : Bool := dt.id == .INT32

/-- DataType::is_double. -/
def DataType.is_double (dt : DataType) : Bool := dt.id == .FLOAT64

/-- DataType::is_object. -/
def DataType.is_object (dt : DataType) : Bool := dt.id == .OBJECT

/-- DataType::is_empty. -/
def DataType.is_empty (dt : DataType) : Bool := dt.id == .EMPTY

/-- A conduit Node: empty, a string, a typed array view on memory, or an
object with named children in insertion order. -/
inductive Node where
  | empty
  | str (s : String)
  | leaf (dtype : DataType) (data : Ptr)
  | object (children : List (String × Node))

namespace Node

/-- The children of a node (none unless it is an object). -/
def children : Node → List (String × Node)
  | .object cs => cs
  | _ => []

/-- Node::number_of_children. -/
def number_of_children (n : Node) : Nat := n.children.length

/-- The child with a given name, if there is one. -/
def child? (n : Node) (name : String) : Option Node := n.children.lookup name

/-- Node::has_child: is there a direct child with exactly this name. -/
def has_child (n : Node) (name : String) : Bool := (n.child? name).isSome

/-- Follow a path, one child name per step. -/
def fetch? (n : Node) : List String → Option Node
  | [] => some n
  | c :: rest =>
    match n.child? c with
    | some ch => ch.fetch? rest
    | none => none

/-- Node::has_path. -/
def has_path (n : Node) (path : List String) : Bool := (n.fetch? path).isSome

/-- The const `operator[]`: conduit raises an error when the path is absent. -/
def fetch_const (n : Node) (path : List String) : Except Error Node :=
  match n.fetch? path with
  | some r => .ok r
  | none => .error (.conduit ("Cannot fetch non-existent path: " ++ "/".intercalate path))

/-- Node::child(idx): child number `idx`. -/
def child (n : Node) (idx : Nat) : Except Error Node :=
  match n.children[idx]? with
  | some c => .ok c.2
  | none => .error (.outOfBounds "Node::child")

/-- Replace the child called `name`, or append it when there is none. -/
def setChild : List (String × Node) → String → Node → List (String × Node)
  | [], name, v => [(name, v)]
  | (k, c) :: rest, name, v =>
    if k = name then (k, v) :: rest else (k, c) :: setChild rest name v

/-- Assignment through the non-const `operator[]`: every missing node on the
path is created, and a node on the path that is not an object becomes one. -/
def set (n : Node) : List String → Node → Node
  | [], v => v
  | c :: rest, v =>
    .object (setChild n.children c (Node.set ((n.child? c).getD .empty) rest v))

/-- Node::dtype. -/
def dtype : Node → DataType
  | .empty => ⟨.EMPTY, 0, 0, 0, 0⟩
  | .str s => ⟨.CHAR8_STR, s.length + 1, 0, 1, 1⟩
  | .leaf dt _ => dt
  | .object _ => ⟨.OBJECT, 0, 0, 0, 0⟩

/-- Node::as_string; conduit raises an error on any other node. -/
def as_string : Node → Except Error String
  | .str s => .ok s
  | _ => .error (.conduit "Node::as_string: not a string")

/-- Node::element_ptr(0). -/
def element_ptr0 : Node → Option Ptr
  | .leaf dt p => some (p.add dt.offset)
  | _ => none

/-- The conversion of Node::value() to `double *`. -/
def as_double_ptr : Node → Except Error Ptr
  | .leaf dt p =>
    if dt.id = .FLOAT64 then .ok (p.add dt.offset)
    else .error (.conduit "Node::as_float64_ptr: type mismatch")
  | _ => .error (.conduit "Node::as_float64_ptr: type mismatch")

/-- The conversion of Node::value() to `int *`. -/
def as_int_ptr : Node → Except Error Ptr
  | .leaf dt p =>
    if dt.id = .INT32 then .ok (p.add dt.offset)
    else .error (.conduit "Node::as_int_ptr: type mismatch")
  | _ => .error (.conduit "Node::as_int_ptr: type mismatch")

/-- Node::set_external(double *, num_elements, offset, stride). -/
def set_external (data : Ptr) (num_elements offset stride : Nat) : Node :=
  .leaf (DataType.float64 num_elements offset stride) data

mutual
/-- Node::contiguous_with(start_addr, end_addr): the result and the new end
address.  A leaf is contiguous with `start` when no start is given or its
first element lies at `start`; its end is its first element plus its extent.
Empty nodes are contiguous with everything.  A string owns storage of its
own, which follows no other block. -/
def contiguous_with : Node → Option (Region × Nat) → Option (Region × Nat) →
    Bool × Option (Region × Nat)
  | .object cs, start, end_addr => contiguous_children cs start end_addr
  | .leaf dt p, start, _ =>
    let curr := (p.add dt.offset).addr
    if start.isSome && start != some curr then (false, none)
    else (true, some (curr.1, curr.2 + dt.total_bytes))
  | .str _, start, _ => (start.isNone, none)
  | .empty, _, end_addr => (true, end_addr)
/-- The loop of contiguous_with over the children of an object. -/
def contiguous_children : List (String × Node) → Option (Region × Nat) →
    Option (Region × Nat) → Bool × Option (Region × Nat)
  | [], _, end_addr => (true, end_addr)
  | (_, c) :: rest, start, end_addr =>
    match contiguous_with c start end_addr with
    | (false, e) => (false, e)
    | (true, e) => contiguous_children rest e e
end

/-- Node::is_contiguous. -/
def is_contiguous (n : Node) : Bool := (contiguous_with n none none).1

mutual
/-- Node::is_compact: a leaf whose extent equals its compact size, or an
object whose children are all compact. -/
def is_compact : Node → Bool
  | .object cs => all_compact cs
  | .leaf dt _ => dt.is_compact
  | .str _ => true
  | .empty => false
/-- Are all children compact. -/
def all_compact : List (String × Node) → Bool
  | [] => true
  | (_, c) :: rest => is_compact c && all_compact rest
end

/-- The address of element 0 of a node; `none` (the null pointer) when the
node holds no array. -/
def element_addr0 (n : Node) : Option (Region × Nat) := n.element_ptr0.map Ptr.addr

/-- DataType::element_bytes of the node. -/
def element_bytes (n : Node) : Nat := n.dtype.ele_bytes

/-- The elements of an array view, read through its offset and stride. -/
def elements : Node → Option (List Scalar)
  | .leaf dt p => p.load dt.ele_bytes dt.stride dt.num_ele dt.offset
  | _ => none

end Node

/-- The numeric cast of an element to double. -/
def Scalar.to_double : Scalar → Scalar
  | .int v => .real ⟨v, 0⟩
  | .real d => .real d

/-- The numeric cast of an element to the native int: doubles are truncated
toward zero, wider integers wrap to 32 bits. -/
def Scalar.to_int : Scalar → Scalar
  | .int v => .int ((v + 2 ^ 31) % 2 ^ 32 - 2 ^ 31)
  | .real d =>
    if 0 ≤ d.e then .int (d.m * 2 ^ d.e.toNat) else .int (Int.tdiv d.m (2 ^ (-d.e).toNat))

/-- The zero element of a type id (freshly allocated node memory is zeroed). -/
def Scalar.zero : DTypeId → Scalar
  | .FLOAT64 => .real ⟨0, 0⟩
  | _ => .int 0

namespace Node

/-- Node::to_double_array(dest): a compact array of doubles in memory owned
by `dest`, holding the cast elements; an error on nodes that hold no array. -/
def to_double_array (n : Node) (dest : String) : Except Error Node :=
  match n with
  | .leaf dt _ =>
    match n.elements with
    | some xs =>
      .ok (.leaf (DataType.float64 dt.num_ele 0 8)
        ⟨Buffer.uniform (.node dest) 8 (xs.map Scalar.to_double), 0⟩)
    | none => .error (.outOfBounds "Node::to_double_array")
  | _ => .error (.conduit "Node::to_double_array: not an array")

/-- Node::to_int_array(dest): a compact array of native ints in memory owned
by `dest`, holding the cast elements; an error on nodes that hold no array. -/
def to_int_array (n : Node) (dest : String) : Except Error Node :=
  match n with
  | .leaf dt _ =>
    match n.elements with
    | some xs =>
      .ok (.leaf (DataType.c_int dt.num_ele)
        ⟨Buffer.uniform (.node dest) 4 (xs.map Scalar.to_int), 0⟩)
    | none => .error (.outOfBounds "Node::to_int_array")
  | _ => .error (.conduit "Node::to_int_array: not an array")

end Node

/-! ### Multi-component arrays (blueprint::mcarray) -/

namespace mcarray

/-- The loop of is_interleaved: the start pointer and stride are taken from
the first child that has them; every child must start `total` bytes after the
start pointer and have that stride. -/
def interleaved_loop : List (String × Node) → Option (Region × Nat) → Nat → Nat →
    Bool × Nat × Nat
  | [], _, stride, total => (true, stride, total)
  | (_, c) :: rest, starting, stride, total =>
    let starting1 := if starting.isNone then c.element_addr0 else starting
    let stride1 := if starting.isNone then c.dtype.stride else stride
    let at_place : Bool :=
      match starting1, c.element_addr0 with
      | some s, some a => (s.1, s.2 + total) == a
      | none, none => total == 0
      | _, _ => false
    if at_place && c.dtype.stride == stride1 then
      interleaved_loop rest starting1 stride1 (total + c.element_bytes)
    else (false, stride1, total + c.element_bytes)

/-- The check blueprint::mcarray::is_interleaved: the components start one
element after another and the stride of each is the size of a whole tuple. -/
def is_interleaved (n : Node) : Bool :=
  match interleaved_loop n.children none 0 0 with
  | (ok, stride, total) => ok && stride == total

/-- The arrays of the children of an mcarray: name, type and elements.  An
mcarray holds arrays only; any other child is an error. -/
def components : List (String × Node) → Except Error (List (String × DataType × List Scalar))
  | [] => .ok []
  | (name, c) :: rest =>
    match c, c.elements with
    | .leaf dt _, some xs =>
      match components rest with
      | .ok r => .ok ((name, dt, xs) :: r)
      | .error e => .error e
    | .leaf _ _, none => .error (.outOfBounds "mcarray component")
    | _, _ => .error (.conduit "mcarray component is not an array")

/-- The children of the destination of to_contiguous: same names and types,
compact, one block after the other from `offset` on. -/
def contiguous_children (buf : Buffer) :
    List (String × DataType × List Scalar) → Nat → List (String × Node)
  | [], _ => []
  | (name, dt, _) :: rest, offset =>
    (name, .leaf ⟨dt.id, dt.num_ele, offset, dt.id.default_bytes, dt.id.default_bytes⟩ ⟨buf, 0⟩)
      :: contiguous_children buf rest (offset + dt.id.default_bytes * dt.num_ele)

/-- The function blueprint::mcarray::to_contiguous into memory owned by
`dest`: the components one after the other, each compact. -/
def to_contiguous (src : Node) (dest : String) : Except Error Node :=
  match components src.children with
  | .error e => .error e
  | .ok comps =>
    let buf : Buffer := ⟨.node dest,
      comps.flatMap (fun c => c.2.2.map (Cell.mk c.2.1.id.default_bytes))⟩
    .ok (.object (contiguous_children buf comps 0))

/-- The children of the destination of to_interleaved: same names and types,
each starting one element after the previous one, with the tuple size as
stride. -/
def interleaved_children (buf : Buffer) (stride : Nat) :
    List (String × DataType × List Scalar) → Nat → List (String × Node)
  | [], _ => []
  | (name, dt, _) :: rest, offset =>
    (name, .leaf ⟨dt.id, dt.num_ele, offset, stride, dt.id.default_bytes⟩ ⟨buf, 0⟩)
      :: interleaved_children buf stride rest (offset + dt.id.default_bytes)

/-- The function blueprint::mcarray::to_interleaved into memory owned by
`dest`: tuple after tuple, a component that is shorter than another being
padded with zeros. -/
def to_interleaved (src : Node) (dest : String) : Except Error Node :=
  match components src.children with
  | .error e => .error e
  | .ok comps =>
    let stride := (comps.map (fun c => c.2.1.id.default_bytes)).sum
    let rows := (comps.map (fun c => c.2.2.length)).foldr max 0
    let buf : Buffer := ⟨.node dest,
      (List.range rows).flatMap (fun i =>
        comps.map (fun c => Cell.mk c.2.1.id.default_bytes (c.2.2.getD i (Scalar.zero c.2.1.id))))⟩
    .ok (.object (interleaved_children buf stride comps 0))

end mcarray

/-! ## Fields -/

/-- Ordering::Type. -/
inductive Ordering where
  | byNODES | byVDIM
  deriving DecidableEq, Repr

/-- What the collection uses of a FiniteElementSpace: the name of its
collection, the vector dimension, the number of dofs and the ordering. -/
structure FiniteElementSpace where
  fec_name : String
  vdim : Nat
  ndofs : Nat
  ordering : Ordering
  deriving DecidableEq, Repr

/-- FiniteElementSpace::GetVSize. -/
def FiniteElementSpace.GetVSize (fes : FiniteElementSpace) : Nat := fes.vdim * fes.ndofs

/-- A GridFunction: its space and the pointer to its values (GetData). -/
structure GridFunction where
  fes : FiniteElementSpace
  data : Ptr
  deriving DecidableEq, Repr

/-- Modelled from the spec: the index of component `vd` of dof `dof` in the
value array (FiniteElementSpace::DofToVDof, declared outside the shown
sources): "for byNODES ordering, component d occupies contiguous block
[d*ndofs, (d+1)*ndofs); for byVDIM, component d occupies indices
d, d+vdim, d+2vdim, ...". -/
def FiniteElementSpace.DofToVDof (fes : FiniteElementSpace) (dof vd : Nat) : Nat :=
  match fes.ordering with
  | .byNODES => dof + vd * fes.ndofs
  | .byVDIM => vd + dof * fes.vdim

/-- The value a field holds for component `vd` of dof `dof`. -/
def GridFunction.value (gf : GridFunction) (dof vd : Nat) : Option Scalar :=
  gf.data.double_at (gf.fes.DofToVDof dof vd)

/-- The decimal digits of `n`, most significant first (`fuel` bounds the
number of digits). -/
def decimalDigits : Nat → Nat → List Char
  | 0, _ => []
  | fuel + 1, n =>
    if n < 10 then [Char.ofNat (48 + n)]
    else decimalDigits fuel (n / 10) ++ [Char.ofNat (48 + n % 10)]

/-- What `oss << d` writes for a non-negative int: its decimal digits. -/
def decimal (n : Nat) : String := String.mk (decimalDigits (n + 1) n)

/-- The component name built by `oss << "v" << d`. -/
def comp_name (d : Nat) : String := "v" ++ decimal d

/-- The loop `for (d = 0; d < vdim; d++)` of GridFunctionToBlueprintField,
with `todo` iterations left: each one sets values/v<d> to a view of `ndofs`
doubles at `offset` with the given stride and advances the offset. -/
def GridFunctionToBlueprintField.loop (data : Ptr) (ndofs stride vdim_stride : Nat) :
    Nat → Nat → Nat → Node → Node
  | 0, _, _, n_field => n_field
  | todo + 1, d, offset, n_field =>
    GridFunctionToBlueprintField.loop data ndofs stride vdim_stride todo (d + 1)
      (offset + 8 * vdim_stride)
      (n_field.set ["values", comp_name d] (Node.set_external data ndofs offset stride))

/-- ConduitDataCollection::GridFunctionToBlueprintField. -/
def GridFunctionToBlueprintField (gf : GridFunction) (n_field : Node) : Node :=
  let n_field := n_field.set ["basis"] (.str gf.fes.fec_name)
  let n_field := n_field.set ["topology"] (.str "main")
  let vdim := gf.fes.vdim
  let ndofs := gf.fes.ndofs
  if vdim = 1 then
    n_field.set ["values"] (Node.set_external gf.data ndofs 0 8)
  else
    let entry_stride := if gf.fes.ordering = .byNODES then 1 else vdim
    let vdim_stride := if gf.fes.ordering = .byNODES then ndofs else 1
    GridFunctionToBlueprintField.loop gf.data ndofs (8 * entry_stride) vdim_stride vdim 0 0 n_field

/-- Modelled from the spec: GridFunction::NewDataAndSize (declared outside the
shown sources) in the "copy case": the field is built "by copying into newly
owned storage", here `size` doubles read from `vals_ptr`. -/
def NewDataAndSize (fes : FiniteElementSpace) (vals_ptr : Ptr) (size : Nat) :
    Except Error GridFunction :=
  match vals_ptr.load 8 8 size 0 with
  | some xs => .ok ⟨fes, ⟨Buffer.uniform (.node "GridFunction") 8 xs, 0⟩⟩
  | none => .error (.outOfBounds "GridFunction::NewDataAndSize")

/-- The first part of BlueprintFieldToGridFunction: vdim, ordering, the
pointer to the values and the node n_conv of converted data. -/
def BlueprintFieldToGridFunction.values (n_field : Node) :
    Except Error (Nat × Ordering × Ptr × Node) := do
  let n_conv := Node.empty
  let n_values ← n_field.fetch_const ["values"]
  if n_values.dtype.is_object then
    let vdim := n_values.number_of_children
    if n_values.is_contiguous then
      let vals_ptr ← (← n_values.child 0).as_double_ptr
      pure (vdim, .byNODES, vals_ptr, n_conv)
    else if mcarray.is_interleaved n_values then
      let vals_ptr ← (← n_values.child 0).as_double_ptr
      pure (vdim, .byVDIM, vals_ptr, n_conv)
    else
      let n_conv := n_conv.set ["values"] (← mcarray.to_contiguous n_values "n_conv/values")
      let vals_ptr ← (← (← n_conv.fetch_const ["values"]).child 0).as_double_ptr
      pure (vdim, .byNODES, vals_ptr, n_conv)
  else
    if n_values.dtype.is_double && n_values.is_compact then
      let vals_ptr ← n_values.as_double_ptr
      pure (1, .byNODES, vals_ptr, n_conv)
    else
      let n_conv := n_conv.set ["values"] (← n_values.to_double_array "n_conv/values")
      let vals_ptr ← (← n_conv.fetch_const ["values"]).as_double_ptr
      pure (1, .byNODES, vals_ptr, n_conv)

/-- ConduitDataCollection::BlueprintFieldToGridFunction.  The mesh enters
through `GetNDofs` only: the number of dofs of the space that the collection
named by the basis spans on the mesh, `none` when the name is not that of a
known collection (FiniteElementCollection::New aborts). -/
def BlueprintFieldToGridFunction (GetNDofs : String → Option Nat) (n_field : Node)
    (zero_copy : Bool) : Except Error GridFunction := do
  let (vdim, ordering, vals_ptr, n_conv) ← BlueprintFieldToGridFunction.values n_field
  let zero_copy := if zero_copy && !n_conv.dtype.is_empty then false else zero_copy
  let fec_name ← (← n_field.fetch_const ["basis"]).as_string
  match GetNDofs fec_name with
  | none => .error (.abort ("Unknown FiniteElementCollection: " ++ fec_name))
  | some ndofs =>
    let fes : FiniteElementSpace := ⟨fec_name, vdim, ndofs, ordering⟩
    if zero_copy then
      pure ⟨fes, vals_ptr⟩
    else
      NewDataAndSize fes vals_ptr fes.GetVSize

/-! ## Meshes -/

/-- A Vertex: three doubles (`double coord[3]`), whatever the space
dimension. -/
structure Vertex where
  x : Double
  y : Double
  z : Double
  deriving DecidableEq, Repr

/-- Coordinate `a` of a vertex. -/
def Vertex.coord (v : Vertex) (a : Nat) : Double :=
  match a with
  | 0 => v.x
  | 1 => v.y
  | _ => v.z

/-- The size of a Vertex in bytes. -/
def sizeof_Vertex : Nat := 24

/-- The size of a double in bytes. -/
def sizeof_double : Nat := 8

/-- The size of an int in bytes. -/
def sizeof_int : Nat := 4

/-- An Element: its type (GetType), its attribute and its vertex indices
(GetVertices). -/
structure Element where
  GetType : ElementType
  GetAttribute : Int
  GetVertices : List Int
  deriving DecidableEq, Repr

/-- A Mesh as the export sees it: space dimension, vertex storage (with the
identity of its memory), elements, boundary elements and the nodes field. -/
structure Mesh where
  spaceDim : Nat
  vertices_id : Nat
  vertices : List Vertex
  elements : List Element
  boundary : List Element
  Nodes : Option GridFunction
  deriving DecidableEq, Repr

namespace Mesh

/-- Mesh::SpaceDimension. -/
def SpaceDimension (mesh : Mesh) : Nat := mesh.spaceDim

/-- Mesh::GetNV. -/
def GetNV (mesh : Mesh) : Nat := mesh.vertices.length

/-- Mesh::GetNE. -/
def GetNE (mesh : Mesh) : Nat := mesh.elements.length

/-- Mesh::GetNBE. -/
def GetNBE (mesh : Mesh) : Nat := mesh.boundary.length

/-- The memory of the vertex array: the vertices one after the other, three
doubles each. -/
def vertex_storage (mesh : Mesh) : Buffer :=
  Buffer.uniform (.ext mesh.vertices_id) 8
    (mesh.vertices.flatMap (fun v => [Scalar.real v.x, Scalar.real v.y, Scalar.real v.z]))

/-- Mesh::GetVertex(0): the address of the first coordinate of the vertex
array (nothing is read through it here). -/
def GetVertex0 (mesh : Mesh) : Ptr := ⟨mesh.vertex_storage, 0⟩

/-- Mesh::GetElement(i); an index past the end is an out-of-bounds access. -/
def GetElement (mesh : Mesh) (i : Nat) : Except Error Element :=
  match mesh.elements[i]? with
  | some e => .ok e
  | none => .error (.outOfBounds "Mesh::GetElement")

/-- Mesh::GetBdrElement(i); an index past the end is an out-of-bounds
access. -/
def GetBdrElement (mesh : Mesh) (i : Nat) : Except Error Element :=
  match mesh.boundary[i]? with
  | some e => .ok e
  | none => .error (.outOfBounds "Mesh::GetBdrElement")

/-- Mesh::GetElementBaseGeometry(i). -/
def GetElementBaseGeometry (mesh : Mesh) (i : Nat) : Except Error GeometryType :=
  (mesh.GetElement i).map (fun e => GetGeometryType e.GetType)

/-- Mesh::GetBdrElementBaseGeometry(i). -/
def GetBdrElementBaseGeometry (mesh : Mesh) (i : Nat) : Except Error GeometryType :=
  (mesh.GetBdrElement i).map (fun e => GetGeometryType e.GetType)

/-- Mesh::GetAttribute(i). -/
def GetAttribute (mesh : Mesh) (i : Nat) : Except Error Int :=
  (mesh.GetElement i).map Element.GetAttribute

/-- Mesh::GetBdrAttribute(i). -/
def GetBdrAttribute (mesh : Mesh) (i : Nat) : Except Error Int :=
  (mesh.GetBdrElement i).map Element.GetAttribute

end Mesh

/-- The call `memcpy(dst + pos, src, n * sizeof(int))` on int arrays: `n`
ints of `src` overwrite `dst` from index `pos` on.  Reading past the end of
`src` or writing past the end of `dst` is an out-of-bounds access. -/
def memcpy (dst : List Int) (pos : Nat) (src : List Int) (n : Nat) : Except Error (List Int) :=
  if src.length < n then .error (.outOfBounds "memcpy: read past the end of the source")
  else if dst.length < pos + n then
    .error (.outOfBounds "memcpy: write past the end of the destination")
  else .ok (dst.take pos ++ src.take n ++ dst.drop (pos + n))

/-- The connectivity loops of MeshToBlueprintMesh: for each element in turn,
memcpy `idxs_per_ele` of its vertex indices to `conn_ptr` and advance
`conn_ptr` by `idxs_per_ele`. -/
def copy_connectivity (idxs_per_ele : Nat) : List Element → List Int → Nat →
    Except Error (List Int)
  | [], conn, _ => .ok conn
  | ele :: rest, conn, conn_ptr =>
    match memcpy conn conn_ptr ele.GetVertices idxs_per_ele with
    | .ok conn1 => copy_connectivity idxs_per_ele rest conn1 (conn_ptr + idxs_per_ele)
    | .error e => .error e

/-- The attribute loops of MeshToBlueprintMesh: `for (i = 0; i < count; i++)
vals[i] = get(i)`, with `todo` iterations left. -/
def fill_attributes (get : Nat → Except Error Int) : Nat → Nat → List Int →
    Except Error (List Int)
  | 0, _, vals => .ok vals
  | todo + 1, i, vals =>
    match get i with
    | .ok a => fill_attributes get todo (i + 1) (vals.set i a)
    | .error e => .error e

/-- A node holding a compact array of native ints in memory of its own
(`set(DataType::c_int(n))` followed by the writes that fill it). -/
def Node.int_array (owner : String) (vals : List Int) : Node :=
  .leaf (DataType.c_int vals.length) ⟨Buffer.uniform (.node owner) 4 (vals.map Scalar.int), 0⟩

/-! ## MeshToBlueprintMesh

The function is given section by section, in the order of the source; the
statement that prints `idxs_per_ele` to standard output is left out. -/

/-- The section "Setup main coordset coords" of MeshToBlueprintMesh. -/
def MeshToBlueprintMesh.coordset (mesh : Mesh) (n_mesh : Node) : Node :=
  let dim := mesh.SpaceDimension
  let num_coords := sizeof_Vertex / sizeof_double
  let num_vertices := mesh.GetNV
  let n_mesh := n_mesh.set ["coordsets", "coords", "type"] (.str "explicit")
  let coords_ptr := mesh.GetVertex0
  let n_mesh := n_mesh.set ["coordsets", "coords", "values", "x"]
    (Node.set_external coords_ptr num_vertices 0 (sizeof_double * num_coords))
  let n_mesh :=
    if dim ≥ 2 then
      n_mesh.set ["coordsets", "coords", "values", "y"]
        (Node.set_external coords_ptr num_vertices sizeof_double (sizeof_double * num_coords))
    else n_mesh
  let n_mesh :=
    if dim ≥ 3 then
      n_mesh.set ["coordsets", "coords", "values", "z"]
        (Node.set_external coords_ptr num_vertices (sizeof_double * 2) (sizeof_double * num_coords))
    else n_mesh
  n_mesh

/-- The section "Setup main topo main" of MeshToBlueprintMesh, with the
export of the nodes field that follows it. -/
def MeshToBlueprintMesh.main_topology (mesh : Mesh) (n_mesh : Node) : Except Error Node := do
  let n_mesh := n_mesh.set ["topologies", "main", "type"] (.str "unstructured")
  let n_mesh := n_mesh.set ["topologies", "main", "coordset"] (.str "coords")
  let ele_type := (← mesh.GetElement 0).GetType
  let ele_shape := ElementTypeToShapeName ele_type
  let n_mesh := n_mesh.set ["topologies", "main", "elements", "shape"] (.str ele_shape)
  let gf_mesh_nodes := mesh.Nodes
  let n_mesh :=
    if gf_mesh_nodes.isSome then
      n_mesh.set ["topologies", "main", "grid_function"] (.str "mesh_nodes")
    else n_mesh
  let num_ele := mesh.GetNE
  let geom ← mesh.GetElementBaseGeometry 0
  let idxs_per_ele := NumVerts geom
  let num_conn_idxs := num_ele * idxs_per_ele
  let conn ← copy_connectivity idxs_per_ele mesh.elements (List.replicate num_conn_idxs 0) 0
  let n_mesh := n_mesh.set ["topologies", "main", "elements", "connectivity"]
    (Node.int_array "topologies/main/elements/connectivity" conn)
  match gf_mesh_nodes with
  | some gf =>
    pure (n_mesh.set ["fields", "mesh_nodes"]
      (GridFunctionToBlueprintField gf ((n_mesh.fetch? ["fields", "mesh_nodes"]).getD .empty)))
  | none => pure n_mesh

/-- The section "Setup mesh attribute" of MeshToBlueprintMesh. -/
def MeshToBlueprintMesh.mesh_attribute (mesh : Mesh) (n_mesh : Node) : Except Error Node := do
  let num_ele := mesh.GetNE
  let n_mesh := n_mesh.set ["fields", "mesh_attribute", "association"] (.str "element")
  let n_mesh := n_mesh.set ["fields", "mesh_attribute", "topology"] (.str "main")
  let att_vals ← fill_attributes mesh.GetAttribute num_ele 0 (List.replicate num_ele 0)
  pure (n_mesh.set ["fields", "mesh_attribute", "values"]
    (Node.int_array "fields/mesh_attribute/values" att_vals))

/-- The section "Setup bndry topo boundary" of MeshToBlueprintMesh; `geom` is
the local variable set in the main topology section (the base geometry of
element 0). -/
def MeshToBlueprintMesh.boundary_topology (mesh : Mesh) (geom : GeometryType) (n_mesh : Node) :
    Except Error Node := do
  let n_mesh := n_mesh.set ["topologies", "boundary", "type"] (.str "unstructured")
  let n_mesh := n_mesh.set ["topologies", "boundary", "coordset"] (.str "coords")
  let bndry_ele_type := (← mesh.GetBdrElement 0).GetType
  let bndry_ele_shape := ElementTypeToShapeName bndry_ele_type
  let n_mesh := n_mesh.set ["topologies", "boundary", "elements", "shape"] (.str bndry_ele_shape)
  let num_bndry_ele := mesh.GetNBE
  let _bndry_geom ← mesh.GetBdrElementBaseGeometry 0
  let bndry_idxs_per_ele := NumVerts geom
  let num_bndry_conn_idxs := num_bndry_ele * bndry_idxs_per_ele
  let conn ← copy_connectivity bndry_idxs_per_ele mesh.boundary
    (List.replicate num_bndry_conn_idxs 0) 0
  pure (n_mesh.set ["topologies", "boundary", "elements", "connectivity"]
    (Node.int_array "topologies/boundary/elements/connectivity" conn))

/-- The section "Setup bndry mesh attribute" of MeshToBlueprintMesh;
`num_ele` is the local variable set in the main topology section
(`mesh->GetNE()`). -/
def MeshToBlueprintMesh.boundary_attribute (mesh : Mesh) (num_ele : Nat) (n_mesh : Node) :
    Except Error Node := do
  let n_mesh := n_mesh.set ["fields", "boundary_attribute", "association"] (.str "element")
  let n_mesh := n_mesh.set ["fields", "boundary_attribute", "topology"] (.str "boundary")
  let bndry_att_vals ← fill_attributes mesh.GetBdrAttribute num_ele 0 (List.replicate num_ele 0)
  pure (n_mesh.set ["fields", "boundary_attribute", "values"]
    (Node.int_array "fields/boundary_attribute/values" bndry_att_vals))

/-- ConduitDataCollection::MeshToBlueprintMesh.  `MFEM_DEBUG` tells whether
MFEM_ASSERT is compiled in. -/
def MeshToBlueprintMesh (MFEM_DEBUG : Bool) (mesh : Mesh) (n_mesh : Node) : Except Error Node := do
  let dim := mesh.SpaceDimension
  if MFEM_DEBUG && !(decide (dim ≥ 1) && decide (dim ≤ 3)) then
    throw (.assertion "invalid mesh dimension")
  let n_mesh := MeshToBlueprintMesh.coordset mesh n_mesh
  let n_mesh ← MeshToBlueprintMesh.main_topology mesh n_mesh
  let num_ele := mesh.GetNE
  let geom ← mesh.GetElementBaseGeometry 0
  let n_mesh ← MeshToBlueprintMesh.mesh_attribute mesh n_mesh
  if mesh.GetNBE > 0 then
    let n_mesh ← MeshToBlueprintMesh.boundary_topology mesh geom n_mesh
    MeshToBlueprintMesh.boundary_attribute mesh num_ele n_mesh
  else
    pure n_mesh

/-! ## BlueprintMeshToMesh

The part of the function that gathers the arguments of the Mesh constructor
is given stage by stage, in the order of the source.  The counters
`num_mesh_atts_entires` and `num_bndry_atts_entires`, which are set and never
read, are left out. -/

/-- The arguments of the Mesh constructor for externally owned data, in the
order of the call; `none` is the null pointer. -/
structure MeshArgs where
  vertices : Ptr
  num_vertices : Nat
  element_indices : Option Ptr
  element_type : GeometryType
  element_attributes : Option Ptr
  num_elements : Nat
  boundary_indices : Option Ptr
  boundary_type : GeometryType
  boundary_attributes : Option Ptr
  num_boundary_elements : Nat
  dimension : Nat
  space_dimension : Nat
  deriving DecidableEq, Repr

/-- The coordinate set stage of BlueprintMeshToMesh: `ndims`, `num_verts` and
`verts_indices`. -/
def BlueprintMeshToMesh.coordset (MFEM_DEBUG : Bool) (n_mesh : Node) :
    Except Error (Nat × Nat × Ptr) := do
  if MFEM_DEBUG && !n_mesh.has_path ["coordsets", "coords"] then
    throw (.assertion "Expected topology named coords (node is missing path coordsets/coords)")
  let n_coordset ← n_mesh.fetch_const ["coordsets", "coords"]
  let ndims := (← n_coordset.fetch_const ["values"]).number_of_children
  let coords_values ← mcarray.to_interleaved (← n_coordset.fetch_const ["values"]) "coords_values"
  let num_verts := (← coords_values.child 0).dtype.num_ele
  let verts_indices ← (← coords_values.child 0).as_double_ptr
  pure (ndims, num_verts, verts_indices)

/-- The main topology stage of BlueprintMeshToMesh: `mesh_geo`,
`elem_indices`, `num_mesh_ele` and the node of converted data. -/
def BlueprintMeshToMesh.main_topology (MFEM_DEBUG : Bool) (n_mesh n_conv : Node) :
    Except Error (GeometryType × Option Ptr × Nat × Node) := do
  if MFEM_DEBUG && !n_mesh.has_path ["topologies", "main"] then
    throw (.assertion "Expected topology named main (node is missing path topologies/main)")
  let n_mesh_topo ← n_mesh.fetch_const ["topologies", "main"]
  let mesh_ele_shape ← (← n_mesh_topo.fetch_const ["elements", "shape"]).as_string
  let mesh_geo ← ShapeNameToGeomType mesh_ele_shape
  let num_idxs_per_ele := NumVerts mesh_geo
  let n_mesh_conn ← n_mesh_topo.fetch_const ["elements", "connectivity"]
  let mut n_conv := n_conv
  let mut elem_indices : Option Ptr := none
  if n_mesh_conn.dtype.is_int && n_mesh_conn.is_compact then
    elem_indices := some (← (← n_mesh_topo.fetch_const ["elements", "connectivity"]).as_int_ptr)
  else
    let n_mesh_conn_conv ← n_mesh_conn.to_int_array "n_conv/topologies/main/elements/connectivity"
    n_conv := n_conv.set ["topologies", "main", "elements", "connectivity"] n_mesh_conn_conv
    elem_indices := some (← n_mesh_conn_conv.as_int_ptr)
  let num_mesh_ele :=
    (← n_mesh_topo.fetch_const ["elements", "connectivity"]).dtype.num_ele / num_idxs_per_ele
  pure (mesh_geo, elem_indices, num_mesh_ele, n_conv)

/-- The boundary topology stage of BlueprintMeshToMesh: `bndry_indices`,
`bndry_geo`, `num_bndry_ele` and the node of converted data. -/
def BlueprintMeshToMesh.boundary_topology (n_mesh : Node) (mesh_geo : GeometryType)
    (n_conv : Node) : Except Error (Option Ptr × GeometryType × Nat × Node) := do
  let mut n_conv := n_conv
  let mut bndry_indices : Option Ptr := none
  let mut num_bndry_ele := 0
  let mut bndry_geo := GeometryType.POINT
  if n_mesh.has_path ["topologies", "boundary"] then
    let n_bndry_topo ← n_mesh.fetch_const ["topologies", "boundary"]
    let bndry_ele_shape ← (← n_bndry_topo.fetch_const ["elements", "shape"]).as_string
    bndry_geo ← ShapeNameToGeomType bndry_ele_shape
    let num_idxs_per_bndry_ele := NumVerts mesh_geo
    let n_bndry_conn ← n_bndry_topo.fetch_const ["elements", "connectivity"]
    if n_bndry_conn.dtype.is_int && n_bndry_conn.is_compact then
      bndry_indices := some (← n_bndry_conn.as_int_ptr)
    else
      let n_bndry_conn_conv ←
        n_bndry_conn.to_int_array "n_conv/topologies/boundary/elements/connectivity"
      n_conv := n_conv.set ["topologies", "boundary", "elements", "connectivity"] n_bndry_conn_conv
      bndry_indices := some (← n_bndry_conn_conv.as_int_ptr)
    num_bndry_ele :=
      (← n_bndry_topo.fetch_const ["elements", "connectivity"]).dtype.num_ele
        / num_idxs_per_bndry_ele
  pure (bndry_indices, bndry_geo, num_bndry_ele, n_conv)

/-- The attribute stage of BlueprintMeshToMesh: `mesh_atts`, `bndry_atts` and
the node of converted data.  The guards ask has_child for a child whose name
is the whole string given. -/
def BlueprintMeshToMesh.attributes (n_mesh n_conv : Node) :
    Except Error (Option Ptr × Option Ptr × Node) := do
  let mut n_conv := n_conv
  let mut mesh_atts : Option Ptr := none
  let mut bndry_atts : Option Ptr := none
  if n_mesh.has_child "fields/main_attribute" then
    let n_mesh_atts_vals ← n_mesh.fetch_const ["fields", "mesh_attribute", "values"]
    if n_mesh_atts_vals.dtype.is_int && n_mesh_atts_vals.is_compact then
      mesh_atts := some (← n_mesh_atts_vals.as_int_ptr)
    else
      let n_mesh_atts_vals_conv ←
        n_mesh_atts_vals.to_int_array "n_conv/fields/mesh_attribute/values"
      n_conv := n_conv.set ["fields", "mesh_attribute", "values"] n_mesh_atts_vals_conv
      mesh_atts := some (← n_mesh_atts_vals_conv.as_int_ptr)
  if n_mesh.has_child "fields/boundary_attribute" then
    let n_bndry_atts_vals ← n_mesh.fetch_const ["fields", "boundary_attribute", "values"]
    if n_bndry_atts_vals.dtype.is_int && n_bndry_atts_vals.is_compact then
      bndry_atts := some (← n_bndry_atts_vals.as_int_ptr)
    else
      let n_bndry_atts_vals_conv ←
        n_bndry_atts_vals.to_int_array "n_conv/fields/boundary_attribute/values"
      n_conv := n_conv.set ["fields", "boundary_attribute", "values"] n_bndry_atts_vals_conv
      mesh_atts := some (← n_bndry_atts_vals_conv.as_int_ptr)
  pure (mesh_atts, bndry_atts, n_conv)

/-- Everything BlueprintMeshToMesh does before it constructs the Mesh: the
arguments of the constructor call and the node `n_conv` of converted data. -/
def BlueprintMeshToMesh.arguments (MFEM_DEBUG : Bool) (n_mesh : Node) :
    Except Error (MeshArgs × Node) := do
  let n_conv := Node.empty
  let (ndims, num_verts, verts_indices) ← BlueprintMeshToMesh.coordset MFEM_DEBUG n_mesh
  let (mesh_geo, elem_indices, num_mesh_ele, n_conv) ←
    BlueprintMeshToMesh.main_topology MFEM_DEBUG n_mesh n_conv
  let (bndry_indices, bndry_geo, num_bndry_ele, n_conv) ←
    BlueprintMeshToMesh.boundary_topology n_mesh mesh_geo n_conv
  let (mesh_atts, bndry_atts, n_conv) ← BlueprintMeshToMesh.attributes n_mesh n_conv
  pure (⟨verts_indices, num_verts, elem_indices, mesh_geo, mesh_atts, num_mesh_ele,
    bndry_indices, bndry_geo, bndry_atts, num_bndry_ele, ndims, 1⟩, n_conv)

/-- The mesh BlueprintMeshToMesh returns: the Mesh built by the constructor
on `args`, the nodes field attached by NewNodes, and whether the result is
the deep copy `new Mesh(*mesh, true)` rather than the mesh built on the
document buffers. -/
structure ImportedMesh where
  args : MeshArgs
  nodes : GridFunction
  deep_copy : Bool
  deriving DecidableEq, Repr

/-- The outcome of BlueprintMeshToMesh: how many Mesh objects were
constructed, and the mesh returned or the failure. -/
structure MeshImport where
  meshes_constructed : Nat
  result : Except Error ImportedMesh

/-- ConduitDataCollection::BlueprintMeshToMesh.  `MFEM_DEBUG` tells whether
MFEM_ASSERT is compiled in, `field_zero_copy` is the default value of the
zero_copy argument of BlueprintFieldToGridFunction (declared in the header),
and `GetNDofs args name` is the number of dofs that the collection called
`name` spans on the mesh built from `args`. -/
def BlueprintMeshToMesh (MFEM_DEBUG field_zero_copy : Bool)
    (GetNDofs : MeshArgs → String → Option Nat) (n_mesh : Node) (zero_copy : Bool) :
    MeshImport :=
  match BlueprintMeshToMesh.arguments MFEM_DEBUG n_mesh with
  | .error e => ⟨0, .error e⟩
  | .ok (args, n_conv) =>
    -- Mesh *mesh = new Mesh(...)
    match n_mesh.fetch_const ["grid_function"] with
    | .error e => ⟨1, .error e⟩
    | .ok n_gf =>
      match BlueprintFieldToGridFunction (GetNDofs args) n_gf field_zero_copy with
      | .error e => ⟨1, .error e⟩
      | .ok nodes =>
        let zero_copy := if zero_copy && !n_conv.dtype.is_empty then false else zero_copy
        if zero_copy then ⟨1, .ok ⟨args, nodes, false⟩⟩
        else ⟨2, .ok ⟨args, nodes, true⟩⟩

/-! ## Reading a document -/

/-- The string stored at a path of a document. -/
def Node.string_at (n : Node) (path : List String) : Option String :=
  match n.fetch? path with
  | some (.str s) => some s
  | _ => none

/-- The elements of the array stored at a path of a document. -/
def Node.array_at (n : Node) (path : List String) : Option (List Scalar) :=
  (n.fetch? path).bind Node.elements

/-- The type and data pointer of the array view stored at a path of a
document. -/
def Node.view_at (n : Node) (path : List String) : Option (DataType × Ptr) :=
  match n.fetch? path with
  | some (.leaf dt p) => some (dt, p)
  | _ => none

/-- The names of the children of the node at a path of a document. -/
def Node.names_at (n : Node) (path : List String) : Option (List String) :=
  (n.fetch? path).map (fun c => c.children.map Prod.fst)

/-- The six shape names of the Blueprint that the collection knows. -/
def shape_names : List String := ["point", "line", "tri", "quad", "tet", "hex"]

/-- The failure of an outcome, if it is one. -/
def failure_of {α : Type} : Except Error α → Option Error
  | .ok _ => none
  | .error e => some e

/-- Two paths part ways: at the first place where they differ, both name a
child. -/
def diverge : List String → List String → Bool
  | c :: r, d :: s => if c = d then diverge r s else true
  | _, _ => false

/-- The name of coordinate axis `a` in a coordinate set. -/
def axis_name : Nat → String
  | 0 => "x"
  | 1 => "y"
  | _ => "z"

/-! ## Example inputs -/

/-- The vertex with integer coordinates `(a, b, c)`. -/
def Vertex.ofInts (a b c : Int) : Vertex := ⟨⟨a, 0⟩, ⟨b, 0⟩, ⟨c, 0⟩⟩

/-- A mesh of one triangle with attribute 7 and no boundary elements. -/
def one_triangle : Mesh :=
  { spaceDim := 2
    vertices_id := 1
    vertices := [Vertex.ofInts 0 0 0, Vertex.ofInts 1 0 0, Vertex.ofInts 0 1 0]
    elements := [⟨.TRIANGLE, 7, [0, 1, 2]⟩]
    boundary := []
    Nodes := none }

/-- The mesh of one triangle with its three boundary segments, which carry
the attributes 1, 2 and 3. -/
def triangle_with_boundary : Mesh :=
  { one_triangle with
    boundary := [⟨.SEGMENT, 1, [0, 1]⟩, ⟨.SEGMENT, 2, [1, 2]⟩, ⟨.SEGMENT, 3, [2, 0]⟩] }

/-- A mesh of a triangle followed by a quadrilateral, without boundary
elements. -/
def triangle_and_quad : Mesh :=
  { spaceDim := 2
    vertices_id := 1
    vertices := [Vertex.ofInts 0 0 0, Vertex.ofInts 1 0 0, Vertex.ofInts 0 1 0,
      Vertex.ofInts 1 1 0, Vertex.ofInts 2 1 0]
    elements := [⟨.TRIANGLE, 7, [0, 1, 2]⟩, ⟨.QUADRILATERAL, 8, [1, 4, 3, 2]⟩]
    boundary := []
    Nodes := none }

/-- The component views that the loop of GridFunctionToBlueprintField writes
in `todo` iterations starting at component `d` with byte offset `offset`:
names and nodes, in the order written. -/
def GridFunctionToBlueprintField.components (data : Ptr) (ndofs stride vdim_stride : Nat) :
    Nat → Nat → Nat → List (String × Node)
  | 0, _, _ => []
  | todo + 1, d, offset =>
    (comp_name d, Node.set_external data ndofs offset stride)
      :: GridFunctionToBlueprintField.components data ndofs stride vdim_stride todo (d + 1)
          (offset + 8 * vdim_stride)

/-- A field with two components on three dofs, ordered byVDIM, holding
(10, 20), (11, 21), (12, 22). -/
def example_field : GridFunction :=
  { fes := ⟨"H1_2D_P1", 2, 3, .byVDIM⟩
    data := ⟨Buffer.uniform (.ext 7) 8
      [.real ⟨10, 0⟩, .real ⟨20, 0⟩, .real ⟨11, 0⟩, .real ⟨21, 0⟩, .real ⟨12, 0⟩,
        .real ⟨22, 0⟩], 0⟩ }

/-- The number a list of decimal digits stands for. -/
def digitsValue (cs : List Char) : Nat := cs.foldl (fun acc c => 10 * acc + (c.toNat - 48)) 0

/-- A mesh of three segments in a row with its two boundary points, which
carry the attributes 1 and 2. -/
def three_segments : Mesh :=
  { spaceDim := 1
    vertices_id := 2
    vertices := [Vertex.ofInts 0 0 0, Vertex.ofInts 1 0 0, Vertex.ofInts 2 0 0,
      Vertex.ofInts 3 0 0]
    elements := [⟨.SEGMENT, 1, [0, 1]⟩, ⟨.SEGMENT, 1, [1, 2]⟩, ⟨.SEGMENT, 1, [2, 3]⟩]
    boundary := [⟨.POINT, 1, [0]⟩, ⟨.POINT, 2, [3]⟩]
    Nodes := none }

/-- DataType::element_index(idx): the byte offset of element `idx` from the
data pointer. -/
def DataType.element_index (dt : DataType) (idx : Nat) : Nat := dt.offset + dt.stride * idx

/-! ## The data collection and its file names -/

/-- What `oss << i` writes for an int: its decimal digits, after a minus sign
when it is negative. -/
def int_digits (i : Int) : List Char :=
  if i < 0 then '-' :: decimalDigits (i.natAbs + 1) i.natAbs
  else decimalDigits (i.natAbs + 1) i.natAbs

/-- Modelled from the spec: to_padded_string (general/text.hpp, outside the
shown sources), the "zero-padded" decimal of the file layout
`<cycle:05d>`, `<rank:05d>`: the decimal of `i`, filled on the left with '0'
up to `digits` characters and never cut. -/
def to_padded_string (i : Int) (digits : Nat) : String :=
  String.mk (List.replicate (digits - (int_digits i).length) '0' ++ int_digits i)

/-- The members of ConduitDataCollection (and of its base DataCollection)
that the shown functions use. -/
structure ConduitDataCollection where
  prefix_path : String
  name : String
  cycle : Int
  pad_digits_cycle : Nat
  pad_digits_rank : Nat
  myid : Int
  num_procs : Int
  relay_protocol : String
  mesh : Mesh
  field_map : List (String × GridFunction)

namespace ConduitDataCollection

/-- ConduitDataCollection::RootFileName. -/
def RootFileName (dc : ConduitDataCollection) : String :=
  dc.prefix_path ++ dc.name ++ "_" ++ to_padded_string dc.cycle dc.pad_digits_cycle ++ ".root"

/-- ConduitDataCollection::MeshFileName. -/
def MeshFileName (dc : ConduitDataCollection) (domain_id : Int) (relay_protocol : String) :
    String :=
  dc.prefix_path ++ dc.name ++ "_" ++ to_padded_string dc.cycle dc.pad_digits_cycle
    ++ "/domain_" ++ to_padded_string domain_id dc.pad_digits_rank ++ "." ++ relay_protocol

/-- ConduitDataCollection::MeshDirectoryName. -/
def MeshDirectoryName (dc : ConduitDataCollection) : String :=
  dc.prefix_path ++ dc.name ++ "_" ++ to_padded_string dc.cycle dc.pad_digits_cycle

/-- ConduitDataCollection::MeshFilePattern. -/
def MeshFilePattern (dc : ConduitDataCollection) (relay_protocol : String) : String :=
  dc.prefix_path ++ dc.name ++ "_" ++ to_padded_string dc.cycle dc.pad_digits_cycle
    ++ "/domain_%0" ++ decimal dc.pad_digits_rank ++ "d." ++ relay_protocol

end ConduitDataCollection

/-! ### printf

The part of the C library's printf that a file pattern needs: ordinary text,
"%%", and the conversion "%d" with an optional flag 0 and an optional width,
applied to a single int argument.  Any other conversion, and a second "%d",
has no result in this model. -/

/-- Where the scan of a format stands: in ordinary text, or inside a
conversion specification (`fresh` right after the '%', `zero` once the flag 0
was seen, `width` once a width digit was seen). -/
inductive PrintfState where
  | text
  | conv (fresh zero : Bool) (width : Option Nat)
  deriving DecidableEq, Repr

/-- The output of "%d" with the given flag and width: the decimal of the
argument, filled to the width with '0' after the sign when the flag 0 is
set, with blanks before the sign otherwise. -/
def printf_d (zero : Bool) (width : Nat) (arg : Int) : List Char :=
  let digits := decimalDigits (arg.natAbs + 1) arg.natAbs
  if arg < 0 then
    if zero then '-' :: (List.replicate (width - 1 - digits.length) '0' ++ digits)
    else List.replicate (width - 1 - digits.length) ' ' ++ '-' :: digits
  else
    if zero then List.replicate (width - digits.length) '0' ++ digits
    else List.replicate (width - digits.length) ' ' ++ digits

/-- The scan of a format, character by character; `arg` is the argument not
yet consumed. -/
def printf_run : PrintfState → Option Int → List Char → Option (List Char)
  | .text, _, [] => some []
  | .conv _ _ _, _, [] => none
  | .text, arg, c :: cs =>
    if c = '%' then printf_run (.conv true false none) arg cs
    else (printf_run .text arg cs).map (c :: ·)
  | .conv fresh zero width, arg, c :: cs =>
    if c = '%' then
      if fresh then (printf_run .text arg cs).map ('%' :: ·) else none
    else if c = '0' ∧ width = none then printf_run (.conv false true none) arg cs
    else if c.isDigit then
      printf_run (.conv false zero (some (10 * width.getD 0 + (c.toNat - 48)))) arg cs
    else if c = 'd' then
      match arg with
      | some a => (printf_run .text none cs).map (printf_d zero (width.getD 0) a ++ ·)
      | none => none
    else none

/-- The string that printf writes for a format and a single int argument. -/
def printf (format : String) (arg : Int) : Option String :=
  (printf_run .text (some arg) format.data).map String.mk

/-- A collection with the padding widths of the file layout of the spec
(five digits for the cycle and for the rank). -/
def example_collection : ConduitDataCollection :=
  { prefix_path := "out/"
    name := "run"
    cycle := 7
    pad_digits_cycle := 5
    pad_digits_rank := 5
    myid := 0
    num_procs := 4
    relay_protocol := "hdf5"
    mesh := one_triangle
    field_map := [("u", example_field)] }

/-- The last `width` decimal digits of `n`, most significant first. -/
def fixed_digits : Nat → Nat → List Char
  | 0, _ => []
  | width + 1, n => fixed_digits width (n / 10) ++ [Char.ofNat (48 + n % 10)]

/-! ## Save -/

/-- What lies outside the collection and decides how a Save goes: whether
MFEM_ASSERT is compiled in, the error code of create_directory, the verdict of
blueprint::mesh::verify, the index written by blueprint::mesh::generate_index
for a mesh document and a number of domains, and whether relay::io::save
fails on a file. -/
structure Environment where
  MFEM_DEBUG : Bool
  create_directory : String → Mesh → Int → Int
  verify : Node → Bool
  generate_index : Node → Int → Node
  save_fails : String → Bool

/-- One call of relay::io::save: the file, the document and the protocol
argument (`none` when the call leaves it out). -/
structure SavedFile where
  path : String
  node : Node
  protocol : Option String

/-- How a Save ended: the files written, in order, and the failure that
stopped it, if any. -/
structure SaveResult where
  files : List SavedFile
  failure : Option Error

/-- The components of a conduit path, with `cur` the reversed characters of
the component being read: `Node::fetch` cuts the path at its first '/', takes
the child of that name and goes on with the rest unless the rest is empty.
The component `..`, which conduit reads as a step to the parent node, has no
special meaning here: field names are taken to be free of it. -/
def split_path_chars : List Char → List Char → List String
  | [], cur => [String.mk cur.reverse]
  | c :: cs, cur =>
    if c = '/' then
      if cs = [] then [String.mk cur.reverse]
      else String.mk cur.reverse :: split_path_chars cs []
    else split_path_chars cs (c :: cur)

/-- The components of a path given as one string, as the `operator[]` of a
node takes it. -/
def split_path (path : String) : List String := split_path_chars path.data []

/-- The loop of Save over field_map: each field is written to
`n_mesh["fields"][name]`. -/
def Save.fields : List (String × GridFunction) → Node → Node
  | [], n_mesh => n_mesh
  | (name, gf) :: rest, n_mesh =>
    Save.fields rest
      (n_mesh.set ("fields" :: split_path name)
        (GridFunctionToBlueprintField gf
          ((n_mesh.fetch? ("fields" :: split_path name)).getD .empty)))

/-- The protocol of the root file chosen in SaveRootFile: json, except for
hdf5. -/
def SaveRootFile.root_proto (relay_protocol : String) : String :=
  if relay_protocol = "hdf5" then relay_protocol else "json"

/-- The document n_root built in SaveRootFile. -/
def SaveRootFile.n_root (env : Environment) (dc : ConduitDataCollection) (num_domains : Int)
    (n_mesh : Node) (relay_protocol : String) : Node :=
  let n_root := Node.empty
  let n_root := n_root.set ["blueprint_index", "mesh"] (env.generate_index n_mesh num_domains)
  let n_root := n_root.set ["protocol", "name"] (.str relay_protocol)
  let n_root := n_root.set ["protocol", "version"] (.str "0.3.1")
  let n_root := n_root.set ["number_of_files"] (Node.int_array "number_of_files" [num_domains])
  let n_root := n_root.set ["number_of_trees"] (Node.int_array "number_of_trees" [num_domains])
  let n_root := n_root.set ["file_pattern"] (.str (dc.MeshFilePattern relay_protocol))
  let n_root := n_root.set ["tree_pattern"] (.str "")
  n_root

/-- ConduitDataCollection::SaveRootFile. -/
def SaveRootFile (env : Environment) (dc : ConduitDataCollection) (num_domains : Int)
    (n_mesh : Node) (relay_protocol : String) : Except Error SavedFile :=
  let root_proto := SaveRootFile.root_proto relay_protocol
  let n_root := SaveRootFile.n_root env dc num_domains n_mesh relay_protocol
  if env.save_fails dc.RootFileName then
    .error (.conduit ("relay::io::save failed: " ++ dc.RootFileName))
  else .ok ⟨dc.RootFileName, n_root, some root_proto⟩

/-- ConduitDataCollection::SaveMeshAndFields. -/
def SaveMeshAndFields (env : Environment) (dc : ConduitDataCollection) (domain_id : Int)
    (n_mesh : Node) (relay_protocol : String) : Except Error SavedFile :=
  if env.save_fails (dc.MeshFileName domain_id relay_protocol) then
    .error (.conduit ("relay::io::save failed: " ++ dc.MeshFileName domain_id relay_protocol))
  else .ok ⟨dc.MeshFileName domain_id relay_protocol, n_mesh, none⟩

/-- ConduitDataCollection::Save. -/
def Save (env : Environment) (dc : ConduitDataCollection) : SaveResult :=
  let dir_name := dc.MeshDirectoryName
  let err := env.create_directory dir_name dc.mesh dc.myid
  if err ≠ 0 then
    ⟨[], some (.abort ("Error creating directory: " ++ dir_name))⟩
  else
    match MeshToBlueprintMesh env.MFEM_DEBUG dc.mesh .empty with
    | .error e => ⟨[], some e⟩
    | .ok n_mesh =>
      if !env.verify n_mesh then
        ⟨[], some (.abort "Conduit Mesh Blueprint Verify Failed")⟩
      else
        let n_mesh := Save.fields dc.field_map n_mesh
        match SaveMeshAndFields env dc dc.myid n_mesh dc.relay_protocol with
        | .error e => ⟨[], some e⟩
        | .ok domain_file =>
          if dc.myid = 0 then
            match SaveRootFile env dc dc.num_procs n_mesh dc.relay_protocol with
            | .error e => ⟨[domain_file], some e⟩
            | .ok root_file => ⟨[domain_file, root_file], none⟩
          else ⟨[domain_file], none⟩

/-- The relay protocols that write a binary container: hdf5 and conduit_bin
(json, conduit_json and conduit_base64_json write text). -/
def binary_protocols : List String := ["hdf5", "conduit_bin"]

/-- An environment in which nothing fails: directories are created, every
document passes verification and every file is written. -/
def example_environment : Environment :=
  { MFEM_DEBUG := true
    create_directory := fun _ _ _ => 0
    verify := fun _ => true
    generate_index := fun _ _ => .empty
    save_fails := fun _ => false }

/-! ## The claim on aliasing in field import, in its own words -/

/-- In the words of the claim: no conversion is needed when values is a
contiguous or interleaved composite, or a compact flat array of doubles. -/
def BlueprintFieldToGridFunction.no_conversion_needed (n_values : Node) : Bool :=
  if n_values.dtype.is_object then n_values.is_contiguous || mcarray.is_interleaved n_values
  else n_values.dtype.is_double && n_values.is_compact

/-- The start of the value buffer of the document: element 0 of values, or of
its first component when values is a composite. -/
def BlueprintFieldToGridFunction.document_ptr (n_values : Node) : Option Ptr :=
  if n_values.dtype.is_object then n_values.children.head?.bind (fun c => c.2.element_ptr0)
  else n_values.element_ptr0

mutual
/-- The memory blocks that the arrays of a document lie in. -/
def Node.regions : Node → List Region
  | .object cs => Node.regions_children cs
  | .leaf _ p => [p.buf.region]
  | .str _ => []
  | .empty => []
/-- The memory blocks of the children of an object. -/
def Node.regions_children : List (String × Node) → List Region
  | [] => []
  | (_, c) :: rest => Node.regions c ++ Node.regions_children rest
end

/-! ## Conversions in mesh import -/

/-- An array that has to be converted: it is not a compact array of native
int. -/
def BlueprintMeshToMesh.not_compact_int (n : Option Node) : Bool :=
  match n with
  | some a => !(a.dtype.is_int && a.is_compact)
  | none => false

/-- The conversions that BlueprintMeshToMesh performs, read off the source:
the element connectivity is converted when it is not a compact array of
native int; the boundary connectivity likewise, when the document has
topologies/boundary; and the array at fields/mesh_attribute/values or at
fields/boundary_attribute/values only when, besides, the guard of the source
holds, which asks has_child for a child named by the whole string
fields/main_attribute, respectively fields/boundary_attribute.  This is what
the code does, not what the claim on conversions says. -/
def BlueprintMeshToMesh.conversion_occurs (n_mesh : Node) : Bool :=
  BlueprintMeshToMesh.not_compact_int
      (n_mesh.fetch? ["topologies", "main", "elements", "connectivity"]) ||
  (n_mesh.has_path ["topologies", "boundary"] &&
    BlueprintMeshToMesh.not_compact_int
      (n_mesh.fetch? ["topologies", "boundary", "elements", "connectivity"])) ||
  (n_mesh.has_child "fields/main_attribute" &&
    BlueprintMeshToMesh.not_compact_int (n_mesh.fetch? ["fields", "mesh_attribute", "values"])) ||
  (n_mesh.has_child "fields/boundary_attribute" &&
    BlueprintMeshToMesh.not_compact_int
      (n_mesh.fetch? ["fields", "boundary_attribute", "values"]))

/-- In the words of the claim: one of the element connectivity, boundary
connectivity, element-attribute and boundary-attribute arrays of the document
is not a compact array of native int, and so has to be converted. -/
def BlueprintMeshToMesh.conversion_needed (n_mesh : Node) : Bool :=
  BlueprintMeshToMesh.not_compact_int
      (n_mesh.fetch? ["topologies", "main", "elements", "connectivity"]) ||
  BlueprintMeshToMesh.not_compact_int
      (n_mesh.fetch? ["topologies", "boundary", "elements", "connectivity"]) ||
  BlueprintMeshToMesh.not_compact_int (n_mesh.fetch? ["fields", "mesh_attribute", "values"]) ||
  BlueprintMeshToMesh.not_compact_int (n_mesh.fetch? ["fields", "boundary_attribute", "values"])

/-- The document of the mesh of one triangle, as MeshToBlueprintMesh writes
it, with the example field as its nodes under grid_function. -/
def example_mesh_document : Node :=
  ((MeshToBlueprintMesh true one_triangle .empty).toOption.getD .empty).set ["grid_function"]
    (GridFunctionToBlueprintField example_field .empty)

/-- The example mesh document with the element connectivity stored as 64-bit
integers. -/
def example_mesh_document_int64 : Node :=
  example_mesh_document.set ["topologies", "main", "elements", "connectivity"]
    (.leaf ⟨.INT64, 3, 0, 8, 8⟩ ⟨Buffer.uniform (.ext 9) 8 [.int 0, .int 1, .int 2], 0⟩)

/-- The example mesh document with the element attribute of its one element
stored as a 64-bit integer at fields/mesh_attribute/values. -/
def document_with_int64_mesh_attributes : Node :=
  example_mesh_document.set ["fields", "mesh_attribute", "values"]
    (.leaf ⟨.INT64, 1, 0, 8, 8⟩ ⟨Buffer.uniform (.ext 12) 8 [.int 7], 0⟩)

/-! ## Load -/

/-- What lies outside the collection and decides how a Load goes: whether
MFEM_ASSERT is compiled in, the default values of the zero_copy arguments of
BlueprintMeshToMesh and BlueprintFieldToGridFunction (set in the header), the
number of dofs that a collection spans on a mesh, what relay::io::load reads
from a file (with the protocol given, or `none` when the call leaves it out),
the verdict of blueprint::mesh::verify, and, for a build with MFEM_USE_MPI,
the root document that a process other than 0 rebuilds from the broadcast
(`none` for a build without MFEM_USE_MPI). -/
structure LoadEnvironment where
  MFEM_DEBUG : Bool
  mesh_zero_copy : Bool
  field_zero_copy : Bool
  GetNDofs : MeshArgs → String → Option Nat
  load : String → Option String → Except Error Node
  verify : Node → Bool
  broadcast : Option Node

/-- The steps of a Load that can be seen from outside, in the order taken:
the call of DeleteAll (of the base class DataCollection, which releases the
mesh and the fields that the collection owns), the assignments to the members
cycle and relay_protocol, and the calls of relay::io::load. -/
inductive LoadStep where
  | DeleteAll
  | assign_cycle (cycle : Int)
  | load (path : String) (protocol : Option String)
  | assign_relay_protocol (relay_protocol : String)
  deriving DecidableEq, Repr

/-- What a Load leaves in the collection. -/
structure Loaded where
  cycle : Int
  relay_protocol : String
  mesh : ImportedMesh
  field_map : List (String × GridFunction)
  own_data : Bool
  deriving DecidableEq, Repr

/-- How a Load went: the steps taken, in order, and the state it left or the
failure that stopped it. -/
structure LoadResult where
  steps : List LoadStep
  result : Except Error Loaded

/-- The assignment `field_map[field_name] = gf`. -/
def field_map_set : List (String × GridFunction) → String → GridFunction →
    List (String × GridFunction)
  | [], name, gf => [(name, gf)]
  | (k, g) :: rest, name, gf =>
    if k = name then (k, gf) :: rest else (k, g) :: field_map_set rest name gf

/-- ConduitDataCollection::LoadRootFile: the calls of relay::io::load made
and the root document.  Process 0 reads the root file with the protocol of
the collection; any other process takes the broadcast document, and is left
with the empty node it was given in a build without MFEM_USE_MPI. -/
def LoadRootFile (env : LoadEnvironment) (dc : ConduitDataCollection) :
    List LoadStep × Except Error Node :=
  if dc.myid = 0 then
    ([.load dc.RootFileName (some dc.relay_protocol)],
      env.load dc.RootFileName (some dc.relay_protocol))
  else
    match env.broadcast with
    | some root_out => ([], .ok root_out)
    | none => ([], .ok .empty)

/-- The loop of LoadMeshAndFields over the children of `n_mesh["fields"]`:
every child is handed to BlueprintFieldToGridFunction and registered under
its name. -/
def LoadMeshAndFields.fields (env : LoadEnvironment) (mesh : ImportedMesh) :
    List (String × Node) → List (String × GridFunction) →
    Except Error (List (String × GridFunction))
  | [], field_map => .ok field_map
  | (field_name, n_field) :: rest, field_map =>
    match BlueprintFieldToGridFunction (env.GetNDofs mesh.args) n_field env.field_zero_copy with
    | .error e => .error e
    | .ok gf => LoadMeshAndFields.fields env mesh rest (field_map_set field_map field_name gf)

/-- ConduitDataCollection::LoadMeshAndFields: the calls of relay::io::load
made, and the mesh and the field map it builds. -/
def LoadMeshAndFields (env : LoadEnvironment) (dc : ConduitDataCollection) (domain_id : Int)
    (relay_protocol : String) :
    List LoadStep × Except Error (ImportedMesh × List (String × GridFunction)) :=
  let path := dc.MeshFileName domain_id relay_protocol
  match env.load path none with
  | .error e => ([.load path none], .error e)
  | .ok n_mesh =>
    if !env.verify n_mesh then
      ([.load path none], .error (.abort "Conduit Mesh Blueprint Verify Failed"))
    else
      match (BlueprintMeshToMesh env.MFEM_DEBUG env.field_zero_copy env.GetNDofs n_mesh
          env.mesh_zero_copy).result with
      | .error e => ([.load path none], .error e)
      | .ok mesh =>
        match LoadMeshAndFields.fields env mesh
            ((n_mesh.fetch? ["fields"]).getD .empty).children [] with
        | .error e => ([.load path none], .error e)
        | .ok field_map => ([.load path none], .ok (mesh, field_map))

/-- ConduitDataCollection::Load. -/
def Load (env : LoadEnvironment) (dc : ConduitDataCollection) (cycle : Int) : LoadResult :=
  let dc : ConduitDataCollection := { dc with cycle := cycle }
  match LoadRootFile env dc with
  | (root_steps, .error e) => ⟨[.DeleteAll, .assign_cycle cycle] ++ root_steps, .error e⟩
  | (root_steps, .ok n_root) =>
    match ((n_root.fetch? ["protocol", "name"]).getD .empty).as_string with
    | .error e => ⟨[.DeleteAll, .assign_cycle cycle] ++ root_steps, .error e⟩
    | .ok relay_protocol =>
      let dc : ConduitDataCollection := { dc with relay_protocol := relay_protocol }
      match LoadMeshAndFields env dc dc.myid dc.relay_protocol with
      | (mesh_steps, .error e) =>
        ⟨[.DeleteAll, .assign_cycle cycle] ++ root_steps
          ++ [.assign_relay_protocol relay_protocol] ++ mesh_steps, .error e⟩
      | (mesh_steps, .ok (mesh, field_map)) =>
        ⟨[.DeleteAll, .assign_cycle cycle] ++ root_steps
          ++ [.assign_relay_protocol relay_protocol] ++ mesh_steps,
          .ok ⟨cycle, relay_protocol, mesh, field_map, true⟩⟩

/-- The file system after a Save, as a Load meets it: a file that Save wrote
is read back as the document written, provided the protocol asked for is the
one it was written with; any other read fails. -/
def read_back (files : List SavedFile) (path : String) (protocol : Option String) :
    Except Error Node :=
  match files.find? (fun f => f.path = path) with
  | some f =>
    if f.protocol = protocol then .ok f.node
    else .error (.conduit ("relay::io::load: wrong protocol for " ++ path))
  | none => .error (.conduit ("relay::io::load: cannot open " ++ path))

/-- An environment for a Load that follows a Save: the files are those the
Save wrote, every document passes verification, every basis spans three dofs
and no zero copy is asked for. -/
def example_load_environment (files : List SavedFile) : LoadEnvironment :=
  { MFEM_DEBUG := true
    mesh_zero_copy := false
    field_zero_copy := false
    GetNDofs := fun _ _ => some 3
    load := read_back files
    verify := fun _ => true
    broadcast := none }

/-- The mesh of one triangle with the example field as its nodes. -/
def curved_triangle : Mesh := { one_triangle with Nodes := some example_field }

/-- Boundary attributes stored as three 64-bit integers. -/
def int64_attributes : Node :=
  .leaf ⟨.INT64, 3, 0, 8, 8⟩ ⟨Buffer.uniform (.ext 11) 8 [.int 1, .int 2, .int 3], 0⟩

/-- An environment in which nothing fails and verification accepts a
document exactly when it has no node at fields/u. -/
def environment_rejecting_u : Environment :=
  { example_environment with verify := fun n => !n.has_path ["fields", "u"] }

/-- The example mesh document with boundary attributes stored as 64-bit
integers at fields/boundary_attribute/values. -/
def document_with_int64_boundary_attributes : Node :=
  example_mesh_document.set ["fields", "boundary_attribute", "values"] int64_attributes

/-- The example collection with the protocol conduit_bin. -/
def example_collection_bin : ConduitDataCollection :=
  { example_collection with relay_protocol := "conduit_bin" }

/-! ## Theorems -/

/-! ### Assignment and lookup in documents -/

theorem Node.lookup_setChild_same (cs : List (String × Node)) (c : String) (v : Node) :
    (Node.setChild cs c v).lookup c = some v := by
  induction cs with
  | nil => simp [Node.setChild, List.lookup]
  | cons hd tl ih =>
    obtain ⟨k, x⟩ := hd
    by_cases hk : k = c
    · simp [Node.setChild, hk, List.lookup]
    · have hck : (c == k) = false := by
        simp only [beq_eq_false_iff_ne, ne_eq]
        exact fun h => hk h.symm
      simp [Node.setChild, hk, List.lookup, hck, ih]

theorem Node.lookup_setChild_ne (cs : List (String × Node)) (c d : String) (v : Node)
    (h : d ≠ c) : (Node.setChild cs c v).lookup d = cs.lookup d := by
  induction cs with
  | nil =>
    have hdc : (d == c) = false := by simpa using h
    simp [Node.setChild, List.lookup, hdc]
  | cons hd tl ih =>
    obtain ⟨k, x⟩ := hd
    by_cases hk : k = c
    · subst hk
      have hdk : (d == k) = false := by simpa using h
      simp [Node.setChild, List.lookup, hdk]
    · by_cases hdk : d = k
      · subst hdk
        simp [Node.setChild, hk, List.lookup]
      · have hdk2 : (d == k) = false := by simpa using hdk
        simp [Node.setChild, hk, List.lookup, hdk2, ih]

theorem Node.child_set_same (n : Node) (c : String) (rest : List String) (v : Node) :
    (n.set (c :: rest) v).child? c = some (((n.child? c).getD .empty).set rest v) := by
  simp [Node.set, Node.child?, Node.children, Node.lookup_setChild_same]

theorem Node.child_set_ne (n : Node) (c d : String) (rest : List String) (v : Node)
    (h : d ≠ c) : (n.set (c :: rest) v).child? d = n.child? d := by
  simp [Node.set, Node.child?, Node.children, Node.lookup_setChild_ne _ _ _ _ h]

theorem Node.fetch_set_same (n : Node) (path : List String) (v : Node) :
    (n.set path v).fetch? path = some v := by
  induction path generalizing n with
  | nil => rfl
  | cons c rest ih =>
    rw [Node.fetch?, Node.child_set_same]
    exact ih _

theorem Node.fetch_empty_cons (c : String) (rest : List String) :
    Node.empty.fetch? (c :: rest) = none := by
  simp [Node.fetch?, Node.child?, Node.children]

theorem Node.fetch_set_of_diverge (n : Node) (p q : List String) (v : Node)
    (h : diverge p q = true) : (n.set p v).fetch? q = n.fetch? q := by
  induction p generalizing n q with
  | nil => simp [diverge] at h
  | cons c r ih =>
    cases q with
    | nil => simp [diverge] at h
    | cons d s =>
      by_cases hcd : c = d
      · subst hcd
        have hrs : diverge r s = true := by simpa [diverge] using h
        rw [Node.fetch?, Node.child_set_same, Node.fetch?]
        cases hch : n.child? c with
        | none =>
          simp only [Option.getD_none]
          rw [ih _ _ hrs]
          cases s with
          | nil => cases r <;> simp [diverge] at hrs
          | cons e t => exact Node.fetch_empty_cons e t
        | some ch =>
          simp only [Option.getD_some]
          exact ih _ _ hrs
      · have hdc : d ≠ c := fun h => hcd h.symm
        rw [Node.fetch?, Node.child_set_ne _ _ _ _ _ hdc, Node.fetch?]


/-- C2. Shape-name round trip: for each of the six element types,
ShapeNameToGeomType applied to ElementTypeToShapeName succeeds and returns
the geometry of that shape (POINT, SEGMENT, TRIANGLE, SQUARE, TETRAHEDRON,
CUBE respectively), and the six shape names are pairwise distinct. -/
theorem shape_name_round_trip :
    ShapeNameToGeomType (ElementTypeToShapeName .POINT) = .ok .POINT ∧
    ShapeNameToGeomType (ElementTypeToShapeName .SEGMENT) = .ok .SEGMENT ∧
    ShapeNameToGeomType (ElementTypeToShapeName .TRIANGLE) = .ok .TRIANGLE ∧
    ShapeNameToGeomType (ElementTypeToShapeName .QUADRILATERAL) = .ok .SQUARE ∧
    ShapeNameToGeomType (ElementTypeToShapeName .TETRAHEDRON) = .ok .TETRAHEDRON ∧
    ShapeNameToGeomType (ElementTypeToShapeName .HEXAHEDRON) = .ok .CUBE ∧
    (∀ t : ElementType,
      ShapeNameToGeomType (ElementTypeToShapeName t) = .ok (GetGeometryType t)) ∧
    (∀ t u : ElementType, ElementTypeToShapeName t = ElementTypeToShapeName u ↔ t = u) := by
  refine ⟨by decide, by decide, by decide, by decide, by decide, by decide, ?_, ?_⟩
  · intro t
    cases t <;> decide
  · intro t u
    cases t <;> cases u <;> decide

/-- C4. ShapeNameToGeomType aborts with the unsupported-shape message exactly
when the shape name is not one of "point", "line", "tri", "quad", "tet",
"hex", and it returns a geometry exactly when the name is one of those six. -/
theorem shape_name_to_geom_fails_iff (shape_name : String) :
    (ShapeNameToGeomType shape_name
        = .error (.abort ("Unsupported Element Shape: " ++ shape_name))
      ↔ shape_name ∉ shape_names) ∧
    ((∃ e, ShapeNameToGeomType shape_name = .error e) ↔ shape_name ∉ shape_names) ∧
    ((∃ g, ShapeNameToGeomType shape_name = .ok g) ↔ shape_name ∈ shape_names) := by
  unfold ShapeNameToGeomType shape_names
  by_cases h1 : shape_name = "point"
  · subst h1; simp
  by_cases h2 : shape_name = "line"
  · subst h2; simp
  by_cases h3 : shape_name = "tri"
  · subst h3; simp
  by_cases h4 : shape_name = "quad"
  · subst h4; simp
  by_cases h5 : shape_name = "tet"
  · subst h5; simp
  by_cases h6 : shape_name = "hex"
  · subst h6; simp
  simp [h1, h2, h3, h4, h5, h6]

theorem Node.fetch_const_of_no_path (n : Node) (path : List String)
    (h : n.has_path path = false) :
    n.fetch_const path
      = .error (.conduit ("Cannot fetch non-existent path: " ++ "/".intercalate path)) := by
  unfold Node.has_path at h
  unfold Node.fetch_const
  cases hf : n.fetch? path with
  | none => rfl
  | some r => rw [hf] at h; simp at h

theorem BlueprintMeshToMesh.coordset_of_no_path (MFEM_DEBUG : Bool) (n_mesh : Node)
    (h : n_mesh.has_path ["coordsets", "coords"] = false) :
    BlueprintMeshToMesh.coordset MFEM_DEBUG n_mesh
      = .error (if MFEM_DEBUG then
          .assertion "Expected topology named coords (node is missing path coordsets/coords)"
        else .conduit "Cannot fetch non-existent path: coordsets/coords") := by
  unfold BlueprintMeshToMesh.coordset
  rw [Node.fetch_const_of_no_path _ _ h, h]
  cases MFEM_DEBUG <;> rfl

theorem BlueprintMeshToMesh.main_topology_of_no_path (MFEM_DEBUG : Bool) (n_mesh n_conv : Node)
    (h : n_mesh.has_path ["topologies", "main"] = false) :
    BlueprintMeshToMesh.main_topology MFEM_DEBUG n_mesh n_conv
      = .error (if MFEM_DEBUG then
          .assertion "Expected topology named main (node is missing path topologies/main)"
        else .conduit "Cannot fetch non-existent path: topologies/main") := by
  unfold BlueprintMeshToMesh.main_topology
  rw [Node.fetch_const_of_no_path _ _ h, h]
  cases MFEM_DEBUG <;> rfl


/-- C5. BlueprintMeshToMesh applied to a document that lacks the path
topologies/main or the path coordsets/coords fails before any Mesh is
constructed: no Mesh object was built and no mesh is returned.  When
coordsets/coords is missing the failure is the missing-path failure for it
(the MFEM_ASSERT in a debug build, the error of the const fetch otherwise);
when topologies/main is missing and the coordinate set could be read, it is
the missing-path failure for topologies/main. -/
theorem import_fails_before_construction (MFEM_DEBUG field_zero_copy : Bool)
    (GetNDofs : MeshArgs → String → Option Nat) (n_mesh : Node) (zero_copy : Bool)
    (h : n_mesh.has_path ["topologies", "main"] = false
      ∨ n_mesh.has_path ["coordsets", "coords"] = false) :
    (BlueprintMeshToMesh MFEM_DEBUG field_zero_copy GetNDofs n_mesh zero_copy).meshes_constructed
        = 0 ∧
    (∃ e, (BlueprintMeshToMesh MFEM_DEBUG field_zero_copy GetNDofs n_mesh zero_copy).result
        = .error e) ∧
    (n_mesh.has_path ["coordsets", "coords"] = false →
      (BlueprintMeshToMesh MFEM_DEBUG field_zero_copy GetNDofs n_mesh zero_copy).result
        = .error (if MFEM_DEBUG then
            .assertion "Expected topology named coords (node is missing path coordsets/coords)"
          else .conduit "Cannot fetch non-existent path: coordsets/coords")) ∧
    (n_mesh.has_path ["topologies", "main"] = false →
      (∃ c, BlueprintMeshToMesh.coordset MFEM_DEBUG n_mesh = .ok c) →
      (BlueprintMeshToMesh MFEM_DEBUG field_zero_copy GetNDofs n_mesh zero_copy).result
        = .error (if MFEM_DEBUG then
            .assertion "Expected topology named main (node is missing path topologies/main)"
          else .conduit "Cannot fetch non-existent path: topologies/main")) := by
  have key : ∀ e, BlueprintMeshToMesh.arguments MFEM_DEBUG n_mesh = .error e →
      (BlueprintMeshToMesh MFEM_DEBUG field_zero_copy GetNDofs n_mesh zero_copy)
        = ⟨0, .error e⟩ := by
    intro e he
    unfold BlueprintMeshToMesh
    rw [he]
  have hcoords : n_mesh.has_path ["coordsets", "coords"] = false →
      BlueprintMeshToMesh.arguments MFEM_DEBUG n_mesh
        = .error (if MFEM_DEBUG then
            .assertion "Expected topology named coords (node is missing path coordsets/coords)"
          else .conduit "Cannot fetch non-existent path: coordsets/coords") := by
    intro hc
    unfold BlueprintMeshToMesh.arguments
    rw [BlueprintMeshToMesh.coordset_of_no_path _ _ hc]
    rfl
  have hmain : n_mesh.has_path ["topologies", "main"] = false →
      ∀ c, BlueprintMeshToMesh.coordset MFEM_DEBUG n_mesh = .ok c →
      BlueprintMeshToMesh.arguments MFEM_DEBUG n_mesh
        = .error (if MFEM_DEBUG then
            .assertion "Expected topology named main (node is missing path topologies/main)"
          else .conduit "Cannot fetch non-existent path: topologies/main") := by
    intro hm c hc
    unfold BlueprintMeshToMesh.arguments
    simp only [hc, BlueprintMeshToMesh.main_topology_of_no_path _ _ _ hm, bind, Except.bind]
  have hfail : ∃ e, BlueprintMeshToMesh.arguments MFEM_DEBUG n_mesh = .error e := by
    by_cases hc : n_mesh.has_path ["coordsets", "coords"] = false
    · exact ⟨_, hcoords hc⟩
    · have hm : n_mesh.has_path ["topologies", "main"] = false := by
        rcases h with h | h
        · exact h
        · exact absurd h hc
      cases hcs : BlueprintMeshToMesh.coordset MFEM_DEBUG n_mesh with
      | ok c => exact ⟨_, hmain hm c hcs⟩
      | error e =>
        refine ⟨e, ?_⟩
        unfold BlueprintMeshToMesh.arguments
        rw [hcs]
        rfl
  obtain ⟨e, he⟩ := hfail
  refine ⟨by rw [key e he], ⟨e, by rw [key e he]⟩, ?_, ?_⟩
  · intro hc
    rw [key _ (hcoords hc)]
  · intro hm hex
    obtain ⟨c, hc⟩ := hex
    rw [key _ (hmain hm c hc)]

/-- A document with a coordinate set and no topology is rejected before any
Mesh is constructed. -/
theorem import_fails_before_construction_witness :
    (Node.empty.set ["coordsets", "coords", "type"] (.str "explicit")).has_path
        ["topologies", "main"] = false ∧
    (BlueprintMeshToMesh true false (fun _ _ => none)
      (Node.empty.set ["coordsets", "coords", "type"] (.str "explicit")) true).meshes_constructed
        = 0 :=
  ⟨by decide,
    (import_fails_before_construction true false (fun _ _ => none)
      (Node.empty.set ["coordsets", "coords", "type"] (.str "explicit")) true
      (Or.inl (by decide))).1⟩

/-! ### Reading memory -/

theorem cellAt_uniform (w : Nat) (hw : 0 < w) (vals : List Scalar) (k : Nat) :
    cellAt (vals.map (Cell.mk w)) (w * k) = vals[k]?.map (Cell.mk w) := by
  induction vals generalizing k with
  | nil => simp [cellAt]
  | cons v vs ih =>
    cases k with
    | zero => simp [cellAt]
    | succ j =>
      have h1 : w * (j + 1) ≠ 0 := by positivity
      have h2 : ¬ w * (j + 1) < w := by nlinarith
      have h3 : w * (j + 1) - w = w * j := by rw [Nat.mul_succ]; omega
      simp [cellAt, h1, h2, h3, ih]

theorem Ptr.read_uniform (r : Region) (w : Nat) (hw : 0 < w) (vals : List Scalar) (k : Nat) :
    (Ptr.mk (Buffer.uniform r w vals) 0).read (w * k) w = vals[k]? := by
  unfold Ptr.read Buffer.uniform
  simp only [Nat.zero_add]
  rw [cellAt_uniform w hw]
  cases vals[k]? <;> simp

theorem Ptr.load_of_reads (p : Ptr) (w s : Nat) (f : Nat → Scalar) (n b : Nat)
    (h : ∀ i, i < n → p.read (b + i * s) w = some (f i)) :
    p.load w s n b = some ((List.range n).map f) := by
  induction n generalizing b f with
  | zero => rfl
  | succ m ih =>
    have h0 : p.read b w = some (f 0) := by simpa using h 0 (Nat.succ_pos m)
    have hrest : ∀ i, i < m → p.read (b + s + i * s) w = some (f (i + 1)) := by
      intro i hi
      have := h (i + 1) (Nat.succ_lt_succ hi)
      rwa [Nat.succ_mul, show b + (i * s + s) = b + s + i * s by omega] at this
    rw [Ptr.load, h0]
    simp only
    rw [ih (fun i => f (i + 1)) (b + s) hrest, List.range_succ_eq_map]
    simp [Function.comp_def]

theorem List.map_range_getD {α : Type} (xs : List α) (d : α) :
    (List.range xs.length).map (fun i => xs[i]?.getD d) = xs := by
  apply List.ext_getElem
  · simp
  · intro i h1 h2
    simp [List.getElem?_eq_getElem h2]

theorem Ptr.load_uniform (r : Region) (w : Nat) (hw : 0 < w) (vals : List Scalar) :
    (Ptr.mk (Buffer.uniform r w vals) 0).load w w vals.length 0 = some vals := by
  rw [Ptr.load_of_reads _ w w (fun i => vals[i]?.getD (.int 0)) vals.length 0]
  · rw [List.map_range_getD]
  · intro i hi
    rw [Nat.zero_add, Nat.mul_comm, Ptr.read_uniform r w hw]
    simp [List.getElem?_eq_getElem hi]

theorem Node.elements_int_array (owner : String) (vals : List Int) :
    (Node.int_array owner vals).elements = some (vals.map Scalar.int) := by
  unfold Node.int_array Node.elements DataType.c_int
  simp only
  have := Ptr.load_uniform (.node owner) 4 (by decide) (vals.map Scalar.int)
  simpa using this

/-! ### The connectivity and attribute loops -/

theorem memcpy_take (dst : List Int) (pos : Nat) (src : List Int) (k : Nat)
    (hsrc : k ≤ src.length) (h : pos + k ≤ dst.length) :
    memcpy dst pos src k = .ok (dst.take pos ++ src.take k ++ dst.drop (pos + k)) := by
  unfold memcpy
  have h1 : ¬ src.length < k := by omega
  have h2 : ¬ dst.length < pos + k := by omega
  simp [h1, h2]

theorem copy_connectivity_take (k : Nat) (es : List Element) (conn : List Int) (pos : Nat)
    (hk : ∀ e, e ∈ es → k ≤ e.GetVertices.length)
    (hlen : pos + es.length * k ≤ conn.length) :
    copy_connectivity k es conn pos
      = .ok (conn.take pos ++ es.flatMap (fun e => e.GetVertices.take k)
          ++ conn.drop (pos + es.length * k)) := by
  induction es generalizing conn pos with
  | nil => simp [copy_connectivity]
  | cons e rest ih =>
    have hke : k ≤ e.GetVertices.length := hk e (List.mem_cons_self _ _)
    have hkt : (e.GetVertices.take k).length = k := by simp [List.length_take, hke]
    have hrest : ∀ x, x ∈ rest → k ≤ x.GetVertices.length :=
      fun x hx => hk x (List.mem_cons_of_mem _ hx)
    have hlen1 : pos + k + rest.length * k ≤ conn.length := by
      simp only [List.length_cons, Nat.succ_mul] at hlen
      omega
    have hcopy := memcpy_take conn pos e.GetVertices k hke (by omega)
    rw [copy_connectivity, hcopy]
    simp only
    have hposle : pos ≤ conn.length := by omega
    have hl1 : (conn.take pos ++ e.GetVertices.take k ++ conn.drop (pos + k)).length
        = conn.length := by
      simp only [List.length_append, hkt, List.length_take, List.length_drop,
        Nat.min_eq_left hposle]
      omega
    rw [ih _ (pos + k) hrest (by rw [hl1]; exact hlen1)]
    congr 1
    have hlen2 : (conn.take pos ++ e.GetVertices.take k).length = pos + k := by
      simp only [List.length_append, hkt, List.length_take, Nat.min_eq_left hposle]
    have htake : (conn.take pos ++ e.GetVertices.take k ++ conn.drop (pos + k)).take (pos + k)
        = conn.take pos ++ e.GetVertices.take k := List.take_left' hlen2
    have hdrop : (conn.take pos ++ e.GetVertices.take k ++ conn.drop (pos + k)).drop
        (pos + k + rest.length * k) = conn.drop (pos + (rest.length + 1) * k) := by
      rw [show pos + k + rest.length * k = (conn.take pos ++ e.GetVertices.take k).length
        + rest.length * k by rw [hlen2], List.drop_append, List.drop_drop]
      congr 1
      rw [Nat.succ_mul]
      omega
    rw [htake, hdrop]
    simp [List.flatMap_cons, List.append_assoc]

theorem copy_connectivity_all (k : Nat) (es : List Element)
    (hk : ∀ e, e ∈ es → k ≤ e.GetVertices.length) :
    copy_connectivity k es (List.replicate (es.length * k) 0) 0
      = .ok (es.flatMap (fun e => e.GetVertices.take k)) := by
  rw [copy_connectivity_take k es _ 0 hk (by simp)]
  simp

theorem flatMap_getElem {α β : Type} (f : α → List β) (k : Nat) (es : List α)
    (hk : ∀ e, e ∈ es → (f e).length = k) (i j : Nat) (hj : j < k) :
    (es.flatMap f)[i * k + j]? = (es[i]?).bind (fun e => (f e)[j]?) := by
  induction es generalizing i with
  | nil => simp
  | cons e rest ih =>
    have hke : (f e).length = k := hk e (List.mem_cons_self _ _)
    have hrest : ∀ x, x ∈ rest → (f x).length = k :=
      fun x hx => hk x (List.mem_cons_of_mem _ hx)
    cases i with
    | zero =>
      simp only [List.flatMap_cons, Nat.zero_mul, Nat.zero_add, List.getElem?_cons_zero,
        Option.some_bind]
      rw [List.getElem?_append_left (by rw [hke]; exact hj)]
    | succ m =>
      simp only [List.flatMap_cons, List.getElem?_cons_succ]
      rw [List.getElem?_append_right (by rw [hke, Nat.succ_mul]; omega), hke,
        show (m + 1) * k + j - k = m * k + j by rw [Nat.succ_mul]; omega]
      exact ih hrest m

theorem flatMap_length {α β : Type} (f : α → List β) (k : Nat) (es : List α)
    (hk : ∀ e, e ∈ es → (f e).length = k) :
    (es.flatMap f).length = es.length * k := by
  induction es with
  | nil => simp
  | cons e rest ih =>
    have hke : (f e).length = k := hk e (List.mem_cons_self _ _)
    have hrest : ∀ x, x ∈ rest → (f x).length = k :=
      fun x hx => hk x (List.mem_cons_of_mem _ hx)
    simp only [List.flatMap_cons, List.length_append, List.length_cons, ih hrest, hke,
      Nat.succ_mul]
    omega

theorem fill_attributes_spec (get : Nat → Except Error Int) (f : Nat → Int) (todo i : Nat)
    (vals : List Int) (hget : ∀ j, i ≤ j → j < i + todo → get j = .ok (f j))
    (hlen : i + todo ≤ vals.length) :
    ∃ r, fill_attributes get todo i vals = .ok r ∧ r.length = vals.length ∧
      ∀ j, r[j]? = if i ≤ j ∧ j < i + todo then some (f j) else vals[j]? := by
  induction todo generalizing i vals with
  | zero =>
    refine ⟨vals, rfl, rfl, ?_⟩
    intro j
    have : ¬ (i ≤ j ∧ j < i) := by omega
    simp [this]
  | succ t ih =>
    have hi : get i = .ok (f i) := hget i (Nat.le_refl i) (by omega)
    obtain ⟨r, hr, hrl, hrj⟩ := ih (i + 1) (vals.set i (f i))
      (fun j h1 h2 => hget j (by omega) (by omega)) (by simp; omega)
    refine ⟨r, ?_, ?_, ?_⟩
    · rw [fill_attributes, hi]
      exact hr
    · simpa using hrl
    · intro j
      rw [hrj j]
      by_cases hji : j = i
      · subst hji
        have h1 : ¬ (j + 1 ≤ j ∧ j < j + 1 + t) := by omega
        have h2 : j ≤ j ∧ j < j + (t + 1) := by omega
        have h3 : j < vals.length := by omega
        simp [h1, h2, List.getElem?_set_self h3]
      · by_cases hc : i + 1 ≤ j ∧ j < i + 1 + t
        · have h2 : i ≤ j ∧ j < i + (t + 1) := by omega
          simp [hc, h2]
        · have h2 : ¬ (i ≤ j ∧ j < i + (t + 1)) := by omega
          have h3 : i ≠ j := fun h => hji h.symm
          simp [hc, h2, List.getElem?_set_ne h3]

theorem fill_attributes_all (get : Nat → Except Error Int) (xs : List Int)
    (hget : ∀ j, j < xs.length → get j = .ok (xs[j]?.getD 0)) :
    fill_attributes get xs.length 0 (List.replicate xs.length 0) = .ok xs := by
  obtain ⟨r, hr, hrl, hrj⟩ := fill_attributes_spec get (fun j => xs[j]?.getD 0) xs.length 0
    (List.replicate xs.length 0) (fun j _ h2 => hget j (by omega)) (by simp)
  rw [hr]
  congr 1
  apply List.ext_getElem?
  intro j
  rw [hrj j]
  by_cases hj : j < xs.length
  · simp [hj, List.getElem?_eq_getElem hj]
  · have h1 : ¬ (0 ≤ j ∧ j < 0 + xs.length) := by omega
    have h2 : xs.length ≤ j := by omega
    simp [List.getElem?_eq_none h2, hj]
    omega

theorem Mesh.GetAttribute_of_lt (mesh : Mesh) (j : Nat)
    (h : j < (mesh.elements.map Element.GetAttribute).length) :
    mesh.GetAttribute j = .ok ((mesh.elements.map Element.GetAttribute)[j]?.getD 0) := by
  have hj : j < mesh.elements.length := by simpa using h
  simp [Mesh.GetAttribute, Mesh.GetElement, List.getElem?_eq_getElem hj, Except.map]

theorem diverge_append (p q r : List String) (h : diverge p q = true) :
    diverge (p ++ r) q = true := by
  induction p generalizing q with
  | nil => simp [diverge] at h
  | cons c t ih =>
    cases q with
    | nil => simp [diverge] at h
    | cons d s =>
      by_cases hcd : c = d
      · subst hcd
        have : diverge t s = true := by simpa [diverge] using h
        simpa [diverge] using ih s this
      · simp [diverge, hcd]

theorem MeshToBlueprintMesh.mesh_attribute_ok (mesh : Mesh) (n_mesh : Node) :
    MeshToBlueprintMesh.mesh_attribute mesh n_mesh
      = .ok (((n_mesh.set ["fields", "mesh_attribute", "association"] (.str "element")).set
          ["fields", "mesh_attribute", "topology"] (.str "main")).set
          ["fields", "mesh_attribute", "values"]
          (Node.int_array "fields/mesh_attribute/values"
            (mesh.elements.map Element.GetAttribute))) := by
  unfold MeshToBlueprintMesh.mesh_attribute
  have h := fill_attributes_all mesh.GetAttribute (mesh.elements.map Element.GetAttribute)
    (fun j hj => Mesh.GetAttribute_of_lt mesh j hj)
  simp only [List.length_map] at h
  simp only [Mesh.GetNE, h, bind, Except.bind, pure, Except.pure]

theorem MeshToBlueprintMesh.mesh_attribute_frame (mesh : Mesh) (n_mesh : Node)
    (q : List String) (hq : diverge ["fields", "mesh_attribute"] q = true) :
    ∃ n1, MeshToBlueprintMesh.mesh_attribute mesh n_mesh = .ok n1 ∧
      n1.fetch? q = n_mesh.fetch? q := by
  refine ⟨_, MeshToBlueprintMesh.mesh_attribute_ok mesh n_mesh, ?_⟩
  have h1 := diverge_append _ _ ["values"] hq
  have h2 := diverge_append _ _ ["topology"] hq
  have h3 := diverge_append _ _ ["association"] hq
  simp only [List.cons_append, List.nil_append] at h1 h2 h3
  rw [Node.fetch_set_of_diverge _ _ _ _ h1, Node.fetch_set_of_diverge _ _ _ _ h2,
    Node.fetch_set_of_diverge _ _ _ _ h3]

/-! ### The sections of MeshToBlueprintMesh -/

theorem MeshToBlueprintMesh.main_topology_ok (mesh : Mesh) (e0 : Element) (rest : List Element)
    (he : mesh.elements = e0 :: rest)
    (hk : ∀ e, e ∈ mesh.elements → NumVerts (GetGeometryType e0.GetType) ≤ e.GetVertices.length)
    (n_mesh : Node) :
    ∃ n1, MeshToBlueprintMesh.main_topology mesh n_mesh = .ok n1 ∧
      n1.fetch? ["topologies", "main", "elements", "connectivity"]
        = some (Node.int_array "topologies/main/elements/connectivity"
            (mesh.elements.flatMap
              (fun e => e.GetVertices.take (NumVerts (GetGeometryType e0.GetType))))) ∧
      n1.fetch? ["topologies", "main", "elements", "shape"]
        = some (.str (ElementTypeToShapeName e0.GetType)) ∧
      ∀ q, diverge ["topologies", "main"] q = true → diverge ["fields", "mesh_nodes"] q = true →
        n1.fetch? q = n_mesh.fetch? q := by
  have hget : mesh.GetElement 0 = .ok e0 := by simp [Mesh.GetElement, he]
  have hgeom : mesh.GetElementBaseGeometry 0 = .ok (GetGeometryType e0.GetType) := by
    simp [Mesh.GetElementBaseGeometry, hget, Except.map]
  have hcopy := copy_connectivity_all (NumVerts (GetGeometryType e0.GetType)) mesh.elements hk
  unfold MeshToBlueprintMesh.main_topology
  simp only [hget, hgeom, Mesh.GetNE, hcopy, bind, Except.bind, pure, Except.pure]
  have d1 : ∀ q r, diverge ["topologies", "main"] q = true →
      diverge (["topologies", "main"] ++ r) q = true := fun q r h => diverge_append _ _ r h
  cases hN : mesh.Nodes with
  | none =>
    refine ⟨_, rfl, ?_, ?_, ?_⟩
    · simp only [Option.isSome_none, Bool.false_eq_true, if_false]
      rw [Node.fetch_set_same]
    · simp only [Option.isSome_none, Bool.false_eq_true, if_false]
      rw [Node.fetch_set_of_diverge _ _ _ _ (by decide), Node.fetch_set_same]
    · intro q h1 _
      have a1 := d1 q ["elements", "connectivity"] h1
      have a2 := d1 q ["elements", "shape"] h1
      have a3 := d1 q ["coordset"] h1
      have a4 := d1 q ["type"] h1
      simp only [List.cons_append, List.nil_append] at a1 a2 a3 a4
      simp only [Option.isSome_none, Bool.false_eq_true, if_false]
      rw [Node.fetch_set_of_diverge _ _ _ _ a1, Node.fetch_set_of_diverge _ _ _ _ a2,
        Node.fetch_set_of_diverge _ _ _ _ a3, Node.fetch_set_of_diverge _ _ _ _ a4]
  | some gf =>
    refine ⟨_, rfl, ?_, ?_, ?_⟩
    · simp only [Option.isSome_some, if_true]
      rw [Node.fetch_set_of_diverge _ _ _ _ (by decide), Node.fetch_set_same]
    · simp only [Option.isSome_some, if_true]
      rw [Node.fetch_set_of_diverge _ _ _ _ (by decide),
        Node.fetch_set_of_diverge _ _ _ _ (by decide),
        Node.fetch_set_of_diverge _ _ _ _ (by decide), Node.fetch_set_same]
    · intro q h1 h2
      have a1 := d1 q ["elements", "connectivity"] h1
      have a2 := d1 q ["elements", "shape"] h1
      have a3 := d1 q ["coordset"] h1
      have a4 := d1 q ["type"] h1
      have a5 := d1 q ["grid_function"] h1
      simp only [List.cons_append, List.nil_append] at a1 a2 a3 a4 a5
      simp only [Option.isSome_some, if_true]
      rw [Node.fetch_set_of_diverge _ _ _ _ h2, Node.fetch_set_of_diverge _ _ _ _ a1,
        Node.fetch_set_of_diverge _ _ _ _ a5,
        Node.fetch_set_of_diverge _ _ _ _ a2,
        Node.fetch_set_of_diverge _ _ _ _ a3, Node.fetch_set_of_diverge _ _ _ _ a4]

theorem MeshToBlueprintMesh.boundary_topology_frame (mesh : Mesh) (geom : GeometryType)
    (n_mesh n1 : Node) (h : MeshToBlueprintMesh.boundary_topology mesh geom n_mesh = .ok n1)
    (q : List String) (hq : diverge ["topologies", "boundary"] q = true) :
    n1.fetch? q = n_mesh.fetch? q := by
  have a1 := diverge_append _ _ ["elements", "connectivity"] hq
  have a2 := diverge_append _ _ ["elements", "shape"] hq
  have a3 := diverge_append _ _ ["coordset"] hq
  have a4 := diverge_append _ _ ["type"] hq
  simp only [List.cons_append, List.nil_append] at a1 a2 a3 a4
  unfold MeshToBlueprintMesh.boundary_topology at h
  simp only [bind, Except.bind, pure, Except.pure] at h
  cases hb : mesh.GetBdrElement 0 with
  | error e => rw [hb] at h; cases h
  | ok b0 =>
    rw [hb] at h
    simp only at h
    cases hg : mesh.GetBdrElementBaseGeometry 0 with
    | error e => rw [hg] at h; cases h
    | ok g =>
      rw [hg] at h
      simp only at h
      cases hc : copy_connectivity (NumVerts geom) mesh.boundary
          (List.replicate (mesh.GetNBE * NumVerts geom) 0) 0 with
      | error e => rw [hc] at h; cases h
      | ok conn =>
        rw [hc] at h
        simp only at h
        cases h
        rw [Node.fetch_set_of_diverge _ _ _ _ a1, Node.fetch_set_of_diverge _ _ _ _ a2,
          Node.fetch_set_of_diverge _ _ _ _ a3, Node.fetch_set_of_diverge _ _ _ _ a4]

theorem MeshToBlueprintMesh.boundary_attribute_frame (mesh : Mesh) (num_ele : Nat)
    (n_mesh n1 : Node)
    (h : MeshToBlueprintMesh.boundary_attribute mesh num_ele n_mesh = .ok n1)
    (q : List String) (hq : diverge ["fields", "boundary_attribute"] q = true) :
    n1.fetch? q = n_mesh.fetch? q := by
  have a1 := diverge_append _ _ ["values"] hq
  have a2 := diverge_append _ _ ["topology"] hq
  have a3 := diverge_append _ _ ["association"] hq
  simp only [List.cons_append, List.nil_append] at a1 a2 a3
  unfold MeshToBlueprintMesh.boundary_attribute at h
  simp only [bind, Except.bind, pure, Except.pure] at h
  cases hf : fill_attributes mesh.GetBdrAttribute num_ele 0 (List.replicate num_ele 0) with
  | error e => rw [hf] at h; cases h
  | ok vals =>
    rw [hf] at h
    simp only at h
    cases h
    rw [Node.fetch_set_of_diverge _ _ _ _ a1, Node.fetch_set_of_diverge _ _ _ _ a2,
      Node.fetch_set_of_diverge _ _ _ _ a3]

theorem MeshToBlueprintMesh_frame (MFEM_DEBUG : Bool) (mesh : Mesh) (n_mesh doc : Node)
    (h : MeshToBlueprintMesh MFEM_DEBUG mesh n_mesh = .ok doc) :
    ∃ n1, MeshToBlueprintMesh.main_topology mesh (MeshToBlueprintMesh.coordset mesh n_mesh)
        = .ok n1 ∧
      ∀ q, diverge ["fields", "mesh_attribute"] q = true →
        diverge ["topologies", "boundary"] q = true →
        diverge ["fields", "boundary_attribute"] q = true →
        doc.fetch? q = n1.fetch? q := by
  unfold MeshToBlueprintMesh at h
  simp only [bind, Except.bind, pure, Except.pure] at h
  split at h
  · cases h
  · cases hm : MeshToBlueprintMesh.main_topology mesh (MeshToBlueprintMesh.coordset mesh n_mesh)
      with
    | error e => rw [hm] at h; cases h
    | ok n1 =>
      rw [hm] at h
      simp only at h
      refine ⟨n1, rfl, ?_⟩
      intro q q1 q2 q3
      cases hg : mesh.GetElementBaseGeometry 0 with
      | error e => rw [hg] at h; cases h
      | ok geom =>
        rw [hg] at h
        simp only at h
        obtain ⟨n2, hn2, hf2⟩ := MeshToBlueprintMesh.mesh_attribute_frame mesh n1 q q1
        rw [hn2] at h
        simp only at h
        split at h
        · cases hb : MeshToBlueprintMesh.boundary_topology mesh geom n2 with
          | error e => rw [hb] at h; cases h
          | ok n3 =>
            rw [hb] at h
            simp only at h
            rw [MeshToBlueprintMesh.boundary_attribute_frame mesh _ n3 doc h q q3,
              MeshToBlueprintMesh.boundary_topology_frame mesh geom n2 n3 hb q q2, hf2]
        · cases h
          exact hf2

theorem MeshToBlueprintMesh_ok_of_no_boundary (MFEM_DEBUG : Bool) (mesh : Mesh)
    (n_mesh n1 : Node)
    (hdim : MFEM_DEBUG = false ∨ (1 ≤ mesh.spaceDim ∧ mesh.spaceDim ≤ 3))
    (hb : mesh.boundary = [])
    (hm : MeshToBlueprintMesh.main_topology mesh (MeshToBlueprintMesh.coordset mesh n_mesh)
      = .ok n1) :
    ∃ doc, MeshToBlueprintMesh MFEM_DEBUG mesh n_mesh = .ok doc := by
  have hg : ∃ g, mesh.GetElementBaseGeometry 0 = .ok g := by
    unfold MeshToBlueprintMesh.main_topology at hm
    simp only [bind, Except.bind, pure, Except.pure] at hm
    cases he : mesh.GetElement 0 with
    | error e => rw [he] at hm; cases hm
    | ok e0 =>
      exact ⟨GetGeometryType e0.GetType, by simp [Mesh.GetElementBaseGeometry, he, Except.map]⟩
  obtain ⟨g, hg⟩ := hg
  have hcond : (MFEM_DEBUG && !(decide (mesh.SpaceDimension ≥ 1)
      && decide (mesh.SpaceDimension ≤ 3))) = false := by
    rcases hdim with h | ⟨h1, h2⟩
    · simp [h]
    · simp [Mesh.SpaceDimension, h1, h2]
  unfold MeshToBlueprintMesh
  simp only [bind, Except.bind, pure, Except.pure, hcond, hm, hg,
    MeshToBlueprintMesh.mesh_attribute_ok, Mesh.GetNBE, hb]
  simp

/-- C7. For a mesh with at least one element whose elements all have one
type `t` and as many vertex indices as that shape has vertices (`k`), the
main topology section of MeshToBlueprintMesh succeeds and writes to
topologies/main/elements/connectivity an array `conn` of exactly
`GetNE * k` entries whose entry `i * k + j` is vertex index `j` of element
`i`; every document the function returns holds that array, and the function
does return one when the mesh has no boundary elements. -/
theorem main_connectivity_written (mesh : Mesh) (t : ElementType) (n_mesh : Node)
    (hne : 1 ≤ mesh.GetNE)
    (hall : ∀ e, e ∈ mesh.elements →
      e.GetType = t ∧ e.GetVertices.length = NumVerts (GetGeometryType t)) :
    ∃ (n1 : Node) (conn : List Int),
      MeshToBlueprintMesh.main_topology mesh (MeshToBlueprintMesh.coordset mesh n_mesh)
        = .ok n1 ∧
      n1.array_at ["topologies", "main", "elements", "connectivity"]
        = some (conn.map Scalar.int) ∧
      conn.length = mesh.GetNE * NumVerts (GetGeometryType t) ∧
      (∀ i j, i < mesh.GetNE → j < NumVerts (GetGeometryType t) →
        ∃ e v, mesh.elements[i]? = some e ∧ e.GetVertices[j]? = some v ∧
          conn[i * NumVerts (GetGeometryType t) + j]? = some v) ∧
      (∀ MFEM_DEBUG doc, MeshToBlueprintMesh MFEM_DEBUG mesh n_mesh = .ok doc →
        doc.array_at ["topologies", "main", "elements", "connectivity"]
          = some (conn.map Scalar.int)) ∧
      (∀ MFEM_DEBUG, (MFEM_DEBUG = false ∨ (1 ≤ mesh.spaceDim ∧ mesh.spaceDim ≤ 3)) →
        mesh.boundary = [] → ∃ doc, MeshToBlueprintMesh MFEM_DEBUG mesh n_mesh = .ok doc) := by
  obtain ⟨e0, rest, he⟩ : ∃ e0 rest, mesh.elements = e0 :: rest := by
    cases hm : mesh.elements with
    | nil => simp [Mesh.GetNE, hm] at hne
    | cons a b => exact ⟨a, b, rfl⟩
  have ht0 : e0.GetType = t := (hall e0 (by rw [he]; exact List.mem_cons_self _ _)).1
  have hk : ∀ e, e ∈ mesh.elements →
      NumVerts (GetGeometryType e0.GetType) ≤ e.GetVertices.length := by
    intro e hmem
    rw [ht0, (hall e hmem).2]
  obtain ⟨n1, hn1, hconn, _, hframe⟩ :=
    MeshToBlueprintMesh.main_topology_ok mesh e0 rest he hk
      (MeshToBlueprintMesh.coordset mesh n_mesh)
  have htake : mesh.elements.flatMap
      (fun e => e.GetVertices.take (NumVerts (GetGeometryType e0.GetType)))
      = mesh.elements.flatMap Element.GetVertices := by
    apply List.flatMap_congr
    intro e hmem
    rw [ht0, ← (hall e hmem).2, List.take_length]
  rw [htake] at hconn
  have harr : n1.array_at ["topologies", "main", "elements", "connectivity"]
      = some ((mesh.elements.flatMap Element.GetVertices).map Scalar.int) := by
    unfold Node.array_at
    rw [hconn]
    exact Node.elements_int_array _ _
  have hlen : ∀ e, e ∈ mesh.elements → (Element.GetVertices e).length
      = NumVerts (GetGeometryType t) := fun e hmem => (hall e hmem).2
  refine ⟨n1, mesh.elements.flatMap Element.GetVertices, hn1, harr, ?_, ?_, ?_, ?_⟩
  · exact flatMap_length Element.GetVertices _ mesh.elements hlen
  · intro i j hi hj
    have hi2 : i < mesh.elements.length := hi
    have hj2 : j < (mesh.elements[i]).GetVertices.length := by
      rw [hlen _ (List.getElem_mem hi2)]
      exact hj
    refine ⟨mesh.elements[i], (mesh.elements[i]).GetVertices[j],
      List.getElem?_eq_getElem hi2, List.getElem?_eq_getElem hj2, ?_⟩
    rw [flatMap_getElem Element.GetVertices _ mesh.elements hlen i j hj,
      List.getElem?_eq_getElem hi2]
    exact List.getElem?_eq_getElem hj2
  · intro MFEM_DEBUG doc hdoc
    obtain ⟨n1b, hn1b, hfr⟩ := MeshToBlueprintMesh_frame MFEM_DEBUG mesh n_mesh doc hdoc
    rw [hn1] at hn1b
    cases hn1b
    unfold Node.array_at
    rw [hfr _ (by decide) (by decide) (by decide)]
    exact harr
  · intro MFEM_DEBUG hdim hb
    exact MeshToBlueprintMesh_ok_of_no_boundary MFEM_DEBUG mesh n_mesh n1 hdim hb hn1

/-- The connectivity statement at the mesh of one triangle. -/
theorem main_connectivity_written_witness :
    1 ≤ one_triangle.GetNE ∧
    ∃ conn : List Int, conn.length = one_triangle.GetNE * NumVerts (GetGeometryType .TRIANGLE) ∧
      ∀ MFEM_DEBUG doc, MeshToBlueprintMesh MFEM_DEBUG one_triangle .empty = .ok doc →
        doc.array_at ["topologies", "main", "elements", "connectivity"]
          = some (conn.map Scalar.int) :=
  ⟨by decide,
    have ⟨_, conn, _, _, h3, _, h5, _⟩ :=
      main_connectivity_written one_triangle .TRIANGLE .empty (by decide) (by decide)
    ⟨conn, h3, h5⟩⟩

/-! ### Failures of MeshToBlueprintMesh -/

theorem Mesh.GetElement_error (mesh : Mesh) (i : Nat) (e : Error)
    (h : mesh.GetElement i = .error e) : ∀ msg, e ≠ .abort msg := by
  unfold Mesh.GetElement at h
  cases hx : mesh.elements[i]? with
  | none => rw [hx] at h; cases h; intro msg hc; cases hc
  | some x => rw [hx] at h; cases h

theorem Mesh.GetBdrElement_error (mesh : Mesh) (i : Nat) (e : Error)
    (h : mesh.GetBdrElement i = .error e) : ∀ msg, e ≠ .abort msg := by
  unfold Mesh.GetBdrElement at h
  cases hx : mesh.boundary[i]? with
  | none => rw [hx] at h; cases h; intro msg hc; cases hc
  | some x => rw [hx] at h; cases h

theorem Except.map_error {α β : Type} (f : α → β) (x : Except Error α) (e : Error)
    (h : Except.map f x = .error e) : x = .error e := by
  cases x with
  | ok a => simp [Except.map] at h
  | error e2 => simpa [Except.map] using h

theorem copy_connectivity_error (k : Nat) (es : List Element) (conn : List Int) (pos : Nat)
    (e : Error) (h : copy_connectivity k es conn pos = .error e) : ∀ msg, e ≠ .abort msg := by
  induction es generalizing conn pos with
  | nil => simp [copy_connectivity] at h
  | cons x rest ih =>
    rw [copy_connectivity] at h
    cases hm : memcpy conn pos x.GetVertices k with
    | ok c1 =>
      rw [hm] at h
      exact ih _ _ h
    | error e2 =>
      rw [hm] at h
      simp only at h
      cases h
      unfold memcpy at hm
      split at hm
      · cases hm; intro msg hc; cases hc
      · split at hm
        · cases hm; intro msg hc; cases hc
        · cases hm

theorem fill_attributes_error (get : Nat → Except Error Int)
    (hget : ∀ j e, get j = .error e → ∀ msg, e ≠ .abort msg) (todo i : Nat) (vals : List Int)
    (e : Error) (h : fill_attributes get todo i vals = .error e) : ∀ msg, e ≠ .abort msg := by
  induction todo generalizing i vals with
  | zero => simp [fill_attributes] at h
  | succ t ih =>
    rw [fill_attributes] at h
    cases hg : get i with
    | ok a =>
      rw [hg] at h
      exact ih _ _ h
    | error e2 =>
      rw [hg] at h
      simp only at h
      cases h
      exact hget i _ hg

theorem MeshToBlueprintMesh_never_aborts (MFEM_DEBUG : Bool) (mesh : Mesh) (n_mesh : Node)
    (e : Error) (h : MeshToBlueprintMesh MFEM_DEBUG mesh n_mesh = .error e) :
    ∀ msg, e ≠ .abort msg := by
  have hgeom : ∀ e2, mesh.GetElementBaseGeometry 0 = .error e2 → ∀ msg, e2 ≠ .abort msg :=
    fun e2 h2 => Mesh.GetElement_error mesh 0 e2 (Except.map_error _ _ _ h2)
  have hbgeom : ∀ e2, mesh.GetBdrElementBaseGeometry 0 = .error e2 → ∀ msg, e2 ≠ .abort msg :=
    fun e2 h2 => Mesh.GetBdrElement_error mesh 0 e2 (Except.map_error _ _ _ h2)
  unfold MeshToBlueprintMesh at h
  simp only [bind, Except.bind, pure, Except.pure] at h
  split at h
  · cases h; intro msg hc; cases hc
  · cases hm : MeshToBlueprintMesh.main_topology mesh (MeshToBlueprintMesh.coordset mesh n_mesh)
      with
    | error e1 =>
      rw [hm] at h
      simp only at h
      cases h
      unfold MeshToBlueprintMesh.main_topology at hm
      simp only [bind, Except.bind, pure, Except.pure] at hm
      cases h0 : mesh.GetElement 0 with
      | error e2 => rw [h0] at hm; cases hm; exact Mesh.GetElement_error mesh 0 _ h0
      | ok e0 =>
        rw [h0] at hm
        simp only at hm
        cases h1 : mesh.GetElementBaseGeometry 0 with
        | error e2 => rw [h1] at hm; cases hm; exact hgeom _ h1
        | ok g =>
          rw [h1] at hm
          simp only at hm
          cases h2 : copy_connectivity (NumVerts g) mesh.elements
              (List.replicate (mesh.GetNE * NumVerts g) 0) 0 with
          | error e2 => rw [h2] at hm; cases hm; exact copy_connectivity_error _ _ _ _ _ h2
          | ok conn =>
            rw [h2] at hm
            simp only at hm
            split at hm <;> cases hm
    | ok n1 =>
      rw [hm] at h
      simp only at h
      cases hg : mesh.GetElementBaseGeometry 0 with
      | error e2 => rw [hg] at h; cases h; exact hgeom _ hg
      | ok geom =>
        rw [hg, MeshToBlueprintMesh.mesh_attribute_ok] at h
        simp only at h
        split at h
        · cases hb : MeshToBlueprintMesh.boundary_topology mesh geom _ with
          | error e2 =>
            rw [hb] at h
            simp only at h
            cases h
            unfold MeshToBlueprintMesh.boundary_topology at hb
            simp only [bind, Except.bind, pure, Except.pure] at hb
            cases h0 : mesh.GetBdrElement 0 with
            | error e3 => rw [h0] at hb; cases hb; exact Mesh.GetBdrElement_error mesh 0 _ h0
            | ok b0 =>
              rw [h0] at hb
              simp only at hb
              cases h1 : mesh.GetBdrElementBaseGeometry 0 with
              | error e3 => rw [h1] at hb; cases hb; exact hbgeom _ h1
              | ok g =>
                rw [h1] at hb
                simp only at hb
                cases h2 : copy_connectivity (NumVerts geom) mesh.boundary
                    (List.replicate (mesh.GetNBE * NumVerts geom) 0) 0 with
                | error e3 =>
                  rw [h2] at hb; cases hb; exact copy_connectivity_error _ _ _ _ _ h2
                | ok conn => rw [h2] at hb; cases hb
          | ok n3 =>
            rw [hb] at h
            simp only at h
            unfold MeshToBlueprintMesh.boundary_attribute at h
            simp only [bind, Except.bind, pure, Except.pure] at h
            cases hf : fill_attributes mesh.GetBdrAttribute mesh.GetNE 0
                (List.replicate mesh.GetNE 0) with
            | error e3 =>
              rw [hf] at h
              cases h
              exact fill_attributes_error _
                (fun j e4 h4 => Mesh.GetBdrElement_error mesh j e4 (Except.map_error _ _ _ h4))
                _ _ _ _ hf
            | ok vals => rw [hf] at h; cases h
        · cases h

/-- C6, counterexample. The mesh of a triangle followed by a quadrilateral
mixes two shapes, yet MeshToBlueprintMesh does not fail on it: it returns a
document whose topology has the shape "tri" and a connectivity of three
indices per element. -/
theorem mixed_mesh_is_exported :
    triangle_and_quad.elements.map Element.GetType = [.TRIANGLE, .QUADRILATERAL] ∧
    failure_of (MeshToBlueprintMesh true triangle_and_quad .empty) = none ∧
    (MeshToBlueprintMesh true triangle_and_quad .empty).toOption.bind
        (fun doc => doc.string_at ["topologies", "main", "elements", "shape"]) = some "tri" ∧
    (MeshToBlueprintMesh true triangle_and_quad .empty).toOption.bind
        (fun doc => doc.array_at ["topologies", "main", "elements", "connectivity"])
      = some [.int 0, .int 1, .int 2, .int 1, .int 4, .int 3] := by
  decide

/-- C6, amended. MeshToBlueprintMesh makes no check that the elements share
one shape and never fails with an unsupported-shape abort.  It takes the
shape and the number `k` of vertices per element from element 0: for a mesh,
mixed or not, whose elements each store at least `k` vertex indices, the main
topology section succeeds with the shape name of element 0 and the first `k`
vertex indices of each element as connectivity; every document the function
returns holds them, and it does return one when the mesh has no boundary
elements. -/
theorem export_takes_shape_of_first_element (mesh : Mesh) (e0 : Element)
    (rest : List Element) (n_mesh : Node) (he : mesh.elements = e0 :: rest)
    (hk : ∀ e, e ∈ mesh.elements →
      NumVerts (GetGeometryType e0.GetType) ≤ e.GetVertices.length) :
    (∀ MFEM_DEBUG e, MeshToBlueprintMesh MFEM_DEBUG mesh n_mesh = .error e →
      ∀ msg, e ≠ .abort msg) ∧
    (∃ n1, MeshToBlueprintMesh.main_topology mesh (MeshToBlueprintMesh.coordset mesh n_mesh)
        = .ok n1 ∧
      n1.string_at ["topologies", "main", "elements", "shape"]
        = some (ElementTypeToShapeName e0.GetType) ∧
      n1.array_at ["topologies", "main", "elements", "connectivity"]
        = some ((mesh.elements.flatMap
            (fun e => e.GetVertices.take (NumVerts (GetGeometryType e0.GetType)))).map
              Scalar.int)) ∧
    (∀ MFEM_DEBUG doc, MeshToBlueprintMesh MFEM_DEBUG mesh n_mesh = .ok doc →
      doc.string_at ["topologies", "main", "elements", "shape"]
        = some (ElementTypeToShapeName e0.GetType) ∧
      doc.array_at ["topologies", "main", "elements", "connectivity"]
        = some ((mesh.elements.flatMap
            (fun e => e.GetVertices.take (NumVerts (GetGeometryType e0.GetType)))).map
              Scalar.int)) ∧
    (∀ MFEM_DEBUG, (MFEM_DEBUG = false ∨ (1 ≤ mesh.spaceDim ∧ mesh.spaceDim ≤ 3)) →
      mesh.boundary = [] → ∃ doc, MeshToBlueprintMesh MFEM_DEBUG mesh n_mesh = .ok doc) := by
  obtain ⟨n1, hn1, hconn, hshape, _⟩ :=
    MeshToBlueprintMesh.main_topology_ok mesh e0 rest he hk
      (MeshToBlueprintMesh.coordset mesh n_mesh)
  have hs : n1.string_at ["topologies", "main", "elements", "shape"]
      = some (ElementTypeToShapeName e0.GetType) := by
    unfold Node.string_at
    rw [hshape]
  have ha : n1.array_at ["topologies", "main", "elements", "connectivity"]
      = some ((mesh.elements.flatMap
          (fun e => e.GetVertices.take (NumVerts (GetGeometryType e0.GetType)))).map
            Scalar.int) := by
    unfold Node.array_at
    rw [hconn]
    exact Node.elements_int_array _ _
  refine ⟨fun d e h => MeshToBlueprintMesh_never_aborts d mesh n_mesh e h,
    ⟨n1, hn1, hs, ha⟩, ?_, ?_⟩
  · intro MFEM_DEBUG doc hdoc
    obtain ⟨n1b, hn1b, hfr⟩ := MeshToBlueprintMesh_frame MFEM_DEBUG mesh n_mesh doc hdoc
    rw [hn1] at hn1b
    cases hn1b
    constructor
    · unfold Node.string_at
      rw [hfr _ (by decide) (by decide) (by decide)]
      exact hs
    · unfold Node.array_at
      rw [hfr _ (by decide) (by decide) (by decide)]
      exact ha
  · intro MFEM_DEBUG hdim hb
    exact MeshToBlueprintMesh_ok_of_no_boundary MFEM_DEBUG mesh n_mesh n1 hdim hb hn1

/-- The amended statement at the mesh of a triangle followed by a
quadrilateral. -/
theorem export_takes_shape_of_first_element_witness :
    (∀ e, e ∈ triangle_and_quad.elements → NumVerts (GetGeometryType .TRIANGLE)
      ≤ e.GetVertices.length) ∧
    ∃ doc, MeshToBlueprintMesh true triangle_and_quad .empty = .ok doc ∧
      doc.string_at ["topologies", "main", "elements", "shape"] = some "tri" :=
  ⟨by decide,
    have h := export_takes_shape_of_first_element triangle_and_quad
      ⟨.TRIANGLE, 7, [0, 1, 2]⟩ [⟨.QUADRILATERAL, 8, [1, 4, 3, 2]⟩] .empty rfl (by decide)
    have ⟨doc, hdoc⟩ := h.2.2.2 true (Or.inr (by decide)) rfl
    ⟨doc, hdoc, (h.2.2.1 true doc hdoc).1⟩⟩

/-! ### The coordinate set -/

theorem Mesh.load_axis (mesh : Mesh) (a : Nat) (ha : a < 3) :
    mesh.GetVertex0.load 8 24 mesh.vertices.length (a * 8)
      = some (mesh.vertices.map (fun v => Scalar.real (v.coord a))) := by
  have hcell : ∀ v : Vertex, [Scalar.real v.x, Scalar.real v.y, Scalar.real v.z][a]?
      = some (Scalar.real (v.coord a)) := by
    intro v
    match a, ha with
    | 0, _ => rfl
    | 1, _ => rfl
    | 2, _ => rfl
  rw [Ptr.load_of_reads _ 8 24
    (fun i => (mesh.vertices[i]?.map (fun v => Scalar.real (v.coord a))).getD (.int 0))]
  · congr 1
    apply List.ext_getElem
    · simp
    · intro i h1 h2
      have h3 : i < mesh.vertices.length := by simpa using h2
      simp [List.getElem?_eq_getElem h3]
  · intro i hi
    unfold Mesh.GetVertex0 Mesh.vertex_storage
    rw [show a * 8 + i * 24 = 8 * (i * 3 + a) by omega, Ptr.read_uniform _ 8 (by decide),
      flatMap_getElem (fun v : Vertex => [Scalar.real v.x, Scalar.real v.y, Scalar.real v.z]) 3
        mesh.vertices (fun _ _ => rfl) i a ha,
      List.getElem?_eq_getElem hi]
    simp [hcell]

theorem MeshToBlueprintMesh.main_topology_frame (mesh : Mesh) (n_mesh n1 : Node)
    (h : MeshToBlueprintMesh.main_topology mesh n_mesh = .ok n1) (q : List String)
    (h1 : diverge ["topologies", "main"] q = true)
    (h2 : diverge ["fields", "mesh_nodes"] q = true) :
    n1.fetch? q = n_mesh.fetch? q := by
  have d1 : ∀ r, diverge (["topologies", "main"] ++ r) q = true :=
    fun r => diverge_append _ _ r h1
  have a1 := d1 ["elements", "connectivity"]
  have a2 := d1 ["elements", "shape"]
  have a3 := d1 ["coordset"]
  have a4 := d1 ["type"]
  have a5 := d1 ["grid_function"]
  simp only [List.cons_append, List.nil_append] at a1 a2 a3 a4 a5
  unfold MeshToBlueprintMesh.main_topology at h
  simp only [bind, Except.bind, pure, Except.pure] at h
  cases h0 : mesh.GetElement 0 with
  | error e => rw [h0] at h; cases h
  | ok e0 =>
    rw [h0] at h
    simp only at h
    cases hg : mesh.GetElementBaseGeometry 0 with
    | error e => rw [hg] at h; cases h
    | ok g =>
      rw [hg] at h
      simp only at h
      cases hc : copy_connectivity (NumVerts g) mesh.elements
          (List.replicate (mesh.GetNE * NumVerts g) 0) 0 with
      | error e => rw [hc] at h; cases h
      | ok conn =>
        rw [hc] at h
        simp only at h
        cases hN : mesh.Nodes with
        | none =>
          rw [hN] at h
          simp only [Option.isSome_none, Bool.false_eq_true, if_false] at h
          cases h
          rw [Node.fetch_set_of_diverge _ _ _ _ a1, Node.fetch_set_of_diverge _ _ _ _ a2,
            Node.fetch_set_of_diverge _ _ _ _ a3, Node.fetch_set_of_diverge _ _ _ _ a4]
        | some gf =>
          rw [hN] at h
          simp only [Option.isSome_some, if_true] at h
          cases h
          rw [Node.fetch_set_of_diverge _ _ _ _ h2, Node.fetch_set_of_diverge _ _ _ _ a1,
            Node.fetch_set_of_diverge _ _ _ _ a5, Node.fetch_set_of_diverge _ _ _ _ a2,
            Node.fetch_set_of_diverge _ _ _ _ a3, Node.fetch_set_of_diverge _ _ _ _ a4]

theorem MeshToBlueprintMesh_coordsets (MFEM_DEBUG : Bool) (mesh : Mesh) (n_mesh doc : Node)
    (h : MeshToBlueprintMesh MFEM_DEBUG mesh n_mesh = .ok doc) (q : List String) :
    doc.fetch? ("coordsets" :: q)
      = (MeshToBlueprintMesh.coordset mesh n_mesh).fetch? ("coordsets" :: q) := by
  obtain ⟨n1, hn1, hfr⟩ := MeshToBlueprintMesh_frame MFEM_DEBUG mesh n_mesh doc h
  rw [hfr _ (by simp [diverge]) (by simp [diverge]) (by simp [diverge]),
    MeshToBlueprintMesh.main_topology_frame mesh _ n1 hn1 _ (by simp [diverge])
      (by simp [diverge])]

theorem MeshToBlueprintMesh.coordset_facts (mesh : Mesh)
    (hdim : 1 ≤ mesh.spaceDim ∧ mesh.spaceDim ≤ 3) (n : Node)
    (hn : ∀ q, n.fetch? ("coordsets" :: q)
      = (MeshToBlueprintMesh.coordset mesh .empty).fetch? ("coordsets" :: q)) :
    n.names_at ["coordsets", "coords", "values"] = some (["x", "y", "z"].take mesh.spaceDim) ∧
    ∀ a, a < mesh.spaceDim →
      n.view_at ["coordsets", "coords", "values", axis_name a]
        = some (DataType.float64 mesh.GetNV (a * sizeof_double) sizeof_Vertex,
            mesh.GetVertex0) ∧
      n.array_at ["coordsets", "coords", "values", axis_name a]
        = some (mesh.vertices.map (fun v => Scalar.real (v.coord a))) := by
  have hx := Mesh.load_axis mesh 0 (by decide)
  have hy := Mesh.load_axis mesh 1 (by decide)
  have hz := Mesh.load_axis mesh 2 (by decide)
  have hcases : mesh.spaceDim = 1 ∨ mesh.spaceDim = 2 ∨ mesh.spaceDim = 3 := by omega
  unfold Node.names_at Node.view_at Node.array_at
  simp only [hn]
  rcases hcases with h | h | h
  · refine ⟨?_, ?_⟩
    · simp [MeshToBlueprintMesh.coordset, Mesh.SpaceDimension, h, Node.set, Node.setChild,
        Node.fetch?, Node.child?, Node.children, List.lookup]
    · intro a ha
      have ha0 : a = 0 := by omega
      subst ha0
      simp [MeshToBlueprintMesh.coordset, Mesh.SpaceDimension, h, Node.set, Node.setChild,
        Node.fetch?, Node.child?, Node.children, List.lookup, axis_name, Node.set_external,
        Node.elements, DataType.float64, sizeof_double, sizeof_Vertex, Mesh.GetNV, hx]
  · refine ⟨?_, ?_⟩
    · simp [MeshToBlueprintMesh.coordset, Mesh.SpaceDimension, h, Node.set, Node.setChild,
        Node.fetch?, Node.child?, Node.children, List.lookup]
    · intro a ha
      have ha0 : a = 0 ∨ a = 1 := by omega
      rcases ha0 with ha0 | ha0 <;> subst ha0 <;>
      simp [MeshToBlueprintMesh.coordset, Mesh.SpaceDimension, h, Node.set, Node.setChild,
        Node.fetch?, Node.child?, Node.children, List.lookup, axis_name, Node.set_external,
        Node.elements, DataType.float64, sizeof_double, sizeof_Vertex, Mesh.GetNV, hx, hy]
  · refine ⟨?_, ?_⟩
    · simp [MeshToBlueprintMesh.coordset, Mesh.SpaceDimension, h, Node.set, Node.setChild,
        Node.fetch?, Node.child?, Node.children, List.lookup]
    · intro a ha
      have ha0 : a = 0 ∨ a = 1 ∨ a = 2 := by omega
      rcases ha0 with ha0 | ha0 | ha0 <;> subst ha0 <;>
      simp [MeshToBlueprintMesh.coordset, Mesh.SpaceDimension, h, Node.set, Node.setChild,
        Node.fetch?, Node.child?, Node.children, List.lookup, axis_name, Node.set_external,
        Node.elements, DataType.float64, sizeof_double, sizeof_Vertex, Mesh.GetNV, hx, hy, hz]

/-- C10. For a mesh of space dimension 1, 2 or 3, the coordinate set section
of MeshToBlueprintMesh writes exactly the axis arrays x; x, y; x, y, z under
coordsets/coords/values.  Axis `a` is a view of `GetNV` doubles on the vertex
storage with byte offset `a * sizeof(double)` and byte stride
`sizeof(Vertex)`, and its entry `i` is coordinate `a` of vertex `i`.  Every
document the function returns holds these arrays, and the function does
return one for a mesh without boundary elements whose elements store as many
vertex indices as the shape of element 0 has vertices. -/
theorem coordset_written (mesh : Mesh) (hdim : 1 ≤ mesh.spaceDim ∧ mesh.spaceDim ≤ 3) :
    (∀ n : Node,
      (n = MeshToBlueprintMesh.coordset mesh .empty
        ∨ ∃ MFEM_DEBUG, MeshToBlueprintMesh MFEM_DEBUG mesh .empty = .ok n) →
      n.names_at ["coordsets", "coords", "values"]
        = some (["x", "y", "z"].take mesh.spaceDim) ∧
      ∀ a, a < mesh.spaceDim →
        n.view_at ["coordsets", "coords", "values", axis_name a]
          = some (DataType.float64 mesh.GetNV (a * sizeof_double) sizeof_Vertex,
              mesh.GetVertex0) ∧
        n.array_at ["coordsets", "coords", "values", axis_name a]
          = some (mesh.vertices.map (fun v => Scalar.real (v.coord a)))) ∧
    (∀ MFEM_DEBUG e0 rest, mesh.elements = e0 :: rest →
      (∀ e, e ∈ mesh.elements → NumVerts (GetGeometryType e0.GetType) ≤ e.GetVertices.length) →
      mesh.boundary = [] → ∃ doc, MeshToBlueprintMesh MFEM_DEBUG mesh .empty = .ok doc) := by
  constructor
  · intro n hn
    apply MeshToBlueprintMesh.coordset_facts mesh hdim n
    intro q
    rcases hn with hn | ⟨d, hd⟩
    · rw [hn]
    · exact MeshToBlueprintMesh_coordsets d mesh .empty n hd q
  · intro MFEM_DEBUG e0 rest he hk hb
    obtain ⟨n1, hn1, _⟩ := MeshToBlueprintMesh.main_topology_ok mesh e0 rest he hk
      (MeshToBlueprintMesh.coordset mesh .empty)
    exact MeshToBlueprintMesh_ok_of_no_boundary MFEM_DEBUG mesh .empty n1 (Or.inr hdim) hb hn1

/-- The coordinate set statement at the mesh of one triangle: the document
returned has the axes x and y, and the y axis holds 0, 0, 1. -/
theorem coordset_written_witness :
    (1 ≤ one_triangle.spaceDim ∧ one_triangle.spaceDim ≤ 3) ∧
    ∃ doc, MeshToBlueprintMesh true one_triangle .empty = .ok doc ∧
      doc.names_at ["coordsets", "coords", "values"] = some ["x", "y"] ∧
      doc.array_at ["coordsets", "coords", "values", "y"]
        = some [.real ⟨0, 0⟩, .real ⟨0, 0⟩, .real ⟨1, 0⟩] :=
  ⟨by decide,
    have h := coordset_written one_triangle (by decide)
    have ⟨doc, hdoc⟩ := h.2 true ⟨.TRIANGLE, 7, [0, 1, 2]⟩ [] rfl (by decide) rfl
    ⟨doc, hdoc, (h.1 doc (Or.inr ⟨true, hdoc⟩)).1,
      ((h.1 doc (Or.inr ⟨true, hdoc⟩)).2 1 (by decide)).2⟩⟩

/-! ### Component names -/

theorem digitsValue_append (cs : List Char) (c : Char) :
    digitsValue (cs ++ [c]) = 10 * digitsValue cs + (c.toNat - 48) := by
  simp [digitsValue, List.foldl_append]

theorem digit_toNat (n : Nat) (h : n < 10) : (Char.ofNat (48 + n)).toNat - 48 = n := by
  interval_cases n <;> rfl

theorem digitsValue_decimalDigits (fuel n : Nat) (h : n < fuel) :
    digitsValue (decimalDigits fuel n) = n := by
  induction fuel generalizing n with
  | zero => omega
  | succ f ih =>
    rw [decimalDigits]
    by_cases h10 : n < 10
    · simp only [h10, if_true]
      simpa [digitsValue] using digit_toNat n h10
    · simp only [h10, if_false]
      rw [digitsValue_append, ih (n / 10) (by omega), digit_toNat _ (Nat.mod_lt _ (by decide))]
      omega

theorem decimal_injective (a b : Nat) (h : decimal a = decimal b) : a = b := by
  unfold decimal at h
  have h2 : decimalDigits (a + 1) a = decimalDigits (b + 1) b := by
    simpa using congrArg String.data h
  have h3 := congrArg digitsValue h2
  rwa [digitsValue_decimalDigits _ _ (Nat.lt_succ_self a),
    digitsValue_decimalDigits _ _ (Nat.lt_succ_self b)] at h3

theorem comp_name_injective (a b : Nat) (h : comp_name a = comp_name b) : a = b := by
  unfold comp_name at h
  apply decimal_injective
  have h2 := congrArg String.data h
  simp only [String.data_append] at h2
  exact String.ext (List.append_cancel_left h2)

/-! ### The document written by GridFunctionToBlueprintField -/

theorem Node.setChild_fresh (cs : List (String × Node)) (c : String) (v : Node)
    (h : ∀ x, x ∈ cs → x.1 ≠ c) : Node.setChild cs c v = cs ++ [(c, v)] := by
  induction cs with
  | nil => rfl
  | cons hd tl ih =>
    obtain ⟨k, x⟩ := hd
    have hk : k ≠ c := h (k, x) (List.mem_cons_self _ _)
    simp [Node.setChild, hk, ih (fun y hy => h y (List.mem_cons_of_mem _ hy))]

theorem Node.fetch_values_set_component (n : Node) (c : String) (v : Node) :
    (n.set ["values", c] v).fetch? ["values"]
      = some (.object (Node.setChild ((n.fetch? ["values"]).getD .empty).children c v)) := by
  have h1 : n.fetch? ["values"] = n.child? "values" := by
    simp only [Node.fetch?]
    cases n.child? "values" <;> rfl
  rw [h1]
  simp only [Node.fetch?, Node.child_set_same]
  rfl

theorem GridFunctionToBlueprintField.loop_frame (data : Ptr) (ndofs stride vdim_stride : Nat)
    (todo d offset : Nat) (n : Node) (q : List String) (hq : diverge ["values"] q = true) :
    (GridFunctionToBlueprintField.loop data ndofs stride vdim_stride todo d offset n).fetch? q
      = n.fetch? q := by
  induction todo generalizing d offset n with
  | zero => rfl
  | succ t ih =>
    rw [GridFunctionToBlueprintField.loop, ih]
    have := diverge_append _ _ [comp_name d] hq
    simp only [List.cons_append, List.nil_append] at this
    exact Node.fetch_set_of_diverge _ _ _ _ this

theorem GridFunctionToBlueprintField.loop_values (data : Ptr) (ndofs stride vdim_stride : Nat)
    (t d offset : Nat) (n : Node) (cs : List (String × Node))
    (hcs : ((n.fetch? ["values"]).getD .empty).children = cs)
    (hnames : ∀ x, x ∈ cs → ∃ j, j < d ∧ x.1 = comp_name j) :
    (GridFunctionToBlueprintField.loop data ndofs stride vdim_stride (t + 1) d offset n).fetch?
        ["values"]
      = some (.object (cs ++ GridFunctionToBlueprintField.components data ndofs stride
          vdim_stride (t + 1) d offset)) := by
  induction t generalizing d offset n cs with
  | zero =>
    have hfresh : ∀ x, x ∈ cs → x.1 ≠ comp_name d := by
      intro x hx hc
      obtain ⟨j, hj, hxj⟩ := hnames x hx
      have := comp_name_injective _ _ (hxj.symm.trans hc)
      omega
    simp only [GridFunctionToBlueprintField.loop, GridFunctionToBlueprintField.components]
    rw [Node.fetch_values_set_component, hcs, Node.setChild_fresh _ _ _ hfresh]
  | succ t ih =>
    have hfresh : ∀ x, x ∈ cs → x.1 ≠ comp_name d := by
      intro x hx hc
      obtain ⟨j, hj, hxj⟩ := hnames x hx
      have := comp_name_injective _ _ (hxj.symm.trans hc)
      omega
    rw [GridFunctionToBlueprintField.loop,
      ih (d + 1) (offset + 8 * vdim_stride) _
        (cs ++ [(comp_name d, Node.set_external data ndofs offset stride)])]
    · have hc : GridFunctionToBlueprintField.components data ndofs stride vdim_stride
          (t + 1 + 1) d offset
          = (comp_name d, Node.set_external data ndofs offset stride)
            :: GridFunctionToBlueprintField.components data ndofs stride vdim_stride (t + 1)
                (d + 1) (offset + 8 * vdim_stride) := rfl
      rw [hc]
      simp
    · rw [Node.fetch_values_set_component, hcs, Node.setChild_fresh _ _ _ hfresh]
      rfl
    · intro x hx
      rcases List.mem_append.mp hx with hx | hx
      · obtain ⟨j, hj, hxj⟩ := hnames x hx
        exact ⟨j, by omega, hxj⟩
      · simp only [List.mem_singleton] at hx
        exact ⟨d, by omega, by rw [hx]⟩

theorem GridFunctionToBlueprintField.components_length (data : Ptr)
    (ndofs stride vdim_stride k d offset : Nat) :
    (GridFunctionToBlueprintField.components data ndofs stride vdim_stride k d offset).length
      = k := by
  induction k generalizing d offset with
  | zero => rfl
  | succ t ih => simp [GridFunctionToBlueprintField.components, ih]

/-! ### What BlueprintFieldToGridFunction detects on the component views -/

theorem GridFunctionToBlueprintField.components_contiguous (data : Ptr) (ndofs k d offset : Nat)
    (start e : Option (Region × Nat))
    (hstart : start = none ∨ start = some (data.buf.region, data.off + offset)) :
    Node.contiguous_children
        (GridFunctionToBlueprintField.components data ndofs 8 ndofs (k + 1) d offset) start e
      = (true, some (data.buf.region, data.off + offset + (k + 1) * (8 * ndofs))) := by
  induction k generalizing d offset start e with
  | zero =>
    rcases hstart with h | h <;> subst h <;>
    simp [GridFunctionToBlueprintField.components, Node.contiguous_children,
      Node.contiguous_with, Node.set_external, DataType.float64, DataType.total_bytes,
      Ptr.add, Ptr.addr]
  | succ k ih =>
    have hc : GridFunctionToBlueprintField.components data ndofs 8 ndofs (k + 1 + 1) d offset
        = (comp_name d, Node.set_external data ndofs offset 8)
          :: GridFunctionToBlueprintField.components data ndofs 8 ndofs (k + 1) (d + 1)
              (offset + 8 * ndofs) := rfl
    have hfirst : Node.contiguous_with (Node.set_external data ndofs offset 8) start e
        = (true, some (data.buf.region, data.off + (offset + 8 * ndofs))) := by
      rcases hstart with h | h <;> subst h <;>
      simp [Node.contiguous_with, Node.set_external, DataType.float64, DataType.total_bytes,
        Ptr.add, Ptr.addr, Nat.add_assoc]
    rw [hc, Node.contiguous_children, hfirst]
    simp only
    rw [ih (d + 1) (offset + 8 * ndofs) _ _ (Or.inr rfl)]
    congr 2
    congr 1
    rw [Nat.succ_mul (k + 1)]
    omega

theorem GridFunctionToBlueprintField.components_not_contiguous (data : Ptr)
    (ndofs stride k d : Nat) (h : stride * ndofs ≠ 8) :
    Node.contiguous_children
        (GridFunctionToBlueprintField.components data ndofs stride 1 (k + 2) d 0) none none
      = (false, none) := by
  have hne : ¬ (data.off + stride * ndofs = data.off + 8) := by omega
  simp [GridFunctionToBlueprintField.components, Node.contiguous_children,
    Node.contiguous_with, Node.set_external, DataType.float64, DataType.total_bytes,
    Ptr.add, Ptr.addr, hne]

theorem GridFunctionToBlueprintField.components_interleaved_loop (data : Ptr)
    (ndofs stride k d offset base total : Nat) (hbase : base + total = data.off + offset) :
    mcarray.interleaved_loop
        (GridFunctionToBlueprintField.components data ndofs stride 1 k d offset)
        (some (data.buf.region, base)) stride total
      = (true, stride, total + 8 * k) := by
  induction k generalizing d offset total with
  | zero => rfl
  | succ k ih =>
    have hc : GridFunctionToBlueprintField.components data ndofs stride 1 (k + 1) d offset
        = (comp_name d, Node.set_external data ndofs offset stride)
          :: GridFunctionToBlueprintField.components data ndofs stride 1 k (d + 1)
              (offset + 8 * 1) := rfl
    rw [hc, mcarray.interleaved_loop]
    simp only [Option.isNone_some, Bool.false_eq_true, if_false, Node.element_addr0,
      Node.element_ptr0, Node.set_external, Option.map_some', Ptr.addr, Ptr.add, Node.dtype,
      DataType.float64, Node.element_bytes, hbase, beq_self_eq_true, Bool.and_self, if_true]
    rw [ih (d + 1) (offset + 8 * 1) (total + 8) (by omega)]
    congr 2
    omega

theorem GridFunctionToBlueprintField.components_is_interleaved (data : Ptr) (ndofs k : Nat) :
    mcarray.is_interleaved (.object
        (GridFunctionToBlueprintField.components data ndofs (8 * (k + 1)) 1 (k + 1) 0 0))
      = true := by
  have hc : GridFunctionToBlueprintField.components data ndofs (8 * (k + 1)) 1 (k + 1) 0 0
      = (comp_name 0, Node.set_external data ndofs 0 (8 * (k + 1)))
        :: GridFunctionToBlueprintField.components data ndofs (8 * (k + 1)) 1 k (0 + 1)
            (0 + 8 * 1) := rfl
  unfold mcarray.is_interleaved
  simp only [Node.children]
  rw [hc, mcarray.interleaved_loop]
  simp only [Option.isNone_none, if_true, Node.element_addr0,
    Node.element_ptr0, Node.set_external, Option.map_some', Ptr.addr, Ptr.add, Node.dtype,
    DataType.float64, Node.element_bytes, Nat.add_zero, beq_self_eq_true, Bool.and_self]
  rw [GridFunctionToBlueprintField.components_interleaved_loop data ndofs (8 * (k + 1)) k
    (0 + 1) (0 + 8 * 1) data.off (0 + 8) (by omega)]
  simp
  omega

/-! ### The field round trip -/

theorem GridFunctionToBlueprintField.basis (gf : GridFunction) :
    (GridFunctionToBlueprintField gf .empty).fetch? ["basis"] = some (.str gf.fes.fec_name) := by
  unfold GridFunctionToBlueprintField
  simp only
  split
  · rw [Node.fetch_set_of_diverge _ _ _ _ (by decide),
      Node.fetch_set_of_diverge _ _ _ _ (by decide), Node.fetch_set_same]
  · rw [GridFunctionToBlueprintField.loop_frame _ _ _ _ _ _ _ _ _ (by decide),
      Node.fetch_set_of_diverge _ _ _ _ (by decide), Node.fetch_set_same]

theorem GridFunctionToBlueprintField.values_vector (gf : GridFunction) (k : Nat)
    (hv : gf.fes.vdim = k + 2) :
    (GridFunctionToBlueprintField gf .empty).fetch? ["values"]
      = some (.object (GridFunctionToBlueprintField.components gf.data gf.fes.ndofs
          (8 * (if gf.fes.ordering = .byNODES then 1 else gf.fes.vdim))
          (if gf.fes.ordering = .byNODES then gf.fes.ndofs else 1) gf.fes.vdim 0 0)) := by
  have h1 : ¬ gf.fes.vdim = 1 := by omega
  have h0 : ((((Node.empty.set ["basis"] (Node.str gf.fes.fec_name)).set ["topology"]
      (Node.str "main")).fetch? ["values"]).getD Node.empty).children = [] := by
    rw [Node.fetch_set_of_diverge _ _ _ _ (by decide),
      Node.fetch_set_of_diverge _ _ _ _ (by decide)]
    rfl
  unfold GridFunctionToBlueprintField
  simp only [h1, if_false]
  rw [hv]
  rw [GridFunctionToBlueprintField.loop_values _ _ _ _ (k + 1) 0 0 _ [] h0
    (by intro x hx; cases hx)]
  rfl

theorem BlueprintFieldToGridFunction.values_of_export (gf : GridFunction)
    (hv : 1 ≤ gf.fes.vdim) (hn : 1 ≤ gf.fes.ndofs) :
    ∃ ord : Ordering,
      BlueprintFieldToGridFunction.values (GridFunctionToBlueprintField gf .empty)
        = .ok (gf.fes.vdim, ord, gf.data, .empty) ∧
      ∀ name i d, i < gf.fes.ndofs → d < gf.fes.vdim →
        FiniteElementSpace.DofToVDof ⟨name, gf.fes.vdim, gf.fes.ndofs, ord⟩ i d
          = gf.fes.DofToVDof i d := by
  by_cases h1 : gf.fes.vdim = 1
  · refine ⟨.byNODES, ?_, ?_⟩
    · have hval : (GridFunctionToBlueprintField gf .empty).fetch? ["values"]
          = some (Node.set_external gf.data gf.fes.ndofs 0 8) := by
        unfold GridFunctionToBlueprintField
        simp only [h1, if_true]
        rw [Node.fetch_set_same]
      unfold BlueprintFieldToGridFunction.values
      simp [Node.fetch_const, hval, bind, Except.bind, pure, Except.pure, Node.set_external,
        Node.dtype, DataType.float64, DataType.is_object, DataType.is_double, Node.is_compact,
        DataType.is_compact, DataType.total_bytes, DataType.total_bytes_compact,
        DTypeId.default_bytes, Node.as_double_ptr, Ptr.add, h1]
    · intro name i d hi hd
      have hd0 : d = 0 := by omega
      subst hd0
      cases ho : gf.fes.ordering <;>
      simp [FiniteElementSpace.DofToVDof, ho, h1]
  · obtain ⟨k, hk⟩ : ∃ k, gf.fes.vdim = k + 2 := ⟨gf.fes.vdim - 2, by omega⟩
    have hval := GridFunctionToBlueprintField.values_vector gf k hk
    cases ho : gf.fes.ordering with
    | byNODES =>
      refine ⟨.byNODES, ?_, ?_⟩
      · simp only [ho, if_true, Nat.mul_one] at hval
        have hcont := GridFunctionToBlueprintField.components_contiguous gf.data gf.fes.ndofs
          (k + 1) 0 0 none none (Or.inl rfl)
        rw [← hk] at hcont
        have hc : GridFunctionToBlueprintField.components gf.data gf.fes.ndofs 8 gf.fes.ndofs
            gf.fes.vdim 0 0
            = (comp_name 0, Node.set_external gf.data gf.fes.ndofs 0 8)
              :: GridFunctionToBlueprintField.components gf.data gf.fes.ndofs 8 gf.fes.ndofs
                  (k + 1) (0 + 1) (0 + 8 * gf.fes.ndofs) := by
          rw [hk]
          rfl
        unfold BlueprintFieldToGridFunction.values
        simp only [Node.fetch_const, hval, bind, Except.bind, pure, Except.pure, Node.dtype,
          DataType.is_object, beq_self_eq_true, if_true, Node.is_contiguous,
          Node.contiguous_with, hcont, Node.number_of_children, Node.children,
          GridFunctionToBlueprintField.components_length]
        rw [hc]
        simp [Node.child, Node.children, Node.set_external, Node.as_double_ptr,
          DataType.float64, Ptr.add]
      · intro name i d _ _
        simp [FiniteElementSpace.DofToVDof, ho]
    | byVDIM =>
      refine ⟨.byVDIM, ?_, ?_⟩
      · simp only [ho, if_false, reduceCtorEq] at hval
        have hne : 8 * gf.fes.vdim * gf.fes.ndofs ≠ 8 := by
          have : 2 ≤ gf.fes.vdim * gf.fes.ndofs := by
            calc 2 ≤ gf.fes.vdim := by omega
              _ = gf.fes.vdim * 1 := (Nat.mul_one _).symm
              _ ≤ gf.fes.vdim * gf.fes.ndofs := Nat.mul_le_mul_left _ hn
          rw [Nat.mul_assoc]
          omega
        have hnc := GridFunctionToBlueprintField.components_not_contiguous gf.data
          gf.fes.ndofs (8 * gf.fes.vdim) k 0 hne
        rw [← hk] at hnc
        have hil := GridFunctionToBlueprintField.components_is_interleaved gf.data gf.fes.ndofs
          (k + 1)
        rw [show k + 1 + 1 = gf.fes.vdim by omega] at hil
        have hc : GridFunctionToBlueprintField.components gf.data gf.fes.ndofs
            (8 * gf.fes.vdim) 1 gf.fes.vdim 0 0
            = (comp_name 0, Node.set_external gf.data gf.fes.ndofs 0 (8 * gf.fes.vdim))
              :: GridFunctionToBlueprintField.components gf.data gf.fes.ndofs
                  (8 * gf.fes.vdim) 1 (k + 1) (0 + 1) (0 + 8 * 1) := by
          rw [hk]
          rfl
        unfold BlueprintFieldToGridFunction.values
        simp only [Node.fetch_const, hval, bind, Except.bind, pure, Except.pure, Node.dtype,
          DataType.is_object, beq_self_eq_true, if_true, Node.is_contiguous,
          Node.contiguous_with, hnc, hil, Node.number_of_children, Node.children,
          GridFunctionToBlueprintField.components_length, Bool.false_eq_true, if_false]
        rw [hc]
        simp [Node.child, Node.children, Node.set_external, Node.as_double_ptr,
          DataType.float64, Ptr.add]
      · intro name i d _ _
        simp [FiniteElementSpace.DofToVDof, ho]

theorem FiniteElementSpace.DofToVDof_lt (fes : FiniteElementSpace) (i d : Nat)
    (hi : i < fes.ndofs) (hd : d < fes.vdim) : fes.DofToVDof i d < fes.vdim * fes.ndofs := by
  unfold FiniteElementSpace.DofToVDof
  cases fes.ordering with
  | byNODES =>
    simp only
    calc i + d * fes.ndofs < fes.ndofs + d * fes.ndofs := by omega
      _ = (d + 1) * fes.ndofs := by rw [Nat.succ_mul]; omega
      _ ≤ fes.vdim * fes.ndofs := Nat.mul_le_mul_right _ hd
  | byVDIM =>
    simp only
    calc d + i * fes.vdim < fes.vdim + i * fes.vdim := by omega
      _ = (i + 1) * fes.vdim := by rw [Nat.succ_mul]; omega
      _ ≤ fes.ndofs * fes.vdim := Nat.mul_le_mul_right _ hi
      _ = fes.vdim * fes.ndofs := Nat.mul_comm _ _

/-- C1. Field round trip: for a field with vdim ≥ 1 and ndofs ≥ 1, of either
ordering, whose value array can be read, BlueprintFieldToGridFunction applied
to the document produced by GridFunctionToBlueprintField (on a mesh on which
the basis spans the same number of dofs, with or without zero copy) returns a
field with the same vdim and number of dofs in which the value at (i, d),
read under the ordering that the import detected, is the value the source
field holds at (i, d) under its own ordering, for every dof i < ndofs and
component d < vdim. -/
theorem field_round_trip (gf : GridFunction) (GetNDofs : String → Option Nat)
    (zero_copy : Bool) (hv : 1 ≤ gf.fes.vdim) (hn : 1 ≤ gf.fes.ndofs)
    (hread : ∀ k, k < gf.fes.vdim * gf.fes.ndofs → (gf.data.double_at k).isSome = true)
    (hfes : GetNDofs gf.fes.fec_name = some gf.fes.ndofs) :
    ∃ res, BlueprintFieldToGridFunction GetNDofs (GridFunctionToBlueprintField gf .empty)
        zero_copy = .ok res ∧
      res.fes.vdim = gf.fes.vdim ∧ res.fes.ndofs = gf.fes.ndofs ∧
      ∀ i d, i < gf.fes.ndofs → d < gf.fes.vdim →
        ∃ x, gf.value i d = some x ∧ res.value i d = some x := by
  have hdata : ∀ k, k < gf.fes.vdim * gf.fes.ndofs → ∃ x, gf.data.double_at k = some x :=
    fun k hk => Option.isSome_iff_exists.mp (hread k hk)
  obtain ⟨ord, hvals, hidx⟩ := BlueprintFieldToGridFunction.values_of_export gf hv hn
  have hbasis := GridFunctionToBlueprintField.basis gf
  have hsrc : ∀ i d, i < gf.fes.ndofs → d < gf.fes.vdim →
      ∃ x, gf.value i d = some x := fun i d hi hd =>
    hdata _ (FiniteElementSpace.DofToVDof_lt gf.fes i d hi hd)
  cases zero_copy with
  | true =>
    refine ⟨⟨⟨gf.fes.fec_name, gf.fes.vdim, gf.fes.ndofs, ord⟩, gf.data⟩, ?_, rfl, rfl, ?_⟩
    · unfold BlueprintFieldToGridFunction
      simp [hvals, bind, Except.bind, pure, Except.pure, Node.fetch_const, hbasis,
        Node.as_string, hfes, Node.dtype, DataType.is_empty]
    · intro i d hi hd
      obtain ⟨x, hx⟩ := hsrc i d hi hd
      refine ⟨x, hx, ?_⟩
      unfold GridFunction.value at hx ⊢
      simp only
      rw [hidx _ i d hi hd]
      exact hx
  | false =>
    have hload : gf.data.load 8 8 (gf.fes.vdim * gf.fes.ndofs) 0
        = some ((List.range (gf.fes.vdim * gf.fes.ndofs)).map
            (fun k => (gf.data.double_at k).getD (.int 0))) := by
      apply Ptr.load_of_reads
      intro k hk
      obtain ⟨x, hx⟩ := hdata k hk
      rw [Nat.zero_add, Nat.mul_comm]
      unfold Ptr.double_at at hx ⊢
      rw [hx]
      rfl
    refine ⟨⟨⟨gf.fes.fec_name, gf.fes.vdim, gf.fes.ndofs, ord⟩,
      ⟨Buffer.uniform (.node "GridFunction") 8
        ((List.range (gf.fes.vdim * gf.fes.ndofs)).map
          (fun k => (gf.data.double_at k).getD (.int 0))), 0⟩⟩, ?_, rfl, rfl, ?_⟩
    · unfold BlueprintFieldToGridFunction
      simp [hvals, bind, Except.bind, pure, Except.pure, Node.fetch_const, hbasis,
        Node.as_string, hfes, NewDataAndSize, FiniteElementSpace.GetVSize, hload]
    · intro i d hi hd
      obtain ⟨x, hx⟩ := hsrc i d hi hd
      refine ⟨x, hx, ?_⟩
      have hlt := FiniteElementSpace.DofToVDof_lt gf.fes i d hi hd
      unfold GridFunction.value at hx ⊢
      simp only
      rw [hidx _ i d hi hd]
      unfold Ptr.double_at
      rw [Ptr.read_uniform _ 8 (by decide)]
      simp only [List.getElem?_map]
      rw [List.getElem?_range hlt]
      simp only [Option.map_some']
      unfold Ptr.double_at at hx
      rw [hx]
      rfl

/-- The round trip at the field with two components on three dofs, ordered
byVDIM, imported without zero copy. -/
theorem field_round_trip_witness :
    (∀ k, k < example_field.fes.vdim * example_field.fes.ndofs →
      (example_field.data.double_at k).isSome = true) ∧
    ∃ res, BlueprintFieldToGridFunction (fun _ => some 3)
        (GridFunctionToBlueprintField example_field .empty) false = .ok res ∧
      res.fes.vdim = 2 ∧
      ∀ i d, i < 3 → d < 2 → ∃ x, example_field.value i d = some x ∧ res.value i d = some x :=
  ⟨by decide,
    have ⟨res, h1, h2, _, h4⟩ := field_round_trip example_field (fun _ => some 3) false
      (by decide) (by decide) (by decide) rfl
    ⟨res, h1, h2, h4⟩⟩

/-! ### Attributes and boundary data -/

/-- C3. At the mesh of one triangle with attribute 7: MeshToBlueprintMesh
writes the tag to fields/mesh_attribute/values, but the document has no child
called "fields/main_attribute", which is what BlueprintMeshToMesh asks for, so
the element-attribute array it hands to the Mesh constructor is the null
pointer and not the exported array. -/
theorem exported_attributes_are_not_imported :
    (MeshToBlueprintMesh true one_triangle .empty).toOption.bind
        (fun doc => doc.array_at ["fields", "mesh_attribute", "values"]) = some [.int 7] ∧
    (MeshToBlueprintMesh true one_triangle .empty).toOption.map
        (fun doc => doc.has_child "fields/main_attribute") = some false ∧
    ((MeshToBlueprintMesh true one_triangle .empty).toOption.bind
        (fun doc => (BlueprintMeshToMesh.arguments true doc).toOption)).map
          (fun a => a.1.element_attributes) = some none := by
  decide

/-- C8. At the mesh of one triangle with its three boundary segments: the
boundary topology section sizes and fills the boundary connectivity with the
vertex count of the triangle (3) instead of that of the segment (2), so each
memcpy reads past the two vertex indices of a segment and the export has no
defined result.  With the boundary geometry in the place of `geom` the
section writes the six indices of the three segments. -/
theorem boundary_connectivity_uses_element_geometry :
    triangle_with_boundary.GetBdrElementBaseGeometry 0 = .ok .SEGMENT ∧
    triangle_with_boundary.GetElementBaseGeometry 0 = .ok .TRIANGLE ∧
    failure_of (MeshToBlueprintMesh.boundary_topology triangle_with_boundary .TRIANGLE .empty)
      = some (.outOfBounds "memcpy: read past the end of the source") ∧
    failure_of (MeshToBlueprintMesh true triangle_with_boundary .empty)
      = some (.outOfBounds "memcpy: read past the end of the source") ∧
    (MeshToBlueprintMesh.boundary_topology triangle_with_boundary .SEGMENT .empty).toOption.bind
        (fun doc => doc.array_at ["topologies", "boundary", "elements", "connectivity"])
      = some [.int 0, .int 1, .int 1, .int 2, .int 2, .int 0] := by
  decide

/-- C9. The boundary attribute section sizes and fills
fields/boundary_attribute/values with the number of elements, not of boundary
elements: for one triangle with three boundary segments it writes one tag
instead of three, and for three segments with two boundary points it reads
the attribute of a boundary element that does not exist. -/
theorem boundary_attribute_uses_element_count :
    triangle_with_boundary.GetNBE = 3 ∧
    (MeshToBlueprintMesh.boundary_attribute triangle_with_boundary
        triangle_with_boundary.GetNE .empty).toOption.bind
        (fun doc => doc.array_at ["fields", "boundary_attribute", "values"]) = some [.int 1] ∧
    three_segments.GetNBE = 2 ∧
    failure_of (MeshToBlueprintMesh.boundary_attribute three_segments three_segments.GetNE
        .empty) = some (.outOfBounds "Mesh::GetBdrElement") := by
  decide

/-! ### The component views -/

theorem Node.fetch_two (n : Node) (a b : String) :
    n.fetch? [a, b] = (n.fetch? [a]).bind (fun ch => ch.child? b) := by
  simp only [Node.fetch?]
  cases n.child? a with
  | none => rfl
  | some ch =>
    simp only [Option.bind]
    cases ch.child? b <;> rfl

theorem GridFunctionToBlueprintField.components_names (data : Ptr)
    (ndofs stride vdim_stride k d offset : Nat) :
    (GridFunctionToBlueprintField.components data ndofs stride vdim_stride k d offset).map
        Prod.fst
      = (List.range k).map (fun j => comp_name (d + j)) := by
  induction k generalizing d offset with
  | zero => rfl
  | succ k ih =>
    rw [List.range_succ_eq_map]
    simp only [GridFunctionToBlueprintField.components, List.map_cons, List.map_map, ih,
      Nat.add_zero]
    congr 1
    apply List.map_congr_left
    intro j _
    simp only [Function.comp]
    congr 1
    omega

theorem GridFunctionToBlueprintField.components_lookup (data : Ptr)
    (ndofs stride vdim_stride k d offset j : Nat) (hj : j < k) :
    (GridFunctionToBlueprintField.components data ndofs stride vdim_stride k d offset).lookup
        (comp_name (d + j))
      = some (Node.set_external data ndofs (offset + j * (8 * vdim_stride)) stride) := by
  induction k generalizing d offset j with
  | zero => omega
  | succ k ih =>
    cases j with
    | zero =>
      simp [GridFunctionToBlueprintField.components, List.lookup]
    | succ j =>
      have hne : (comp_name (d + (j + 1)) == comp_name d) = false := by
        simp only [beq_eq_false_iff_ne, ne_eq]
        intro hc
        have := comp_name_injective _ _ hc
        omega
      simp only [GridFunctionToBlueprintField.components, List.lookup, hne]
      have := ih (d + 1) (offset + 8 * vdim_stride) j (by omega)
      rw [show d + 1 + j = d + (j + 1) by omega] at this
      rw [this]
      congr 2
      ring

/-- C11. For a field with vdim ≥ 2, GridFunctionToBlueprintField writes under
values exactly the vdim children v0, ..., v(vdim-1), in this order; child d
is a view of ndofs doubles on the value buffer of the field whose entry i
lies at element d*ndofs + i of that buffer when the ordering is byNODES and
at element d + i*vdim when it is byVDIM.  For vdim = 1 it writes one flat
view of ndofs doubles on the value buffer, starting at element 0 with a
stride of one element. -/
theorem component_views (gf : GridFunction) :
    (gf.fes.vdim = 1 →
      (GridFunctionToBlueprintField gf .empty).view_at ["values"]
        = some (DataType.float64 gf.fes.ndofs 0 sizeof_double, gf.data)) ∧
    (2 ≤ gf.fes.vdim →
      (GridFunctionToBlueprintField gf .empty).names_at ["values"]
        = some ((List.range gf.fes.vdim).map comp_name) ∧
      ∀ d, d < gf.fes.vdim →
        ∃ dt, (GridFunctionToBlueprintField gf .empty).view_at ["values", comp_name d]
            = some (dt, gf.data) ∧
          dt.id = .FLOAT64 ∧ dt.num_ele = gf.fes.ndofs ∧
          (gf.fes.ordering = .byNODES →
            ∀ i, dt.element_index i = sizeof_double * (d * gf.fes.ndofs + i)) ∧
          (gf.fes.ordering = .byVDIM →
            ∀ i, dt.element_index i = sizeof_double * (d + i * gf.fes.vdim))) := by
  constructor
  · intro h1
    unfold Node.view_at GridFunctionToBlueprintField
    simp only [h1, if_true]
    rw [Node.fetch_set_same]
    rfl
  · intro h2
    obtain ⟨k, hk⟩ : ∃ k, gf.fes.vdim = k + 2 := ⟨gf.fes.vdim - 2, by omega⟩
    have hval := GridFunctionToBlueprintField.values_vector gf k hk
    constructor
    · unfold Node.names_at
      rw [hval]
      simp only [Option.map_some', Node.children,
        GridFunctionToBlueprintField.components_names, Nat.zero_add]
    · intro d hd
      have hlook := GridFunctionToBlueprintField.components_lookup gf.data gf.fes.ndofs
        (8 * (if gf.fes.ordering = .byNODES then 1 else gf.fes.vdim))
        (if gf.fes.ordering = .byNODES then gf.fes.ndofs else 1) gf.fes.vdim 0 0 d hd
      rw [Nat.zero_add] at hlook
      refine ⟨DataType.float64 gf.fes.ndofs
        (0 + d * (8 * (if gf.fes.ordering = .byNODES then gf.fes.ndofs else 1)))
        (8 * (if gf.fes.ordering = .byNODES then 1 else gf.fes.vdim)), ?_, rfl, rfl, ?_, ?_⟩
      · unfold Node.view_at
        rw [Node.fetch_two, hval]
        simp only [Option.bind, Node.child?, Node.children, hlook, Node.set_external]
      · intro ho i
        simp only [ho, if_true, DataType.element_index, DataType.float64, sizeof_double]
        ring
      · intro ho i
        simp only [ho, if_false, reduceCtorEq, DataType.element_index, DataType.float64,
          sizeof_double]
        ring

/-- The component views of the field with two components on three dofs,
ordered byVDIM: v0 and v1, and v1 is a view of three doubles with byte offset
8 and byte stride 16. -/
theorem component_views_witness :
    2 ≤ example_field.fes.vdim ∧
    (GridFunctionToBlueprintField example_field .empty).names_at ["values"]
      = some ["v0", "v1"] ∧
    (GridFunctionToBlueprintField example_field .empty).view_at ["values", "v1"]
      = some (DataType.float64 3 8 16, example_field.data) :=
  ⟨by decide, ((component_views example_field).2 (by decide)).1, by decide⟩

/-! ### File names -/

theorem digit_isDigit (k : Nat) (h : k < 10) : (Char.ofNat (48 + k)).isDigit = true := by
  interval_cases k <;> rfl

theorem decimalDigits_isDigit (fuel n : Nat) :
    ∀ c, c ∈ decimalDigits fuel n → c.isDigit = true := by
  induction fuel generalizing n with
  | zero => intro c hc; simp [decimalDigits] at hc
  | succ f ih =>
    intro c hc
    rw [decimalDigits] at hc
    by_cases h10 : n < 10
    · simp only [h10, if_true, List.mem_singleton] at hc
      rw [hc]
      exact digit_isDigit n h10
    · simp only [h10, if_false, List.mem_append, List.mem_singleton] at hc
      rcases hc with hc | hc
      · exact ih _ c hc
      · rw [hc]
        exact digit_isDigit _ (Nat.mod_lt _ (by decide))

theorem int_digits_ofNat (n : Nat) : int_digits (n : Int) = decimalDigits (n + 1) n := by
  have h : ¬ ((n : Int) < 0) := by omega
  simp [int_digits, h]

theorem to_padded_string_ofNat (n digits : Nat) :
    (to_padded_string (n : Int) digits).data
      = List.replicate (digits - (decimalDigits (n + 1) n).length) '0'
          ++ decimalDigits (n + 1) n := by
  simp [to_padded_string, int_digits_ofNat]

theorem to_padded_string_isDigit (n digits : Nat) :
    ∀ c, c ∈ (to_padded_string (n : Int) digits).data → c.isDigit = true := by
  intro c hc
  rw [to_padded_string_ofNat, List.mem_append] at hc
  rcases hc with hc | hc
  · rw [(List.mem_replicate.mp hc).2]
    rfl
  · exact decimalDigits_isDigit _ _ c hc

theorem digitsValue_zeros (k : Nat) (cs : List Char) :
    digitsValue (List.replicate k '0' ++ cs) = digitsValue cs := by
  unfold digitsValue
  rw [List.foldl_append]
  congr 1
  induction k with
  | zero => rfl
  | succ k ih =>
    rw [List.replicate_succ, List.foldl_cons]
    exact ih

theorem to_padded_string_value (n digits : Nat) :
    digitsValue (to_padded_string (n : Int) digits).data = n := by
  rw [to_padded_string_ofNat, digitsValue_zeros, digitsValue_decimalDigits _ _ (Nat.lt_succ_self n)]

theorem split_at_nondigit (a b r s : List Char) (x : Char)
    (ha : ∀ c, c ∈ a → c.isDigit = true) (hb : ∀ c, c ∈ b → c.isDigit = true)
    (hx : x.isDigit = false) (h : a ++ x :: r = b ++ x :: s) : a = b ∧ r = s := by
  induction a generalizing b with
  | nil =>
    cases b with
    | nil => simpa using h
    | cons y t =>
      simp only [List.nil_append, List.cons_append, List.cons.injEq] at h
      have := hb y (List.mem_cons_self _ _)
      rw [← h.1, hx] at this
      cases this
  | cons y t ih =>
    cases b with
    | nil =>
      simp only [List.nil_append, List.cons_append, List.cons.injEq] at h
      have := ha y (List.mem_cons_self _ _)
      rw [h.1, hx] at this
      cases this
    | cons z u =>
      simp only [List.cons_append, List.cons.injEq] at h
      obtain ⟨h1, h2⟩ := ih u (fun c hc => ha c (List.mem_cons_of_mem _ hc))
        (fun c hc => hb c (List.mem_cons_of_mem _ hc)) h.2
      exact ⟨by rw [h.1, h1], h2⟩

theorem ConduitDataCollection.MeshFileName_data (dc : ConduitDataCollection) (domain_id : Int)
    (relay_protocol : String) :
    (dc.MeshFileName domain_id relay_protocol).data
      = (dc.prefix_path.data ++ dc.name.data ++ ['_'])
        ++ ((to_padded_string dc.cycle dc.pad_digits_cycle).data
          ++ '/' :: ("domain_".data
            ++ ((to_padded_string domain_id dc.pad_digits_rank).data
              ++ '.' :: relay_protocol.data))) := by
  simp only [ConduitDataCollection.MeshFileName, String.data_append, List.append_assoc]
  rfl

/-- C14. MeshFileName(domain_id, protocol) is prefix + name + "_" +
pad(cycle, pad_digits_cycle) + "/domain_" + pad(domain_id, pad_digits_rank) +
"." + protocol; it is MeshDirectoryName() followed by "/" and the name of the
file in the directory, and RootFileName() is MeshDirectoryName() + ".root".
Here pad is to_padded_string, which for a non-negative number is its decimal
with zeros in front, and as long as the wider of the width and the decimal. -/
theorem file_name_layout (dc : ConduitDataCollection) (domain_id : Int) (protocol : String) :
    dc.MeshFileName domain_id protocol
      = dc.prefix_path ++ dc.name ++ "_" ++ to_padded_string dc.cycle dc.pad_digits_cycle
        ++ "/domain_" ++ to_padded_string domain_id dc.pad_digits_rank ++ "." ++ protocol ∧
    dc.MeshFileName domain_id protocol
      = dc.MeshDirectoryName ++ "/"
        ++ ("domain_" ++ to_padded_string domain_id dc.pad_digits_rank ++ "." ++ protocol) ∧
    dc.RootFileName = dc.MeshDirectoryName ++ ".root" ∧
    (∀ n digits : Nat,
      to_padded_string (n : Int) digits
        = String.mk (List.replicate (digits - (decimal n).length) '0') ++ decimal n ∧
      (to_padded_string (n : Int) digits).length = max digits (decimal n).length) := by
  refine ⟨rfl, ?_, rfl, ?_⟩
  · apply String.ext
    simp only [ConduitDataCollection.MeshFileName, ConduitDataCollection.MeshDirectoryName,
      String.data_append, List.append_assoc]
    rfl
  · intro n digits
    constructor
    · apply String.ext
      rw [to_padded_string_ofNat]
      simp [decimal, String.length]
    · simp only [String.length, to_padded_string_ofNat, List.length_append,
        List.length_replicate, decimal]
      omega

/-- C16. For a fixed prefix, collection name, padding widths and protocol,
MeshFileName is injective in (cycle, domain id) over the non-negative ints:
equal file names come from equal cycles and equal domain ids, whatever the
number of digits of the values. -/
theorem file_name_injective (dc : ConduitDataCollection) (protocol : String)
    (cycle1 cycle2 domain1 domain2 : Int) (hc1 : 0 ≤ cycle1) (hc2 : 0 ≤ cycle2)
    (hd1 : 0 ≤ domain1) (hd2 : 0 ≤ domain2)
    (h : ({ dc with cycle := cycle1 } : ConduitDataCollection).MeshFileName domain1 protocol
      = ({ dc with cycle := cycle2 } : ConduitDataCollection).MeshFileName domain2 protocol) :
    cycle1 = cycle2 ∧ domain1 = domain2 := by
  obtain ⟨a, rfl⟩ := Int.eq_ofNat_of_zero_le hc1
  obtain ⟨b, rfl⟩ := Int.eq_ofNat_of_zero_le hc2
  obtain ⟨m, rfl⟩ := Int.eq_ofNat_of_zero_le hd1
  obtain ⟨n, rfl⟩ := Int.eq_ofNat_of_zero_le hd2
  have h2 := congrArg String.data h
  rw [ConduitDataCollection.MeshFileName_data, ConduitDataCollection.MeshFileName_data] at h2
  have h3 := List.append_cancel_left h2
  obtain ⟨hcyc, hrest⟩ := split_at_nondigit _ _ _ _ '/'
    (to_padded_string_isDigit a dc.pad_digits_cycle)
    (to_padded_string_isDigit b dc.pad_digits_cycle) (by decide) h3
  have h4 := List.append_cancel_left hrest
  obtain ⟨hdom, _⟩ := split_at_nondigit _ _ _ _ '.'
    (to_padded_string_isDigit m dc.pad_digits_rank)
    (to_padded_string_isDigit n dc.pad_digits_rank) (by decide) h4
  have hab := congrArg digitsValue hcyc
  have hmn := congrArg digitsValue hdom
  simp only [to_padded_string_value] at hab hmn
  exact ⟨by rw [hab], by rw [hmn]⟩

/-- Injectivity at the example collection, cycle 123456 (more digits than the
width) and domain 3. -/
theorem file_name_injective_witness :
    ((0 : Int) ≤ 123456 ∧ (0 : Int) ≤ 3) ∧
    ({ example_collection with cycle := 123456 } : ConduitDataCollection).MeshFileName 3 "hdf5"
      = "out/run_123456/domain_00003.hdf5" ∧
    ((123456 : Int) = 123456 ∧ (3 : Int) = 3) :=
  ⟨by decide, by decide,
    file_name_injective example_collection "hdf5" 123456 123456 3 3 (by decide) (by decide)
      (by decide) (by decide) rfl⟩

/-! ### The lexical order of file names -/

theorem decimalDigits_fuel (f g n : Nat) (hf : n < f) (hg : n < g) :
    decimalDigits f n = decimalDigits g n := by
  induction f generalizing g n with
  | zero => omega
  | succ f ih =>
    cases g with
    | zero => omega
    | succ g =>
      rw [decimalDigits, decimalDigits]
      by_cases h10 : n < 10
      · simp [h10]
      · simp only [h10, if_false]
        rw [ih g (n / 10) (by omega) (by omega)]

theorem fixed_digits_zero (width : Nat) : fixed_digits width 0 = List.replicate width '0' := by
  induction width with
  | zero => rfl
  | succ w ih =>
    rw [fixed_digits, Nat.zero_div, ih, List.replicate_succ']

theorem fixed_digits_length (width n : Nat) : (fixed_digits width n).length = width := by
  induction width generalizing n with
  | zero => rfl
  | succ w ih => simp [fixed_digits, ih]

theorem to_padded_string_fixed (w n : Nat) (h : n < 10 ^ (w + 1)) :
    (to_padded_string (n : Int) (w + 1)).data = fixed_digits (w + 1) n := by
  rw [to_padded_string_ofNat]
  induction w generalizing n with
  | zero =>
    have h10 : n < 10 := by simpa using h
    simp [decimalDigits, h10, fixed_digits, Nat.mod_eq_of_lt h10]
  | succ w ih =>
    by_cases h10 : n < 10
    · have hd : decimalDigits (n + 1) n = [Char.ofNat (48 + n)] := by
        simp [decimalDigits, h10]
      rw [hd, fixed_digits, Nat.div_eq_of_lt h10, fixed_digits_zero, Nat.mod_eq_of_lt h10]
      simp
    · have hd : decimalDigits (n + 1) n
          = decimalDigits (n / 10 + 1) (n / 10) ++ [Char.ofNat (48 + n % 10)] := by
        rw [decimalDigits]
        simp only [h10, if_false]
        rw [decimalDigits_fuel n (n / 10 + 1) (n / 10) (by omega) (by omega)]
      have hlt : n / 10 < 10 ^ (w + 1) := by
        rw [Nat.div_lt_iff_lt_mul (by decide)]
        rw [Nat.pow_succ] at h
        exact h
      have := ih (n / 10) hlt
      rw [hd, fixed_digits, ← this]
      simp only [List.length_append, List.length_singleton, List.append_assoc]
      congr 2
      omega

theorem digit_lt (x y : Nat) (hxy : x < y) (hy : y < 10) :
    Char.ofNat (48 + x) < Char.ofNat (48 + y) := by
  interval_cases y <;> interval_cases x <;> decide

theorem List.lt_append_left_chars (p x y : List Char) (h : x < y) : p ++ x < p ++ y := by
  induction p with
  | nil => exact h
  | cons c t ih => exact List.Lex.cons ih

theorem List.lt_append_of_length_eq (x y s t : List Char) (hl : x.length = y.length)
    (h : x < y) : x ++ s < y ++ t := by
  induction x generalizing y with
  | nil =>
    cases y with
    | nil => cases h
    | cons b bs => simp at hl
  | cons a as ih =>
    cases y with
    | nil => simp at hl
    | cons b bs =>
      cases h with
      | rel hab => exact List.Lex.rel hab
      | cons h3 => exact List.Lex.cons (ih bs (by simpa using hl) h3)

theorem fixed_digits_lt (width a b : Nat) (hab : a < b) (hb : b < 10 ^ width) :
    fixed_digits width a < fixed_digits width b := by
  induction width generalizing a b with
  | zero => simp at hb; omega
  | succ w ih =>
    rw [fixed_digits, fixed_digits]
    by_cases hq : a / 10 < b / 10
    · have hlt : b / 10 < 10 ^ w := by
        rw [Nat.div_lt_iff_lt_mul (by decide)]
        rw [Nat.pow_succ] at hb
        exact hb
      exact List.lt_append_of_length_eq _ _ _ _
        (by rw [fixed_digits_length, fixed_digits_length]) (ih _ _ hq hlt)
    · have heq : a / 10 = b / 10 := by omega
      have hmod : a % 10 < b % 10 := by omega
      rw [heq]
      apply List.lt_append_left_chars
      exact List.Lex.rel (digit_lt _ _ hmod (Nat.mod_lt _ (by decide)))

theorem ConduitDataCollection.MeshFileName_data_domain (dc : ConduitDataCollection)
    (domain_id : Int) (relay_protocol : String) :
    (dc.MeshFileName domain_id relay_protocol).data
      = (dc.MeshDirectoryName ++ "/domain_").data
        ++ ((to_padded_string domain_id dc.pad_digits_rank).data
          ++ (".".data ++ relay_protocol.data)) := by
  simp only [ConduitDataCollection.MeshFileName, ConduitDataCollection.MeshDirectoryName,
    String.data_append, List.append_assoc]

/-- C17, counterexample. With a rank width of five digits, domain 99999 is
smaller than domain 100000 and yet its file name is not lexicographically
smaller: "...domain_99999.hdf5" comes after "...domain_100000.hdf5". -/
theorem file_names_not_sorted_past_width :
    example_collection.pad_digits_rank = 5 ∧ (99999 : Int) < 100000 ∧
    example_collection.MeshFileName 99999 "hdf5" = "out/run_00007/domain_99999.hdf5" ∧
    example_collection.MeshFileName 100000 "hdf5" = "out/run_00007/domain_100000.hdf5" ∧
    ¬ (example_collection.MeshFileName 99999 "hdf5"
        < example_collection.MeshFileName 100000 "hdf5") := by
  refine ⟨rfl, by decide, by decide, by decide, ?_⟩
  rw [String.lt_iff_toList_lt]
  decide

/-- C17, amended. For a fixed prefix, name, cycle and protocol and domain ids
0 ≤ a < b that both fit the rank width (b < 10 ^ pad_digits_rank),
MeshFileName(a, protocol) is lexicographically smaller than
MeshFileName(b, protocol). -/
theorem file_names_sorted_within_width (dc : ConduitDataCollection) (protocol : String)
    (a b : Int) (ha : 0 ≤ a) (hab : a < b) (hb : b < 10 ^ dc.pad_digits_rank) :
    dc.MeshFileName a protocol < dc.MeshFileName b protocol := by
  obtain ⟨m, rfl⟩ := Int.eq_ofNat_of_zero_le ha
  obtain ⟨n, rfl⟩ := Int.eq_ofNat_of_zero_le (by omega : (0 : Int) ≤ b)
  have hmn : m < n := by omega
  have hn : n < 10 ^ dc.pad_digits_rank := by exact_mod_cast hb
  obtain ⟨w, hw⟩ : ∃ w, dc.pad_digits_rank = w + 1 := by
    cases hp : dc.pad_digits_rank with
    | zero => rw [hp] at hn; simp at hn; omega
    | succ w => exact ⟨w, rfl⟩
  rw [hw] at hn
  rw [String.lt_iff_toList_lt]
  show (dc.MeshFileName m protocol).data < (dc.MeshFileName n protocol).data
  rw [ConduitDataCollection.MeshFileName_data_domain,
    ConduitDataCollection.MeshFileName_data_domain, hw,
    to_padded_string_fixed w m (by omega), to_padded_string_fixed w n hn]
  apply List.lt_append_left_chars
  exact List.lt_append_of_length_eq _ _ _ _
    (by rw [fixed_digits_length, fixed_digits_length]) (fixed_digits_lt _ _ _ hmn hn)

/-- The amended statement at the example collection and the domain ids 9 and
10. -/
theorem file_names_sorted_within_width_witness :
    ((0 : Int) ≤ 9 ∧ (9 : Int) < 10 ∧ (10 : Int) < 10 ^ example_collection.pad_digits_rank) ∧
    example_collection.MeshFileName 9 "hdf5" < example_collection.MeshFileName 10 "hdf5" :=
  ⟨by decide,
    file_names_sorted_within_width example_collection "hdf5" 9 10 (by decide) (by decide)
      (by decide)⟩

/-! ### The file pattern -/

theorem printf_run_text (pre rest : List Char) (arg : Option Int) (h : '%' ∉ pre) :
    printf_run .text arg (pre ++ rest) = (printf_run .text arg rest).map (pre ++ ·) := by
  induction pre with
  | nil => simp
  | cons c t ih =>
    have hc : c ≠ '%' := fun hc => h (by rw [hc]; exact List.mem_cons_self _ _)
    have ht : '%' ∉ t := fun ht => h (List.mem_cons_of_mem _ ht)
    rw [List.cons_append, printf_run]
    simp only [hc, if_false]
    rw [ih ht]
    cases printf_run .text arg rest <;> simp

theorem printf_run_text_all (pre : List Char) (arg : Option Int) (h : '%' ∉ pre) :
    printf_run .text arg pre = some pre := by
  have := printf_run_text pre [] arg h
  simpa [printf_run] using this

theorem printf_run_width (digits rest : List Char) (arg : Option Int)
    (hd : ∀ c, c ∈ digits → c.isDigit = true) (fresh : Bool) (width : Option Nat) :
    ∃ fresh1 width1,
      width1.getD 0 = digits.foldl (fun acc c => 10 * acc + (c.toNat - 48)) (width.getD 0) ∧
      printf_run (.conv fresh true width) arg (digits ++ 'd' :: rest)
        = printf_run (.conv fresh1 true width1) arg ('d' :: rest) := by
  induction digits generalizing fresh width with
  | nil => exact ⟨fresh, width, rfl, rfl⟩
  | cons c t ih =>
    have hc : c.isDigit = true := hd c (List.mem_cons_self _ _)
    have hp : c ≠ '%' := by
      intro h
      rw [h] at hc
      cases hc
    have ht : ∀ x, x ∈ t → x.isDigit = true := fun x hx => hd x (List.mem_cons_of_mem _ hx)
    rw [List.cons_append]
    simp only [printf_run, hp, if_false]
    by_cases hz : c = '0' ∧ width = none
    · obtain ⟨f1, w1, hw1, hrun⟩ := ih ht false none
      refine ⟨f1, w1, ?_, ?_⟩
      · rw [hw1, List.foldl_cons, hz.1, hz.2]
        rfl
      · simp only [hz, and_self, if_true]
        exact hrun
    · obtain ⟨f1, w1, hw1, hrun⟩ := ih ht false (some (10 * width.getD 0 + (c.toNat - 48)))
      refine ⟨f1, w1, ?_, ?_⟩
      · rw [hw1, List.foldl_cons]
        rfl
      · simp only [hz, if_false, hc, if_true]
        exact hrun

theorem printf_run_d (fresh : Bool) (width : Option Nat) (a : Int) (rest : List Char) :
    printf_run (.conv fresh true width) (some a) ('d' :: rest)
      = (printf_run .text none rest).map (printf_d true (width.getD 0) a ++ ·) := by
  rw [printf_run]
  have h1 : ¬ ('d' = '%') := by decide
  have h2 : ¬ ('d' = '0' ∧ width = none) := fun h => absurd h.1 (by decide)
  have h3 : ¬ ('d'.isDigit = true) := by decide
  simp only [h1, h2, h3, if_false, if_true, Bool.false_eq_true]

theorem printf_d_ofNat (n width : Nat) :
    printf_d true width (n : Int) = (to_padded_string (n : Int) width).data := by
  have h : ¬ ((n : Int) < 0) := by omega
  rw [to_padded_string_ofNat]
  simp [printf_d, h]

theorem int_digits_no_percent (i : Int) : '%' ∉ int_digits i := by
  have hd : ∀ n, '%' ∉ decimalDigits (n + 1) n := by
    intro n hm
    have := decimalDigits_isDigit _ _ _ hm
    cases this
  unfold int_digits
  split
  · intro hm
    rcases List.mem_cons.mp hm with h | h
    · cases h
    · exact hd _ h
  · exact hd _

theorem to_padded_string_no_percent (i : Int) (digits : Nat) :
    '%' ∉ (to_padded_string i digits).data := by
  intro hm
  simp only [to_padded_string, List.mem_append] at hm
  rcases hm with h | h
  · have := (List.mem_replicate.mp h).2
    cases this
  · exact int_digits_no_percent i h

theorem ConduitDataCollection.MeshFilePattern_data (dc : ConduitDataCollection)
    (relay_protocol : String) :
    (dc.MeshFilePattern relay_protocol).data
      = (dc.MeshDirectoryName ++ "/domain_").data
        ++ ('%' :: '0' :: (decimalDigits (dc.pad_digits_rank + 1) dc.pad_digits_rank
          ++ 'd' :: (".".data ++ relay_protocol.data))) := by
  simp only [ConduitDataCollection.MeshFilePattern, ConduitDataCollection.MeshDirectoryName,
    String.data_append, List.append_assoc, decimal]
  rfl

/-- C15. For a prefix, a collection name and a protocol without the character
'%', every cycle and every non-negative domain id d, printf applied to the
pattern MeshFilePattern(protocol) and the single int argument d writes
exactly MeshFileName(d, protocol). -/
theorem file_pattern_gives_file_name (dc : ConduitDataCollection) (protocol : String)
    (d : Int) (hd : 0 ≤ d) (h1 : '%' ∉ dc.prefix_path.data) (h2 : '%' ∉ dc.name.data)
    (h3 : '%' ∉ protocol.data) :
    printf (dc.MeshFilePattern protocol) d = some (dc.MeshFileName d protocol) := by
  obtain ⟨n, rfl⟩ := Int.eq_ofNat_of_zero_le hd
  have hdir : '%' ∉ (dc.MeshDirectoryName ++ "/domain_").data := by
    simp only [ConduitDataCollection.MeshDirectoryName, String.data_append, List.mem_append,
      not_or]
    exact ⟨⟨⟨⟨h1, h2⟩, by decide⟩, to_padded_string_no_percent _ _⟩, by decide⟩
  have hpost : '%' ∉ ".".data ++ protocol.data := by
    simp only [List.mem_append, not_or]
    exact ⟨by decide, h3⟩
  obtain ⟨f1, w1, hw1, hrun⟩ := printf_run_width
    (decimalDigits (dc.pad_digits_rank + 1) dc.pad_digits_rank) (".".data ++ protocol.data)
    (some (n : Int)) (decimalDigits_isDigit _ _) false none
  have hval : w1.getD 0 = dc.pad_digits_rank := by
    rw [hw1]
    exact digitsValue_decimalDigits _ _ (Nat.lt_succ_self _)
  have hconv : printf_run (.conv true false none) (some (n : Int))
      ('0' :: (decimalDigits (dc.pad_digits_rank + 1) dc.pad_digits_rank
        ++ 'd' :: (".".data ++ protocol.data)))
      = printf_run (.conv false true none) (some (n : Int))
        (decimalDigits (dc.pad_digits_rank + 1) dc.pad_digits_rank
          ++ 'd' :: (".".data ++ protocol.data)) := by
    rw [printf_run]
    simp
  unfold printf
  rw [ConduitDataCollection.MeshFilePattern_data, printf_run_text _ _ _ hdir, printf_run]
  simp only [if_true]
  rw [hconv, hrun, printf_run_d, printf_run_text_all _ _ hpost, hval, printf_d_ofNat]
  simp only [Option.map_some', Option.some.injEq]
  apply String.ext
  rw [ConduitDataCollection.MeshFileName_data_domain]

/-- The pattern of the example collection, applied to domain 3. -/
theorem file_pattern_gives_file_name_witness :
    ((0 : Int) ≤ 3 ∧ '%' ∉ example_collection.prefix_path.data
      ∧ '%' ∉ example_collection.name.data ∧ '%' ∉ "hdf5".data) ∧
    example_collection.MeshFilePattern "hdf5" = "out/run_00007/domain_%05d.hdf5" ∧
    printf (example_collection.MeshFilePattern "hdf5") 3
      = some (example_collection.MeshFileName 3 "hdf5") :=
  ⟨by decide, by decide,
    file_pattern_gives_file_name example_collection "hdf5" 3 (by decide) (by decide)
      (by decide) (by decide)⟩

/-! ### Save and the root file -/

theorem ConduitDataCollection.MeshFileName_ne_RootFileName (dc : ConduitDataCollection)
    (domain_id : Int) (relay_protocol : String) :
    dc.MeshFileName domain_id relay_protocol ≠ dc.RootFileName := by
  intro h
  have hd := congrArg String.data h
  simp only [ConduitDataCollection.MeshFileName, ConduitDataCollection.RootFileName,
    String.data_append, List.append_assoc] at hd
  have h1 := List.append_cancel_left hd
  have h2 := List.append_cancel_left h1
  have h3 := List.append_cancel_left h2
  have h4 := List.append_cancel_left h3
  have h5 : ("/domain_".data ++ ((to_padded_string domain_id dc.pad_digits_rank).data
      ++ (".".data ++ relay_protocol.data))).head? = (".root".data).head? := by rw [h4]
  have h6 : ("/domain_".data ++ ((to_padded_string domain_id dc.pad_digits_rank).data
      ++ (".".data ++ relay_protocol.data))).head? = some '/' := rfl
  rw [h6] at h5
  revert h5
  decide

theorem SaveRootFile.n_root_fields (env : Environment) (dc : ConduitDataCollection) (N : Int)
    (n_mesh : Node) (p : String) :
    (SaveRootFile.n_root env dc N n_mesh p).array_at ["number_of_files"] = some [Scalar.int N] ∧
    (SaveRootFile.n_root env dc N n_mesh p).array_at ["number_of_trees"] = some [Scalar.int N] ∧
    (SaveRootFile.n_root env dc N n_mesh p).string_at ["protocol", "name"] = some p ∧
    (SaveRootFile.n_root env dc N n_mesh p).string_at ["protocol", "version"] = some "0.3.1" ∧
    (SaveRootFile.n_root env dc N n_mesh p).string_at ["file_pattern"]
      = some (dc.MeshFilePattern p) ∧
    (SaveRootFile.n_root env dc N n_mesh p).string_at ["tree_pattern"] = some "" ∧
    (SaveRootFile.n_root env dc N n_mesh p).fetch? ["blueprint_index", "mesh"]
      = some (env.generate_index n_mesh N) := by
  simp only [SaveRootFile.n_root, Node.array_at, Node.string_at]
  refine ⟨?_, ?_, ?_, ?_, ?_, ?_, ?_⟩
  · rw [Node.fetch_set_of_diverge _ _ _ _ (by decide),
      Node.fetch_set_of_diverge _ _ _ _ (by decide),
      Node.fetch_set_of_diverge _ _ _ _ (by decide), Node.fetch_set_same]
    simpa using Node.elements_int_array "number_of_files" [N]
  · rw [Node.fetch_set_of_diverge _ _ _ _ (by decide),
      Node.fetch_set_of_diverge _ _ _ _ (by decide), Node.fetch_set_same]
    simpa using Node.elements_int_array "number_of_trees" [N]
  · rw [Node.fetch_set_of_diverge _ _ _ _ (by decide),
      Node.fetch_set_of_diverge _ _ _ _ (by decide),
      Node.fetch_set_of_diverge _ _ _ _ (by decide),
      Node.fetch_set_of_diverge _ _ _ _ (by decide),
      Node.fetch_set_of_diverge _ _ _ _ (by decide), Node.fetch_set_same]
  · rw [Node.fetch_set_of_diverge _ _ _ _ (by decide),
      Node.fetch_set_of_diverge _ _ _ _ (by decide),
      Node.fetch_set_of_diverge _ _ _ _ (by decide),
      Node.fetch_set_of_diverge _ _ _ _ (by decide), Node.fetch_set_same]
  · rw [Node.fetch_set_of_diverge _ _ _ _ (by decide), Node.fetch_set_same]
  · rw [Node.fetch_set_same]
  · rw [Node.fetch_set_of_diverge _ _ _ _ (by decide),
      Node.fetch_set_of_diverge _ _ _ _ (by decide),
      Node.fetch_set_of_diverge _ _ _ _ (by decide),
      Node.fetch_set_of_diverge _ _ _ _ (by decide),
      Node.fetch_set_of_diverge _ _ _ _ (by decide),
      Node.fetch_set_of_diverge _ _ _ _ (by decide), Node.fetch_set_same]

/-- The ways a Save can go, read off its definition. -/
theorem Save_cases (env : Environment) (dc : ConduitDataCollection) :
    (env.create_directory dc.MeshDirectoryName dc.mesh dc.myid ≠ 0 ∧
      Save env dc = ⟨[], some (.abort ("Error creating directory: " ++ dc.MeshDirectoryName))⟩) ∨
    (env.create_directory dc.MeshDirectoryName dc.mesh dc.myid = 0 ∧
      ∃ e, MeshToBlueprintMesh env.MFEM_DEBUG dc.mesh .empty = .error e ∧
        Save env dc = ⟨[], some e⟩) ∨
    (env.create_directory dc.MeshDirectoryName dc.mesh dc.myid = 0 ∧
      ∃ n_mesh, MeshToBlueprintMesh env.MFEM_DEBUG dc.mesh .empty = .ok n_mesh ∧
        env.verify n_mesh = false ∧
        Save env dc = ⟨[], some (.abort "Conduit Mesh Blueprint Verify Failed")⟩) ∨
    (env.create_directory dc.MeshDirectoryName dc.mesh dc.myid = 0 ∧
      ∃ n_mesh, MeshToBlueprintMesh env.MFEM_DEBUG dc.mesh .empty = .ok n_mesh ∧
        env.verify n_mesh = true ∧
        ((∃ e, SaveMeshAndFields env dc dc.myid (Save.fields dc.field_map n_mesh)
              dc.relay_protocol = .error e ∧ Save env dc = ⟨[], some e⟩) ∨
         (∃ domain_file, SaveMeshAndFields env dc dc.myid (Save.fields dc.field_map n_mesh)
              dc.relay_protocol = .ok domain_file ∧
            ((dc.myid ≠ 0 ∧ Save env dc = ⟨[domain_file], none⟩) ∨
             (dc.myid = 0 ∧ ∃ e, SaveRootFile env dc dc.num_procs
                  (Save.fields dc.field_map n_mesh) dc.relay_protocol = .error e ∧
                Save env dc = ⟨[domain_file], some e⟩) ∨
             (dc.myid = 0 ∧ ∃ root_file, SaveRootFile env dc dc.num_procs
                  (Save.fields dc.field_map n_mesh) dc.relay_protocol = .ok root_file ∧
                Save env dc = ⟨[domain_file, root_file], none⟩))))) := by
  by_cases hdir : env.create_directory dc.MeshDirectoryName dc.mesh dc.myid = 0
  · right
    cases hm : MeshToBlueprintMesh env.MFEM_DEBUG dc.mesh .empty with
    | error e => exact Or.inl ⟨hdir, e, rfl, by simp [Save, hdir, hm]⟩
    | ok n_mesh =>
      right
      cases hv : env.verify n_mesh with
      | false => exact Or.inl ⟨hdir, n_mesh, rfl, hv, by simp [Save, hdir, hm, hv]⟩
      | true =>
        right
        refine ⟨hdir, n_mesh, rfl, hv, ?_⟩
        cases hs : SaveMeshAndFields env dc dc.myid (Save.fields dc.field_map n_mesh)
            dc.relay_protocol with
        | error e => exact Or.inl ⟨e, rfl, by simp [Save, hdir, hm, hv, hs]⟩
        | ok domain_file =>
          right
          refine ⟨domain_file, rfl, ?_⟩
          by_cases hid : dc.myid = 0
          · right
            have hdir0 := hdir
            have hs0 := hs
            rw [hid] at hdir0 hs0
            cases hr : SaveRootFile env dc dc.num_procs (Save.fields dc.field_map n_mesh)
                dc.relay_protocol with
            | error e => exact Or.inl ⟨hid, e, rfl, by simp [Save, hdir0, hm, hv, hs0, hid, hr]⟩
            | ok root_file =>
              exact Or.inr ⟨hid, root_file, rfl, by simp [Save, hdir0, hm, hv, hs0, hid, hr]⟩
          · exact Or.inl ⟨hid, by simp [Save, hdir, hm, hv, hs, hid]⟩
  · exact Or.inl ⟨hdir, by simp [Save, hdir]⟩

/-- C18. The root document that SaveRootFile builds for N domains has
number_of_files = N and number_of_trees = N, protocol/name equal to the
domain encoding and file_pattern equal to MeshFilePattern of that encoding,
and the file it writes is RootFileName() with this document.  A Save on
process 0 that completes writes the domain file and then the root file made
by SaveRootFile for num_procs domains and the encoding of the collection; a
Save on any other process writes nothing but its domain file, and no file
named RootFileName(). -/
theorem root_file_contents (env : Environment) (dc : ConduitDataCollection) :
    (∀ (N : Int) (n_mesh : Node) (p : String) (f : SavedFile),
      SaveRootFile env dc N n_mesh p = .ok f →
        f.path = dc.RootFileName ∧
        f.node.array_at ["number_of_files"] = some [Scalar.int N] ∧
        f.node.array_at ["number_of_trees"] = some [Scalar.int N] ∧
        f.node.string_at ["protocol", "name"] = some p ∧
        f.node.string_at ["file_pattern"] = some (dc.MeshFilePattern p)) ∧
    (dc.myid = 0 → (Save env dc).failure = none →
      ∃ n_mesh root_file,
        SaveRootFile env dc dc.num_procs n_mesh dc.relay_protocol = .ok root_file ∧
        (Save env dc).files
          = [⟨dc.MeshFileName 0 dc.relay_protocol, n_mesh, none⟩, root_file]) ∧
    (dc.myid ≠ 0 →
      (Save env dc).files.length ≤ 1 ∧
      ∀ f ∈ (Save env dc).files,
        f.path = dc.MeshFileName dc.myid dc.relay_protocol ∧ f.protocol = none ∧
        f.path ≠ dc.RootFileName) := by
  refine ⟨?_, ?_, ?_⟩
  · intro N n_mesh p f h
    unfold SaveRootFile at h
    simp only at h
    split at h
    · cases h
    · cases h
      obtain ⟨h1, h2, h3, _, h5, _, _⟩ := SaveRootFile.n_root_fields env dc N n_mesh p
      exact ⟨rfl, h1, h2, h3, h5⟩
  · intro hid hok
    rcases Save_cases env dc with ⟨_, h⟩ | ⟨_, e, _, h⟩ | ⟨_, n, _, _, h⟩ | ⟨_, n, _, _, h⟩
    · rw [h] at hok; cases hok
    · rw [h] at hok; cases hok
    · rw [h] at hok; cases hok
    · rcases h with ⟨e, _, h⟩ | ⟨domain_file, hs, h⟩
      · rw [h] at hok; cases hok
      · rcases h with ⟨hne, _⟩ | ⟨_, e, _, h⟩ | ⟨_, root_file, hr, h⟩
        · exact absurd hid hne
        · rw [h] at hok; cases hok
        · refine ⟨Save.fields dc.field_map n, root_file, hr, ?_⟩
          rw [h]
          unfold SaveMeshAndFields at hs
          split at hs
          · cases hs
          · cases hs
            rw [hid]
  · intro hid
    rcases Save_cases env dc with ⟨_, h⟩ | ⟨_, e, _, h⟩ | ⟨_, n, _, _, h⟩ | ⟨_, n, _, _, h⟩
    · rw [h]; exact ⟨by simp, by simp⟩
    · rw [h]; exact ⟨by simp, by simp⟩
    · rw [h]; exact ⟨by simp, by simp⟩
    · rcases h with ⟨e, _, h⟩ | ⟨domain_file, hs, h⟩
      · rw [h]; exact ⟨by simp, by simp⟩
      · rcases h with ⟨_, h⟩ | ⟨h0, _⟩ | ⟨h0, _⟩
        · rw [h]
          refine ⟨by simp, ?_⟩
          intro f hf
          simp only [List.mem_singleton] at hf
          subst hf
          unfold SaveMeshAndFields at hs
          split at hs
          · cases hs
          · cases hs
            exact ⟨rfl, rfl, ConduitDataCollection.MeshFileName_ne_RootFileName _ _ _⟩
        · exact absurd h0 hid
        · exact absurd h0 hid

/-- C18, on the example collection (process 0 of 4, encoding hdf5) where
nothing fails: Save completes and the root file is the one of SaveRootFile. -/
theorem root_file_contents_witness :
    example_collection.myid = 0 ∧
    (Save example_environment example_collection).failure = none ∧
    ∃ n_mesh root_file,
      SaveRootFile example_environment example_collection example_collection.num_procs n_mesh
        example_collection.relay_protocol = .ok root_file ∧
      (Save example_environment example_collection).files
        = [⟨example_collection.MeshFileName 0 example_collection.relay_protocol, n_mesh, none⟩,
            root_file] :=
  ⟨by decide, by decide,
    (root_file_contents example_environment example_collection).2.1 (by decide) (by decide)⟩

/-- C19, refuted: conduit_bin is a binary encoding, and for it SaveRootFile
writes the root file as json, not as conduit_bin. -/
theorem root_of_conduit_bin_is_json :
    "conduit_bin" ∈ binary_protocols ∧
    ((SaveRootFile example_environment example_collection 4 .empty "conduit_bin").toOption.map
      SavedFile.protocol) = some (some "json") ∧
    SaveRootFile.root_proto "conduit_bin" ≠ "conduit_bin" := by
  decide

/-- C19, amended. When relay::io::save does not fail, SaveRootFile writes the
file RootFileName() with the encoding hdf5 if the domain encoding is hdf5,
and with the encoding json for every other domain encoding, binary or not. -/
theorem root_encoding_is_json_unless_hdf5 (env : Environment) (dc : ConduitDataCollection)
    (N : Int) (n_mesh : Node) (p : String) (h : env.save_fails dc.RootFileName = false) :
    ∃ f, SaveRootFile env dc N n_mesh p = .ok f ∧ f.path = dc.RootFileName ∧
      (p = "hdf5" → f.protocol = some "hdf5") ∧
      (p ≠ "hdf5" → f.protocol = some "json") := by
  refine ⟨⟨dc.RootFileName, SaveRootFile.n_root env dc N n_mesh p,
    some (SaveRootFile.root_proto p)⟩, ?_, rfl, ?_, ?_⟩
  · simp [SaveRootFile, h]
  · intro hp
    simp [SaveRootFile.root_proto, hp]
  · intro hp
    simp [SaveRootFile.root_proto, hp]

/-- C19 amended, on the example collection with the encoding conduit_json. -/
theorem root_encoding_is_json_unless_hdf5_witness :
    example_environment.save_fails example_collection.RootFileName = false ∧
    ∃ f, SaveRootFile example_environment example_collection 4 .empty "conduit_json" = .ok f ∧
      f.path = example_collection.RootFileName ∧
      ("conduit_json" = "hdf5" → f.protocol = some "hdf5") ∧
      ("conduit_json" ≠ "hdf5" → f.protocol = some "json") :=
  ⟨rfl, root_encoding_is_json_unless_hdf5 example_environment example_collection 4 .empty
    "conduit_json" rfl⟩

/-- C20. In Save, if create_directory returns an error the Save aborts with
"Error creating directory" and writes no file; if the directory was made and
the document of MeshToBlueprintMesh does not pass blueprint::mesh::verify the
Save aborts with "Conduit Mesh Blueprint Verify Failed" and writes no file;
and whenever Save wrote a file, the directory was made and the mesh document
passed verification. -/
theorem save_aborts_without_files (env : Environment) (dc : ConduitDataCollection) :
    (env.create_directory dc.MeshDirectoryName dc.mesh dc.myid ≠ 0 →
      (Save env dc).files = [] ∧
      (Save env dc).failure
        = some (.abort ("Error creating directory: " ++ dc.MeshDirectoryName))) ∧
    (∀ n_mesh, env.create_directory dc.MeshDirectoryName dc.mesh dc.myid = 0 →
      MeshToBlueprintMesh env.MFEM_DEBUG dc.mesh .empty = .ok n_mesh →
      env.verify n_mesh = false →
      (Save env dc).files = [] ∧
      (Save env dc).failure = some (.abort "Conduit Mesh Blueprint Verify Failed")) ∧
    ((Save env dc).files ≠ [] →
      env.create_directory dc.MeshDirectoryName dc.mesh dc.myid = 0 ∧
      ∃ n_mesh, MeshToBlueprintMesh env.MFEM_DEBUG dc.mesh .empty = .ok n_mesh ∧
        env.verify n_mesh = true) := by
  refine ⟨?_, ?_, ?_⟩
  · intro hdir
    simp [Save, hdir]
  · intro n_mesh hdir hm hv
    simp [Save, hdir, hm, hv]
  · intro hne
    rcases Save_cases env dc with ⟨_, h⟩ | ⟨_, e, _, h⟩ | ⟨_, n, _, _, h⟩ | ⟨hdir, n, hm, hv, _⟩
    · rw [h] at hne; exact absurd rfl hne
    · rw [h] at hne; exact absurd rfl hne
    · rw [h] at hne; exact absurd rfl hne
    · exact ⟨hdir, n, hm, hv⟩

/-- C20, on the example collection: once with a create_directory that fails,
once with a verification that rejects the mesh document. -/
theorem save_aborts_without_files_witness :
    ((fun (_ : String) (_ : Mesh) (_ : Int) => (1 : Int)) example_collection.MeshDirectoryName
        example_collection.mesh example_collection.myid ≠ 0 ∧
      (Save { example_environment with create_directory := fun _ _ _ => 1 }
        example_collection).files = [] ∧
      (Save { example_environment with create_directory := fun _ _ _ => 1 }
        example_collection).failure
        = some (.abort ("Error creating directory: " ++ example_collection.MeshDirectoryName))) ∧
    ((MeshToBlueprintMesh true one_triangle .empty).toOption.isSome = true ∧
      ∀ n_mesh, MeshToBlueprintMesh true one_triangle .empty = .ok n_mesh →
        (Save { example_environment with verify := fun _ => false } example_collection).files = []
        ∧ (Save { example_environment with verify := fun _ => false } example_collection).failure
          = some (.abort "Conduit Mesh Blueprint Verify Failed")) :=
  ⟨⟨by decide,
    (save_aborts_without_files { example_environment with create_directory := fun _ _ _ => 1 }
      example_collection).1 (by decide)⟩,
   ⟨by decide, fun n_mesh hm =>
    (save_aborts_without_files { example_environment with verify := fun _ => false }
      example_collection).2.1 n_mesh rfl hm rfl⟩⟩

/-! ### Aliasing in field import -/

theorem Except.bind_eq_ok {α β : Type} (x : Except Error α) (f : α → Except Error β) (b : β)
    (h : x >>= f = .ok b) : ∃ a, x = .ok a ∧ f a = .ok b := by
  cases x with
  | error e => cases h
  | ok a => exact ⟨a, rfl, h⟩

theorem Node.as_double_ptr_ok (n : Node) (p : Ptr) (h : n.as_double_ptr = .ok p) :
    n.element_ptr0 = some p ∧ p.buf.region ∈ n.regions := by
  cases n with
  | leaf dt q =>
    simp only [Node.as_double_ptr] at h
    split at h
    · cases h
      exact ⟨rfl, by simp [Node.regions, Ptr.add]⟩
    · cases h
  | empty => cases h
  | str s => cases h
  | object cs => cases h

theorem Node.child_zero_ok (n c : Node) (h : n.child 0 = .ok c) :
    ∃ name, n.children.head? = some (name, c) := by
  unfold Node.child at h
  cases hc : n.children with
  | nil => simp [hc] at h
  | cons x xs =>
    simp only [hc, List.getElem?_cons_zero] at h
    cases h
    exact ⟨x.1, rfl⟩

theorem BlueprintFieldToGridFunction.values_cases (n_field n_values : Node)
    (hv : n_field.fetch? ["values"] = some n_values) (vdim : Nat) (ordering : Ordering)
    (vals_ptr : Ptr) (n_conv : Node)
    (h : BlueprintFieldToGridFunction.values n_field = .ok (vdim, ordering, vals_ptr, n_conv)) :
    (BlueprintFieldToGridFunction.no_conversion_needed n_values = true ∧ n_conv = .empty ∧
      BlueprintFieldToGridFunction.document_ptr n_values = some vals_ptr) ∨
    (BlueprintFieldToGridFunction.no_conversion_needed n_values = false ∧
      n_conv.dtype.is_empty = false) := by
  unfold BlueprintFieldToGridFunction.values at h
  simp only [Node.fetch_const, hv] at h
  have h := h
  by_cases hobj : n_values.dtype.is_object = true
  · by_cases hc : n_values.is_contiguous = true
    · left
      simp only [hobj, hc, if_true, bind, Except.bind, pure, Except.pure] at h
      cases hch : n_values.child 0 with
      | error e => simp [hch] at h
      | ok c =>
        simp only [hch] at h
        cases hp : c.as_double_ptr with
        | error e => simp [hp] at h
        | ok p =>
          simp only [hp, Except.ok.injEq, Prod.mk.injEq] at h
          obtain ⟨_, _, h3, h4⟩ := h
          obtain ⟨name, hhead⟩ := Node.child_zero_ok _ _ hch
          refine ⟨by simp [BlueprintFieldToGridFunction.no_conversion_needed, hobj, hc],
            h4.symm, ?_⟩
          simp [BlueprintFieldToGridFunction.document_ptr, hobj, hhead,
            (Node.as_double_ptr_ok _ _ hp).1, h3]
    · by_cases hi : mcarray.is_interleaved n_values = true
      · left
        simp only [hobj, hc, hi, if_true, bind, Except.bind, pure, Except.pure] at h
        cases hch : n_values.child 0 with
        | error e => simp [hch] at h
        | ok c =>
          simp only [hch] at h
          cases hp : c.as_double_ptr with
          | error e => simp [hp] at h
          | ok p =>
            simp only [hp] at h
            simp only [Bool.false_eq_true, if_false, Except.ok.injEq, Prod.mk.injEq] at h
            obtain ⟨_, _, h3, h4⟩ := h
            obtain ⟨name, hhead⟩ := Node.child_zero_ok _ _ hch
            refine ⟨by simp [BlueprintFieldToGridFunction.no_conversion_needed, hobj, hi],
              h4.symm, ?_⟩
            simp [BlueprintFieldToGridFunction.document_ptr, hobj, hhead,
              (Node.as_double_ptr_ok _ _ hp).1, h3]
      · right
        simp only [hobj, hc, hi, if_true, bind, Except.bind, pure, Except.pure] at h
        refine ⟨by simp [BlueprintFieldToGridFunction.no_conversion_needed, hobj, hc, hi], ?_⟩
        simp only [Bool.false_eq_true, if_false] at h
        cases ht : mcarray.to_contiguous n_values "n_conv/values" with
        | error e => simp [ht] at h
        | ok v =>
          simp only [ht, Node.fetch_set_same] at h
          cases hch : v.child 0 with
          | error e => simp [hch] at h
          | ok c =>
            simp only [hch] at h
            cases hp : c.as_double_ptr with
            | error e => simp [hp] at h
            | ok p =>
              simp only [hp, Except.ok.injEq, Prod.mk.injEq] at h
              obtain ⟨_, _, _, h4⟩ := h
              rw [← h4]
              rfl
  · by_cases hd : (n_values.dtype.is_double && n_values.is_compact) = true
    · left
      simp only [hobj, hd, if_true, bind, Except.bind, pure, Except.pure] at h
      simp only [Bool.false_eq_true, if_false] at h
      cases hp : n_values.as_double_ptr with
      | error e => simp [hp] at h
      | ok p =>
        simp only [hp, Except.ok.injEq, Prod.mk.injEq] at h
        obtain ⟨_, _, h3, h4⟩ := h
        refine ⟨by simp [BlueprintFieldToGridFunction.no_conversion_needed, hobj, hd],
          h4.symm, ?_⟩
        simp [BlueprintFieldToGridFunction.document_ptr, hobj,
          (Node.as_double_ptr_ok _ _ hp).1, h3]
    · right
      simp only [hobj, hd, if_true, bind, Except.bind, pure, Except.pure] at h
      refine ⟨by simp [BlueprintFieldToGridFunction.no_conversion_needed, hobj, hd], ?_⟩
      simp only [Bool.false_eq_true, if_false] at h
      cases ht : n_values.to_double_array "n_conv/values" with
      | error e => simp [ht] at h
      | ok v =>
        simp only [ht, Node.fetch_set_same] at h
        cases hp : v.as_double_ptr with
        | error e => simp [hp] at h
        | ok p =>
          simp only [hp, Except.ok.injEq, Prod.mk.injEq] at h
          obtain ⟨_, _, _, h4⟩ := h
          rw [← h4]
          rfl

theorem Node.element_ptr0_region (n : Node) (p : Ptr) (h : n.element_ptr0 = some p) :
    p.buf.region ∈ n.regions := by
  cases n with
  | leaf dt q =>
    simp only [Node.element_ptr0, Option.some.injEq] at h
    subst h
    simp [Node.regions, Ptr.add]
  | empty => cases h
  | str s => cases h
  | object cs => cases h

theorem BlueprintFieldToGridFunction.document_ptr_region (n_values : Node) (p : Ptr)
    (h : BlueprintFieldToGridFunction.document_ptr n_values = some p) :
    p.buf.region ∈ n_values.regions := by
  unfold BlueprintFieldToGridFunction.document_ptr at h
  split at h
  · cases n_values with
    | object cs =>
      cases cs with
      | nil => simp [Node.children] at h
      | cons c rest =>
        simp only [Node.children, List.head?_cons, Option.bind] at h
        obtain ⟨name, ch⟩ := c
        have := Node.element_ptr0_region ch p h
        simp only [Node.regions, Node.regions_children, List.mem_append]
        exact Or.inl this
    | leaf dt q => simp [Node.children] at h
    | empty => simp [Node.children] at h
    | str s => simp [Node.children] at h
  · exact Node.element_ptr0_region _ _ h

theorem NewDataAndSize_region (fes : FiniteElementSpace) (vals_ptr : Ptr) (size : Nat)
    (res : GridFunction) (h : NewDataAndSize fes vals_ptr size = .ok res) :
    res.data.buf.region = .node "GridFunction" := by
  unfold NewDataAndSize at h
  split at h
  · cases h
    rfl
  · cases h

/-- What BlueprintFieldToGridFunction returns, by whether the copy was asked
for or forced. -/
theorem BlueprintFieldToGridFunction.result_cases (GetNDofs : String → Option Nat)
    (n_field n_values : Node) (zero_copy : Bool) (res : GridFunction)
    (hv : n_field.fetch? ["values"] = some n_values)
    (h : BlueprintFieldToGridFunction GetNDofs n_field zero_copy = .ok res) :
    (zero_copy = true ∧ BlueprintFieldToGridFunction.no_conversion_needed n_values = true ∧
      BlueprintFieldToGridFunction.document_ptr n_values = some res.data) ∨
    (¬(zero_copy = true ∧ BlueprintFieldToGridFunction.no_conversion_needed n_values = true) ∧
      res.data.buf.region = .node "GridFunction") := by
  unfold BlueprintFieldToGridFunction at h
  cases hvals : BlueprintFieldToGridFunction.values n_field with
  | error e => simp [hvals, bind, Except.bind] at h
  | ok t =>
    obtain ⟨vdim, ordering, vals_ptr, n_conv⟩ := t
    simp only [hvals, bind, Except.bind] at h
    cases hb : n_field.fetch_const ["basis"] with
    | error e => simp [hb] at h
    | ok b =>
      simp only [hb] at h
      cases hs : b.as_string with
      | error e => simp [hs] at h
      | ok fec_name =>
        simp only [hs] at h
        cases hg : GetNDofs fec_name with
        | none => simp [hg] at h
        | some ndofs =>
          simp only [hg] at h
          rcases BlueprintFieldToGridFunction.values_cases n_field n_values hv _ _ _ _ hvals with
            ⟨hno, hconv, hptr⟩ | ⟨hno, hconv⟩
          · subst hconv
            cases zero_copy with
            | true =>
              left
              have hz : (if (true && !Node.empty.dtype.is_empty) = true then false else true)
                  = true := by decide
              simp only [hz, if_true, pure, Except.pure, Except.ok.injEq] at h
              subst h
              exact ⟨rfl, hno, hptr⟩
            | false =>
              right
              have hz : (if (false && !Node.empty.dtype.is_empty) = true then false else false)
                  = false := by decide
              simp only [hz, Bool.false_eq_true, if_false] at h
              exact ⟨by simp, NewDataAndSize_region _ _ _ _ h⟩
          · right
            have hz : (if (zero_copy && !n_conv.dtype.is_empty) = true then false else zero_copy)
                = false := by
              rw [hconv]
              cases zero_copy <;> rfl
            simp only [hz, Bool.false_eq_true, if_false] at h
            exact ⟨by simp [hno], NewDataAndSize_region _ _ _ _ h⟩

/-- C12. For a field document with a values node, none of whose arrays lies
in the storage that a new GridFunction allocates: when
BlueprintFieldToGridFunction returns a field, the data of that field is the
start of the value buffer of the document exactly when zero_copy was
requested and no conversion was needed (values is a contiguous or interleaved
composite, or a compact flat array of doubles); in every other case the data
lies in the new storage of the GridFunction, which is no block of the
document and not the block of the conversion node n_conv. -/
theorem field_import_aliasing (GetNDofs : String → Option Nat) (n_field n_values : Node)
    (zero_copy : Bool) (res : GridFunction)
    (hv : n_field.fetch? ["values"] = some n_values)
    (hfresh : Region.node "GridFunction" ∉ n_values.regions)
    (h : BlueprintFieldToGridFunction GetNDofs n_field zero_copy = .ok res) :
    (BlueprintFieldToGridFunction.document_ptr n_values = some res.data ↔
      (zero_copy = true ∧ BlueprintFieldToGridFunction.no_conversion_needed n_values = true)) ∧
    (¬(zero_copy = true ∧ BlueprintFieldToGridFunction.no_conversion_needed n_values = true) →
      res.data.buf.region = .node "GridFunction" ∧
      res.data.buf.region ∉ n_values.regions ∧
      res.data.buf.region ≠ .node "n_conv/values") := by
  rcases BlueprintFieldToGridFunction.result_cases GetNDofs n_field n_values zero_copy res hv h
    with ⟨hz, hno, hptr⟩ | ⟨hnot, hreg⟩
  · exact ⟨⟨fun _ => ⟨hz, hno⟩, fun _ => hptr⟩, fun hnot => absurd ⟨hz, hno⟩ hnot⟩
  · refine ⟨⟨fun hptr => ?_, fun hboth => absurd hboth hnot⟩, fun _ => ⟨hreg, ?_, ?_⟩⟩
    · have := BlueprintFieldToGridFunction.document_ptr_region n_values res.data hptr
      rw [hreg] at this
      exact absurd this hfresh
    · rw [hreg]
      exact hfresh
    · rw [hreg]
      decide

/-- C12, on the document that GridFunctionToBlueprintField writes for the
example field (an interleaved composite) with zero copy requested: the
imported field starts at the buffer of the document. -/
theorem field_import_aliasing_witness :
    (GridFunctionToBlueprintField example_field .empty).fetch? ["values"]
      = some (((GridFunctionToBlueprintField example_field .empty).fetch? ["values"]).getD
          .empty) ∧
    Region.node "GridFunction"
      ∉ (((GridFunctionToBlueprintField example_field .empty).fetch? ["values"]).getD
          .empty).regions ∧
    BlueprintFieldToGridFunction (fun _ => some 3)
        (GridFunctionToBlueprintField example_field .empty) true
      = .ok ⟨example_field.fes, example_field.data⟩ ∧
    BlueprintFieldToGridFunction.document_ptr
        (((GridFunctionToBlueprintField example_field .empty).fetch? ["values"]).getD .empty)
      = some example_field.data :=
  ⟨rfl, by decide, by decide,
    ((field_import_aliasing (fun _ => some 3)
      (GridFunctionToBlueprintField example_field .empty)
      (((GridFunctionToBlueprintField example_field .empty).fetch? ["values"]).getD .empty)
      true ⟨example_field.fes, example_field.data⟩ rfl (by decide) (by decide)).1).2
      ⟨rfl, by decide⟩⟩

/-! ### Conversions in mesh import -/

theorem Node.set_cons_not_empty (n : Node) (c : String) (rest : List String) (v : Node) :
    (n.set (c :: rest) v).dtype.is_empty = false := by
  simp [Node.set, Node.dtype, DataType.is_empty]

theorem Node.fetch_const_ok (n : Node) (path : List String) (r : Node)
    (h : n.fetch_const path = .ok r) : n.fetch? path = some r := by
  unfold Node.fetch_const at h
  split at h
  · cases h
    assumption
  · cases h

theorem Node.fetch_append (n : Node) (p q : List String) :
    n.fetch? (p ++ q) = (n.fetch? p).bind (fun a => a.fetch? q) := by
  induction p generalizing n with
  | nil => rfl
  | cons c rest ih =>
    simp only [List.cons_append, Node.fetch?]
    cases n.child? c with
    | none => rfl
    | some ch => exact ih ch

theorem BlueprintMeshToMesh.main_topology_conv (MFEM_DEBUG : Bool) (n_mesh n_conv : Node)
    (mesh_geo : GeometryType) (elem_indices : Option Ptr) (num_mesh_ele : Nat) (n_conv1 : Node)
    (h : BlueprintMeshToMesh.main_topology MFEM_DEBUG n_mesh n_conv
      = .ok (mesh_geo, elem_indices, num_mesh_ele, n_conv1)) :
    (BlueprintMeshToMesh.not_compact_int
        (n_mesh.fetch? ["topologies", "main", "elements", "connectivity"]) = false ∧
      n_conv1 = n_conv) ∨
    (BlueprintMeshToMesh.not_compact_int
        (n_mesh.fetch? ["topologies", "main", "elements", "connectivity"]) = true ∧
      n_conv1.dtype.is_empty = false) := by
  unfold BlueprintMeshToMesh.main_topology at h
  simp only [bind, Except.bind, pure, Except.pure] at h
  split at h
  · cases h
  · split at h
    · cases h
    · next topo htopo =>
      split at h
      · cases h
      · split at h
        · cases h
        · split at h
          · cases h
          · split at h
            · cases h
            · next conn hconn =>
              have hfetch : n_mesh.fetch? ["topologies", "main", "elements", "connectivity"]
                  = some conn := by
                have := Node.fetch_append n_mesh ["topologies", "main"]
                  ["elements", "connectivity"]
                rw [Node.fetch_const_ok _ _ _ htopo] at this
                simpa [Node.fetch_const_ok _ _ _ hconn] using this
              split at h
              · next hci =>
                left
                split at h
                · cases h
                · split at h
                  · cases h
                  · split at h
                    · cases h
                    · simp only [Except.ok.injEq, Prod.mk.injEq] at h
                      exact ⟨by simp [BlueprintMeshToMesh.not_compact_int, hfetch, hci],
                        h.2.2.2.symm⟩
              · next hci =>
                right
                split at h
                · cases h
                · split at h
                  · cases h
                  · split at h
                    · cases h
                    · simp only [Except.ok.injEq, Prod.mk.injEq] at h
                      have hf : (conn.dtype.is_int && conn.is_compact) = false :=
                        Bool.eq_false_iff.mpr hci
                      refine ⟨by simp only [BlueprintMeshToMesh.not_compact_int, hfetch, hf,
                        Bool.not_false], ?_⟩
                      rw [← h.2.2.2]
                      exact Node.set_cons_not_empty _ _ _ _

theorem BlueprintMeshToMesh.boundary_topology_conv (n_mesh : Node) (mesh_geo : GeometryType)
    (n_conv : Node) (bndry_indices : Option Ptr) (bndry_geo : GeometryType)
    (num_bndry_ele : Nat) (n_conv1 : Node)
    (h : BlueprintMeshToMesh.boundary_topology n_mesh mesh_geo n_conv
      = .ok (bndry_indices, bndry_geo, num_bndry_ele, n_conv1)) :
    ((n_mesh.has_path ["topologies", "boundary"] && BlueprintMeshToMesh.not_compact_int
        (n_mesh.fetch? ["topologies", "boundary", "elements", "connectivity"])) = false ∧
      n_conv1 = n_conv) ∨
    ((n_mesh.has_path ["topologies", "boundary"] && BlueprintMeshToMesh.not_compact_int
        (n_mesh.fetch? ["topologies", "boundary", "elements", "connectivity"])) = true ∧
      n_conv1.dtype.is_empty = false) := by
  unfold BlueprintMeshToMesh.boundary_topology at h
  simp only [bind, Except.bind, pure, Except.pure] at h
  cases hB : n_mesh.has_path ["topologies", "boundary"] with
  | false =>
    simp only [hB, Bool.false_eq_true, if_false] at h
    cases h
    exact Or.inl ⟨rfl, rfl⟩
  | true =>
    simp only [hB, if_true] at h
    split at h
    · cases h
    · next topo htopo =>
      split at h
      · cases h
      · split at h
        · cases h
        · split at h
          · cases h
          · split at h
            · cases h
            · next conn hconn =>
              have hfetch : n_mesh.fetch? ["topologies", "boundary", "elements", "connectivity"]
                  = some conn := by
                have := Node.fetch_append n_mesh ["topologies", "boundary"]
                  ["elements", "connectivity"]
                rw [Node.fetch_const_ok _ _ _ htopo] at this
                simpa [Node.fetch_const_ok _ _ _ hconn] using this
              cases hci : (conn.dtype.is_int && conn.is_compact) <;>
                simp only [hci, Bool.false_eq_true, if_false, if_true] at h <;>
                (repeat' split at h) <;> cases h <;>
                simp [BlueprintMeshToMesh.not_compact_int, hfetch, hci, Node.set_cons_not_empty]

theorem BlueprintMeshToMesh.attributes_conv (n_mesh n_conv : Node)
    (mesh_atts bndry_atts : Option Ptr) (n_conv1 : Node)
    (h : BlueprintMeshToMesh.attributes n_mesh n_conv = .ok (mesh_atts, bndry_atts, n_conv1)) :
    (((n_mesh.has_child "fields/main_attribute" && BlueprintMeshToMesh.not_compact_int
          (n_mesh.fetch? ["fields", "mesh_attribute", "values"])) ||
        (n_mesh.has_child "fields/boundary_attribute" && BlueprintMeshToMesh.not_compact_int
          (n_mesh.fetch? ["fields", "boundary_attribute", "values"]))) = false ∧
      n_conv1 = n_conv) ∨
    (((n_mesh.has_child "fields/main_attribute" && BlueprintMeshToMesh.not_compact_int
          (n_mesh.fetch? ["fields", "mesh_attribute", "values"])) ||
        (n_mesh.has_child "fields/boundary_attribute" && BlueprintMeshToMesh.not_compact_int
          (n_mesh.fetch? ["fields", "boundary_attribute", "values"]))) = true ∧
      n_conv1.dtype.is_empty = false) := by
  unfold BlueprintMeshToMesh.attributes at h
  simp only [bind, Except.bind, pure, Except.pure, Node.fetch_const] at h
  cases hA : n_mesh.has_child "fields/main_attribute" <;>
    cases hB : n_mesh.has_child "fields/boundary_attribute" <;>
    simp only [hA, hB, Bool.false_eq_true, if_false, if_true] at h
  · cases h
    exact Or.inl ⟨rfl, rfl⟩
  · cases hfb : n_mesh.fetch? ["fields", "boundary_attribute", "values"] with
    | none => simp [hfb] at h
    | some b =>
      simp only [hfb] at h
      cases hcb : (b.dtype.is_int && b.is_compact) <;>
        simp only [hcb, Bool.false_eq_true, if_false, if_true] at h <;>
        (repeat' split at h) <;> cases h <;>
        simp [BlueprintMeshToMesh.not_compact_int, hfb, hcb, Node.set_cons_not_empty]
  · cases hfa : n_mesh.fetch? ["fields", "mesh_attribute", "values"] with
    | none => simp [hfa] at h
    | some a =>
      simp only [hfa] at h
      cases hca : (a.dtype.is_int && a.is_compact) <;>
        simp only [hca, Bool.false_eq_true, if_false, if_true] at h <;>
        (repeat' split at h) <;> cases h <;>
        simp [BlueprintMeshToMesh.not_compact_int, hfa, hca, Node.set_cons_not_empty]
  · cases hfa : n_mesh.fetch? ["fields", "mesh_attribute", "values"] with
    | none => simp [hfa] at h
    | some a =>
      cases hfb : n_mesh.fetch? ["fields", "boundary_attribute", "values"] with
      | none =>
        simp only [hfa, hfb] at h
        (repeat' split at h) <;> cases h
      | some b =>
        simp only [hfa, hfb] at h
        cases hca : (a.dtype.is_int && a.is_compact) <;>
          cases hcb : (b.dtype.is_int && b.is_compact) <;>
          simp only [hca, hcb, Bool.false_eq_true, if_false, if_true] at h <;>
          (repeat' split at h) <;> cases h <;>
          simp [BlueprintMeshToMesh.not_compact_int, hfa, hfb, hca, hcb,
            Node.set_cons_not_empty]

theorem BlueprintMeshToMesh.arguments_conv (MFEM_DEBUG : Bool) (n_mesh : Node) (args : MeshArgs)
    (n_conv : Node) (h : BlueprintMeshToMesh.arguments MFEM_DEBUG n_mesh = .ok (args, n_conv)) :
    n_conv.dtype.is_empty = !BlueprintMeshToMesh.conversion_occurs n_mesh := by
  unfold BlueprintMeshToMesh.arguments at h
  simp only [bind, Except.bind, pure, Except.pure] at h
  split at h
  · cases h
  · split at h
    · cases h
    · next hmain =>
      split at h
      · cases h
      · next hbndry =>
        split at h
        · cases h
        · next hatts =>
          simp only [Except.ok.injEq, Prod.mk.injEq] at h
          obtain ⟨_, hconv⟩ := h
          subst hconv
          have h1 := BlueprintMeshToMesh.main_topology_conv _ _ _ _ _ _ _ hmain
          have h2 := BlueprintMeshToMesh.boundary_topology_conv _ _ _ _ _ _ _ hbndry
          have h3 := BlueprintMeshToMesh.attributes_conv _ _ _ _ _ hatts
          unfold BlueprintMeshToMesh.conversion_occurs
          rcases h3 with ⟨ha, hc3⟩ | ⟨ha, hc3⟩
          · rw [Bool.or_assoc, ha, Bool.or_false, hc3]
            rcases h2 with ⟨hb, hc2⟩ | ⟨hb, hc2⟩
            · rw [hb, Bool.or_false, hc2]
              rcases h1 with ⟨hm, hc1⟩ | ⟨hm, hc1⟩
              · rw [hm, hc1]
                rfl
              · rw [hm, hc1]
                rfl
            · rw [hb, Bool.or_true, hc2]
              rfl
          · rw [Bool.or_assoc, ha, Bool.or_true, hc3]
            rfl

/-- What the code does about conversions.  When BlueprintMeshToMesh returns a
mesh: the node n_conv of converted data is non-empty exactly when the code
performed a conversion (conversion_occurs, which counts an attribute array
only under the guard of the source on it); the result is the deep copy
exactly when zero_copy is false or a conversion was performed; the mesh
without the copy is returned exactly when zero_copy = true and no conversion
was performed; and with zero_copy = false the result is always the deep
copy. -/
theorem mesh_import_copies_after_conversion (MFEM_DEBUG field_zero_copy : Bool)
    (GetNDofs : MeshArgs → String → Option Nat) (n_mesh : Node) (zero_copy : Bool)
    (res : ImportedMesh)
    (h : (BlueprintMeshToMesh MFEM_DEBUG field_zero_copy GetNDofs n_mesh zero_copy).result
      = .ok res) :
    (∃ n_conv, BlueprintMeshToMesh.arguments MFEM_DEBUG n_mesh = .ok (res.args, n_conv) ∧
      (n_conv.dtype.is_empty = false ↔ BlueprintMeshToMesh.conversion_occurs n_mesh = true)) ∧
    (BlueprintMeshToMesh.conversion_occurs n_mesh = true → res.deep_copy = true) ∧
    (res.deep_copy = false ↔
      (zero_copy = true ∧ BlueprintMeshToMesh.conversion_occurs n_mesh = false)) ∧
    (zero_copy = false → res.deep_copy = true) := by
  unfold BlueprintMeshToMesh at h
  split at h
  · cases h
  · next args n_conv hargs =>
    have hconv := BlueprintMeshToMesh.arguments_conv _ _ _ _ hargs
    split at h
    · cases h
    · split at h
      · cases h
      · next nodes hnodes =>
        rw [hconv] at h
        cases zero_copy <;> cases hco : BlueprintMeshToMesh.conversion_occurs n_mesh <;>
          simp only [hco, Bool.not_true, Bool.not_false, Bool.and_true, Bool.and_false,
            Bool.false_and, Bool.true_and, Bool.false_eq_true, if_false, if_true,
            Except.ok.injEq] at h <;>
          subst h <;>
          exact ⟨⟨n_conv, hargs, by simp [hconv, hco]⟩, by simp, by simp, by simp⟩

/-- The conversions performed on the document of the mesh of one triangle,
whose connectivity is a compact array of native int, and on the same document
with the connectivity stored as 64-bit integers, both read with
zero_copy = true: the first call returns the mesh without the copy, the
second the deep copy. -/
theorem mesh_import_copies_after_conversion_witness :
    (BlueprintMeshToMesh true true (fun _ _ => some 3) example_mesh_document
      true).result.toOption.isSome = true ∧
    (BlueprintMeshToMesh true true (fun _ _ => some 3) example_mesh_document_int64
      true).result.toOption.isSome = true ∧
    (∀ res, (BlueprintMeshToMesh true true (fun _ _ => some 3) example_mesh_document
        true).result = .ok res → res.deep_copy = false) ∧
    (∀ res, (BlueprintMeshToMesh true true (fun _ _ => some 3) example_mesh_document_int64
        true).result = .ok res → res.deep_copy = true) :=
  ⟨by decide, by decide,
    fun res h => (mesh_import_copies_after_conversion true true (fun _ _ => some 3)
      example_mesh_document true res h).2.2.1.mpr ⟨rfl, by decide⟩,
    fun res h => (mesh_import_copies_after_conversion true true (fun _ _ => some 3)
      example_mesh_document_int64 true res h).2.1 (by decide)⟩
/-! ### The component views as a partition of the value buffer -/

theorem index_block_lt (v n d i : Nat) (hd : d < v) (hi : i < n) : d * n + i < v * n := by
  calc d * n + i < d * n + n := by omega
    _ = (d + 1) * n := by ring
    _ ≤ v * n := Nat.mul_le_mul_right n hd

theorem index_block_injective (n d1 i1 d2 i2 : Nat) (h1 : i1 < n) (h2 : i2 < n)
    (h : d1 * n + i1 = d2 * n + i2) : d1 = d2 ∧ i1 = i2 := by
  have hn : 0 < n := by omega
  have hdiv : ∀ d i, i < n → (d * n + i) / n = d := by
    intro d i hi
    rw [Nat.add_comm, Nat.add_mul_div_right _ _ hn, Nat.div_eq_of_lt hi, Nat.zero_add]
  have hd : d1 = d2 := by
    have := congrArg (· / n) h
    simpa [hdiv _ _ h1, hdiv _ _ h2] using this
  subst hd
  exact ⟨rfl, by omega⟩

theorem index_block_surjective (v n k : Nat) (hk : k < v * n) :
    ∃ d i, d < v ∧ i < n ∧ d * n + i = k := by
  have hn : 0 < n := by
    rcases Nat.eq_zero_or_pos n with h | h
    · rw [h] at hk; simp at hk
    · exact h
  refine ⟨k / n, k % n, ?_, Nat.mod_lt _ hn, ?_⟩
  · exact Nat.div_lt_of_lt_mul (by rw [Nat.mul_comm]; exact hk)
  · rw [Nat.mul_comm]; exact Nat.div_add_mod k n

theorem GridFunctionToBlueprintField.component_view (gf : GridFunction)
    (hv : 2 ≤ gf.fes.vdim) (d : Nat) (hd : d < gf.fes.vdim) :
    (GridFunctionToBlueprintField gf .empty).view_at ["values", comp_name d]
      = some (DataType.float64 gf.fes.ndofs
          (0 + d * (8 * (if gf.fes.ordering = .byNODES then gf.fes.ndofs else 1)))
          (8 * (if gf.fes.ordering = .byNODES then 1 else gf.fes.vdim)), gf.data) := by
  obtain ⟨k, hk⟩ : ∃ k, gf.fes.vdim = k + 2 := ⟨gf.fes.vdim - 2, by omega⟩
  have hval := GridFunctionToBlueprintField.values_vector gf k hk
  have hlook := GridFunctionToBlueprintField.components_lookup gf.data gf.fes.ndofs
    (8 * (if gf.fes.ordering = .byNODES then 1 else gf.fes.vdim))
    (if gf.fes.ordering = .byNODES then gf.fes.ndofs else 1) gf.fes.vdim 0 0 d hd
  rw [Nat.zero_add] at hlook
  unfold Node.view_at
  rw [Node.fetch_two, hval]
  simp only [Option.bind, Node.child?, Node.children, hlook, Node.set_external]

/-- C24. For a field with vdim ≥ 2, of either ordering: the entries of the
vdim component views that GridFunctionToBlueprintField writes address whole
elements of the value buffer, entry i of component d the element index d i;
every such index lies in [0, vdim*ndofs); two entries, of the same or of
different components, never address the same element; and every element in
[0, vdim*ndofs) is addressed by an entry.  So the views cover the buffer
exactly once. -/
theorem component_views_partition (gf : GridFunction) (hv : 2 ≤ gf.fes.vdim) :
    ∃ index : Nat → Nat → Nat,
      (∀ d, d < gf.fes.vdim →
        ∃ dt, (GridFunctionToBlueprintField gf .empty).view_at ["values", comp_name d]
            = some (dt, gf.data) ∧
          dt.num_ele = gf.fes.ndofs ∧
          ∀ i, dt.element_index i = sizeof_double * index d i) ∧
      (∀ d i, d < gf.fes.vdim → i < gf.fes.ndofs →
        index d i < gf.fes.vdim * gf.fes.ndofs) ∧
      (∀ d1 i1 d2 i2, d1 < gf.fes.vdim → i1 < gf.fes.ndofs → d2 < gf.fes.vdim →
        i2 < gf.fes.ndofs → index d1 i1 = index d2 i2 → d1 = d2 ∧ i1 = i2) ∧
      (∀ k, k < gf.fes.vdim * gf.fes.ndofs →
        ∃ d i, d < gf.fes.vdim ∧ i < gf.fes.ndofs ∧ index d i = k) := by
  cases ho : gf.fes.ordering with
  | byNODES =>
    refine ⟨fun d i => d * gf.fes.ndofs + i, ?_, ?_, ?_, ?_⟩
    · intro d hd
      refine ⟨_, GridFunctionToBlueprintField.component_view gf hv d hd, rfl, ?_⟩
      intro i
      simp only [ho, if_true, DataType.element_index, DataType.float64, sizeof_double]
      ring
    · intro d i hd hi
      exact index_block_lt _ _ _ _ hd hi
    · intro d1 i1 d2 i2 _ h1 _ h2 h
      exact index_block_injective _ _ _ _ _ h1 h2 h
    · intro k hk
      exact index_block_surjective _ _ k hk
  | byVDIM =>
    refine ⟨fun d i => d + i * gf.fes.vdim, ?_, ?_, ?_, ?_⟩
    · intro d hd
      refine ⟨_, GridFunctionToBlueprintField.component_view gf hv d hd, rfl, ?_⟩
      intro i
      simp only [ho, if_false, reduceCtorEq, DataType.element_index, DataType.float64,
        sizeof_double]
      ring
    · intro d i hd hi
      have := index_block_lt _ _ _ _ hi hd
      show d + i * gf.fes.vdim < gf.fes.vdim * gf.fes.ndofs
      rw [Nat.mul_comm gf.fes.vdim]
      omega
    · intro d1 i1 d2 i2 h1 _ h2 _ h
      have h' : d1 + i1 * gf.fes.vdim = d2 + i2 * gf.fes.vdim := h
      have := index_block_injective gf.fes.vdim i1 d1 i2 d2 h1 h2 (by omega)
      exact ⟨this.2, this.1⟩
    · intro k hk
      obtain ⟨i, d, hi, hd, hkd⟩ := index_block_surjective gf.fes.ndofs gf.fes.vdim k
        (by rw [Nat.mul_comm]; exact hk)
      exact ⟨d, i, hd, hi, by show d + i * gf.fes.vdim = k; omega⟩

/-- C24, on the example field (two components on three dofs, byVDIM): the
two views address the six elements of the buffer, each once. -/
theorem component_views_partition_witness :
    2 ≤ example_field.fes.vdim ∧
    ∃ index : Nat → Nat → Nat,
      (∀ d, d < 2 →
        ∃ dt, (GridFunctionToBlueprintField example_field .empty).view_at
            ["values", comp_name d] = some (dt, example_field.data) ∧
          dt.num_ele = 3 ∧ ∀ i, dt.element_index i = sizeof_double * index d i) ∧
      (∀ d i, d < 2 → i < 3 → index d i < 2 * 3) ∧
      (∀ d1 i1 d2 i2, d1 < 2 → i1 < 3 → d2 < 2 → i2 < 3 →
        index d1 i1 = index d2 i2 → d1 = d2 ∧ i1 = i2) ∧
      (∀ k, k < 2 * 3 → ∃ d i, d < 2 ∧ i < 3 ∧ index d i = k) :=
  ⟨by decide, component_views_partition example_field (by decide)⟩
/-! ### Load -/

/-- C22. The example collection, with the one registered field u, is saved
and then loaded at the same cycle: the Save completes and writes the domain
file and the root file; the Load reads both and fails in BlueprintMeshToMesh,
which asks for a root-level node grid_function that the export never writes,
so no field is registered.  The fields node of the saved document has the
children mesh_attribute and u, which are the names the loop of
LoadMeshAndFields goes through, and mesh_attribute, having no basis, is not a
document that BlueprintFieldToGridFunction accepts. -/
theorem load_after_save_fails :
    (Save example_environment example_collection).failure = none ∧
    (Save example_environment example_collection).files.map SavedFile.path
      = ["out/run_00007/domain_00000.hdf5", "out/run_00007.root"] ∧
    example_collection.field_map.map Prod.fst = ["u"] ∧
    (Load (example_load_environment (Save example_environment example_collection).files)
        example_collection 7).steps
      = [.DeleteAll, .assign_cycle 7, .load "out/run_00007.root" (some "hdf5"),
          .assign_relay_protocol "hdf5", .load "out/run_00007/domain_00000.hdf5" none] ∧
    failure_of (Load (example_load_environment
        (Save example_environment example_collection).files) example_collection 7).result
      = some (.conduit "Cannot fetch non-existent path: grid_function") ∧
    (Save example_environment example_collection).files.head?.bind
        (fun f => f.node.names_at ["fields"]) = some ["mesh_attribute", "u"] ∧
    ((Save example_environment example_collection).files.head?.bind
        (fun f => f.node.fetch? ["fields", "mesh_attribute"])).map
        (fun n => failure_of (BlueprintFieldToGridFunction (fun _ => some 3) n false))
      = some (some (.conduit "Cannot fetch non-existent path: basis")) := by
  decide

/-- C23. The document that MeshToBlueprintMesh writes for the mesh of one
triangle without nodes has no grid_function reference in its main topology,
and BlueprintMeshToMesh, having constructed the Mesh, fails on it asking for
the root-level node grid_function.  The document written for the same mesh
with nodes has the reference mesh_nodes and the field at fields/mesh_nodes,
and the function fails on it in the same way.  On the example mesh document,
which has a root-level grid_function and no reference in the topology, the
function succeeds and attaches the nodes read from the root-level node. -/
theorem nodes_are_read_from_root_level :
    (MeshToBlueprintMesh true one_triangle .empty).toOption.map
        (fun doc => (doc.has_path ["topologies", "main", "grid_function"],
          failure_of (BlueprintMeshToMesh true false (fun _ _ => some 3) doc false).result,
          (BlueprintMeshToMesh true false (fun _ _ => some 3) doc false).meshes_constructed))
      = some (false, some (.conduit "Cannot fetch non-existent path: grid_function"), 1) ∧
    (MeshToBlueprintMesh true curved_triangle .empty).toOption.map
        (fun doc => (doc.string_at ["topologies", "main", "grid_function"],
          doc.has_path ["fields", "mesh_nodes"],
          failure_of (BlueprintMeshToMesh true false (fun _ _ => some 3) doc false).result))
      = some (some "mesh_nodes", true,
          some (.conduit "Cannot fetch non-existent path: grid_function")) ∧
    example_mesh_document.has_path ["topologies", "main", "grid_function"] = false ∧
    (BlueprintMeshToMesh true false (fun _ _ => some 3) example_mesh_document
        false).result.toOption.map (fun r => r.nodes.fes)
      = some example_field.fes := by
  decide

/-- C25, refuted.  With a verification that accepts a document exactly when
it has no node at fields/u, the Save of the example collection (one field,
u) passes the verification and writes a domain file that has fields/u: the
document written is not the document that was verified, and would not have
passed. -/
theorem fields_are_added_after_verification :
    example_collection.field_map.map Prod.fst = ["u"] ∧
    (Save environment_rejecting_u example_collection).failure = none ∧
    (Save environment_rejecting_u example_collection).files.head?.map
        (fun f => (f.path, f.node.has_path ["fields", "u"], environment_rejecting_u.verify f.node))
      = some ("out/run_00007/domain_00000.hdf5", true, false) := by
  decide

theorem Save.fields_frame (field_map : List (String × GridFunction)) (n_mesh : Node)
    (q : List String)
    (h : ∀ name, name ∈ field_map.map Prod.fst →
      diverge ("fields" :: split_path name) q = true) :
    (Save.fields field_map n_mesh).fetch? q = n_mesh.fetch? q := by
  induction field_map generalizing n_mesh with
  | nil => rfl
  | cons entry rest ih =>
    obtain ⟨name, gf⟩ := entry
    simp only [Save.fields]
    rw [ih _ (fun m hm => h m (by simp only [List.map_cons, List.mem_cons]; exact Or.inr hm))]
    exact Node.fetch_set_of_diverge _ _ _ _ (h name (by simp))

/-- C25, amended. Whenever Save writes a domain file, MeshToBlueprintMesh
returned a mesh document that passed blueprint::mesh::verify, and the
document written is that document with the registered fields written into it
after the verification, one after the other at fields/<name>.  Every path of
the written document that lies outside the subtrees of the registered fields
holds what was verified, and with no registered field the written document
is the verified one. -/
theorem written_document_is_verified_mesh_with_fields (env : Environment)
    (dc : ConduitDataCollection) (h : (Save env dc).files.isEmpty = false) :
    ∃ n_mesh f, (Save env dc).files.head? = some f ∧
      MeshToBlueprintMesh env.MFEM_DEBUG dc.mesh .empty = .ok n_mesh ∧
      env.verify n_mesh = true ∧
      f.path = dc.MeshFileName dc.myid dc.relay_protocol ∧
      f.node = Save.fields dc.field_map n_mesh ∧
      (dc.field_map = [] → f.node = n_mesh) ∧
      (∀ q, (∀ name, name ∈ dc.field_map.map Prod.fst →
          diverge ("fields" :: split_path name) q = true) →
        f.node.fetch? q = n_mesh.fetch? q) := by
  have key : ∀ n_mesh domain_file rest,
      MeshToBlueprintMesh env.MFEM_DEBUG dc.mesh .empty = .ok n_mesh →
      env.verify n_mesh = true →
      SaveMeshAndFields env dc dc.myid (Save.fields dc.field_map n_mesh) dc.relay_protocol
        = .ok domain_file →
      (Save env dc).files = domain_file :: rest →
      ∃ n_mesh f, (Save env dc).files.head? = some f ∧
        MeshToBlueprintMesh env.MFEM_DEBUG dc.mesh .empty = .ok n_mesh ∧
        env.verify n_mesh = true ∧
        f.path = dc.MeshFileName dc.myid dc.relay_protocol ∧
        f.node = Save.fields dc.field_map n_mesh ∧
        (dc.field_map = [] → f.node = n_mesh) ∧
        (∀ q, (∀ name, name ∈ dc.field_map.map Prod.fst →
            diverge ("fields" :: split_path name) q = true) →
          f.node.fetch? q = n_mesh.fetch? q) := by
    intro n_mesh domain_file rest hm hv hs hfiles
    unfold SaveMeshAndFields at hs
    split at hs
    · cases hs
    · cases hs
      refine ⟨n_mesh, _, by rw [hfiles]; rfl, hm, hv, rfl, rfl, ?_, ?_⟩
      · intro hempty
        simp only [hempty, Save.fields]
      · intro q hq
        exact Save.fields_frame _ _ _ hq
  rcases Save_cases env dc with ⟨_, hS⟩ | ⟨_, e, _, hS⟩ | ⟨_, n, _, _, hS⟩ | ⟨_, n, hm, hv, hS⟩
  · rw [hS] at h; cases h
  · rw [hS] at h; cases h
  · rw [hS] at h; cases h
  · rcases hS with ⟨e, _, hS⟩ | ⟨domain_file, hs, hS⟩
    · rw [hS] at h; cases h
    · rcases hS with ⟨_, hS⟩ | ⟨_, e, _, hS⟩ | ⟨_, root_file, _, hS⟩
      · exact key n domain_file [] hm hv hs (by rw [hS])
      · exact key n domain_file [] hm hv hs (by rw [hS])
      · exact key n domain_file [root_file] hm hv hs (by rw [hS])

/-- C25 amended, on the example collection: the domain file holds the
verified mesh document with the field u written into it. -/
theorem written_document_is_verified_mesh_with_fields_witness :
    (Save example_environment example_collection).files.isEmpty = false ∧
    ∃ n_mesh f, (Save example_environment example_collection).files.head? = some f ∧
      MeshToBlueprintMesh example_environment.MFEM_DEBUG example_collection.mesh .empty
        = .ok n_mesh ∧
      example_environment.verify n_mesh = true ∧
      f.path = example_collection.MeshFileName example_collection.myid
        example_collection.relay_protocol ∧
      f.node = Save.fields example_collection.field_map n_mesh ∧
      (example_collection.field_map = [] → f.node = n_mesh) ∧
      (∀ q, (∀ name, name ∈ example_collection.field_map.map Prod.fst →
          diverge ("fields" :: split_path name) q = true) →
        f.node.fetch? q = n_mesh.fetch? q) :=
  ⟨by decide, written_document_is_verified_mesh_with_fields example_environment
    example_collection (by decide)⟩

/-- C26. On the example mesh document with boundary attributes stored as
64-bit integers at fields/boundary_attribute/values, the guard
has_child("fields/boundary_attribute") finds no child of that name: nothing is
converted and the null pointer is passed as the boundary-attribute array.  On
the same document with a child of that very name, the array is converted and
the converted copy is passed as the element-attribute array, the
boundary-attribute array being null; with a compact array of native int
under the same guard the array is passed as the boundary-attribute array and
the element-attribute array is null. -/
theorem converted_boundary_attributes_are_misplaced :
    document_with_int64_boundary_attributes.has_path ["fields", "boundary_attribute", "values"]
      = true ∧
    (BlueprintMeshToMesh true false (fun _ _ => some 3) document_with_int64_boundary_attributes
        false).result.toOption.map
        (fun r => (r.args.boundary_attributes, r.args.element_attributes))
      = some (none, none) ∧
    (BlueprintMeshToMesh true false (fun _ _ => some 3)
        (document_with_int64_boundary_attributes.set ["fields/boundary_attribute"] .empty)
        false).result.toOption.map
        (fun r => (r.args.boundary_attributes,
          r.args.element_attributes.map (fun p => p.buf.region)))
      = some (none, some (.node "n_conv/fields/boundary_attribute/values")) ∧
    (BlueprintMeshToMesh true false (fun _ _ => some 3)
        ((example_mesh_document.set ["fields", "boundary_attribute", "values"]
          (Node.int_array "boundary_attribute" [1, 2, 3])).set
            ["fields/boundary_attribute"] .empty)
        false).result.toOption.map
        (fun r => (r.args.boundary_attributes.map (fun p => p.buf.region),
          r.args.element_attributes))
      = some (some (.node "boundary_attribute"), none) := by
  decide

/-- C27. With the domain encoding conduit_bin, SaveRootFile writes the root
file with the encoding json and LoadRootFile reads the same file with the
encoding conduit_bin; a Load that follows the Save, both configured with
conduit_bin, fails at the root file. -/
theorem root_file_is_read_with_domain_encoding :
    (SaveRootFile example_environment example_collection_bin example_collection_bin.num_procs
        .empty example_collection_bin.relay_protocol).toOption.map
        (fun f => (f.path, f.protocol))
      = some ("out/run_00007.root", some "json") ∧
    (LoadRootFile (example_load_environment []) example_collection_bin).1
      = [.load "out/run_00007.root" (some "conduit_bin")] ∧
    (Save example_environment example_collection_bin).failure = none ∧
    (Load (example_load_environment (Save example_environment example_collection_bin).files)
        example_collection_bin 7).steps
      = [.DeleteAll, .assign_cycle 7, .load "out/run_00007.root" (some "conduit_bin")] ∧
    failure_of (Load (example_load_environment
        (Save example_environment example_collection_bin).files) example_collection_bin 7).result
      = some (.conduit "relay::io::load: wrong protocol for out/run_00007.root") := by
  decide

/-- C13. On the example mesh document with the element attribute stored as a
64-bit integer at fields/mesh_attribute/values, which is not a compact array
of native int, BlueprintMeshToMesh called with zero_copy = true converts
nothing: the guard has_child("fields/main_attribute") finds no child of that
name, the array is never read, n_conv stays empty, the null pointer is passed
as the element-attribute array and the mesh returned is not the deep copy.
With the element connectivity stored as 64-bit integers instead, the
conversion is made and the deep copy is returned.  The mesh returned without
the copy has its vertices in the node coords_values, which is local to the
function, and in no buffer of the document. -/
theorem unread_attributes_are_not_converted :
    document_with_int64_mesh_attributes.array_at ["fields", "mesh_attribute", "values"]
      = some [.int 7] ∧
    BlueprintMeshToMesh.not_compact_int
        (document_with_int64_mesh_attributes.fetch? ["fields", "mesh_attribute", "values"])
      = true ∧
    BlueprintMeshToMesh.conversion_needed document_with_int64_mesh_attributes = true ∧
    document_with_int64_mesh_attributes.has_child "fields/main_attribute" = false ∧
    (BlueprintMeshToMesh.arguments true document_with_int64_mesh_attributes).toOption.map
        (fun a => a.2.dtype.is_empty) = some true ∧
    (BlueprintMeshToMesh true false (fun _ _ => some 3) document_with_int64_mesh_attributes
        true).result.toOption.map (fun r => (r.deep_copy, r.args.element_attributes))
      = some (false, none) ∧
    (BlueprintMeshToMesh true false (fun _ _ => some 3) example_mesh_document_int64
        true).result.toOption.map (fun r => r.deep_copy) = some true ∧
    BlueprintMeshToMesh.conversion_needed example_mesh_document = false ∧
    (BlueprintMeshToMesh true false (fun _ _ => some 3) example_mesh_document
        true).result.toOption.map (fun r => (r.deep_copy, r.args.vertices.buf.region))
      = some (false, .node "coords_values") ∧
    Region.node "coords_values" ∉ example_mesh_document.regions := by
  decide
end mfem
